import Mathlib

/-!
# Drone management system: order/drone lifecycle

A shallow embedding of `internal/domain`, of the `Store`/`Tx` contract of
`internal/service/service.go` with its two implementations (the in-memory
store of `service_test.go` and the transactional store of
`internal/repo/postgres`), of the `Service` operations, of the outbox worker of
`internal/events` and of the token endpoint of `internal/transport/httpapi`,
followed by the properties proved about them.

Conventions of the embedding:
* a Go pointer field (`*string`, `*Location`, `*time.Time`) is an `Option`;
* `time.Time` is a natural number of clock ticks, `Before` is `<`;
* a `float64` is NaN, an infinity, the negative zero or a rational number
  (`F64`); comparisons with NaN are false, as in Go;
* a Go map is the list of its values in iteration order, looked up by key;
* the impure readings of one call (`s.now()`, `uuidFunc()`,
  `uuid.NewString()`) are supplied by an `Env`;
* the functions of package `math` are supplied by a `Libm`; each `float64`
  operation returns the exact result rounded to the nearest `float64`, ties to
  even, and no two operations are fused (the Go specification lets a compiler
  fuse `x*y + z`; the compiler for amd64 does not);
* the outbox worker runs over a state of the outside world, the repository and
  the publisher being functions of that state, and records the calls it makes.
-/

namespace DroneSys

/-! ## internal/domain -/

/-- Clock readings (`time.Time`). -/
abbrev Time := Nat

/-- Go `float64` (IEEE 754 binary64): NaN, the infinity `inf false` and its
negative `inf true`, the negative zero, and every other finite value as the
rational number it is (`val 0` is the positive zero). -/
inductive F64 where
  | nan
  | inf (neg : Bool)
  | negZero
  | val (q : Rat)
  deriving DecidableEq, Repr

/-- Go `a < b` on `float64`: false as soon as one side is NaN; the two zeros
are equal. -/
def F64.lt : F64 → F64 → Bool
  | .val a, .val b => decide (a < b)
  | .val a, .negZero => decide (a < 0)
  | .negZero, .val b => decide (0 < b)
  | .negZero, .negZero => false
  | .inf a, .inf b => a && !b
  | .inf a, .val _ => a
  | .inf a, .negZero => a
  | .val _, .inf b => !b
  | .negZero, .inf b => !b
  | .nan, _ => false
  | .inf _, .nan => false
  | .negZero, .nan => false
  | .val _, .nan => false

/-- Go `a > b` on `float64`. -/
def F64.gt (a b : F64) : Bool := F64.lt b a

/-- Statuses of `domain.OrderStatus`. -/
inductive OrderStatus where
  | Created
  | Reserved
  | PickedUp
  | HandoffRequested
  | Delivered
  | Failed
  | Withdrawn
  deriving DecidableEq, Repr

/-- Statuses of `domain.DroneStatus`. -/
inductive DroneStatus where
  | Active
  | Broken
  deriving DecidableEq, Repr

/-- Record `domain.Location`. -/
structure Location where
  Lat : F64
  Lng : F64
  deriving DecidableEq, Repr

/-- Record `domain.Order`. -/
structure Order where
  ID : String
  UserID : String
  Origin : Location
  Destination : Location
  Status : OrderStatus
  AssignedDroneID : Option String
  HandoffOrigin : Option Location
  CreatedAt : Time
  UpdatedAt : Time
  ReservedAt : Option Time
  PickedUpAt : Option Time
  DeliveredAt : Option Time
  FailedAt : Option Time
  FailureReason : Option String
  deriving DecidableEq, Repr

/-- Record `domain.Drone`. -/
structure Drone where
  ID : String
  Status : DroneStatus
  LastLocation : Option Location
  LastHeartbeatAt : Option Time
  CurrentOrderID : Option String
  CreatedAt : Time
  UpdatedAt : Time
  deriving DecidableEq, Repr

/-- Function `domain.IsTerminal`. -/
def IsTerminal (status : OrderStatus) : Bool :=
  match status with
  | .Delivered | .Failed | .Withdrawn => true
  | _ => false

/-- Errors of `domain/errors.go`, plus `Internal` for any error a store
returns that is none of them (a driver or connection error). -/
inductive DomainError where
  | ErrNotFound
  | ErrConflict
  | ErrInvalid
  | ErrUnauthorized
  | ErrForbidden
  | ErrNoJob
  | ErrPrecondition
  | Internal
  deriving DecidableEq, Repr

/-- Results `(value, error)` of the Go functions can be compared. -/
instance instDecidableEqResult {ε α : Type} [DecidableEq ε] [DecidableEq α] :
    DecidableEq (Except ε α)
  | .ok a, .ok b =>
    if h : a = b then isTrue (congrArg Except.ok h)
    else isFalse (fun h' => h (Except.ok.inj h'))
  | .error a, .error b =>
    if h : a = b then isTrue (congrArg Except.error h)
    else isFalse (fun h' => h (Except.error.inj h'))
  | .ok _, .error _ => isFalse (fun h => Except.noConfusion h)
  | .error _, .ok _ => isFalse (fun h => Except.noConfusion h)

/-- Function `domain.ValidateLocation`: `true` stands for the `nil` error. -/
def ValidateLocation (loc : Location) : Bool :=
  if F64.lt loc.Lat (.val (-90)) || F64.gt loc.Lat (.val 90) then false
  else if F64.lt loc.Lng (.val (-180)) || F64.gt loc.Lng (.val 180) then false
  else true

/-! ## internal/events -/

/-- The payload map built by `NewOrderEvent` and `NewDroneEvent`. -/
inductive Payload where
  | order (order_id : String) (status : OrderStatus) (user_id : String)
      (drone_id : Option String) (occurred_at : Time) (drone_status : Option DroneStatus)
  | drone (drone_id : String) (status : DroneStatus) (occurred_at : Time)
  deriving DecidableEq, Repr

/-- Event types of `events.go`. -/
inductive EventType where
  | EventOrderCreated
  | EventOrderReserved
  | EventOrderPickedUp
  | EventOrderDelivered
  | EventOrderFailed
  | EventOrderHandoffRequested
  | EventOrderWithdrawn
  | EventOrderUpdated
  | EventDroneBroken
  | EventDroneFixed
  deriving DecidableEq, Repr

/-- Aggregate kinds of `events.go`. -/
inductive Aggregate where
  | AggregateOrder
  | AggregateDrone
  deriving DecidableEq, Repr

/-- Record `events.Event`. -/
structure Event where
  ID : String
  Typ : EventType
  AggregateType : Aggregate
  AggregateID : String
  Payload : Payload
  OccurredAt : Time
  deriving DecidableEq, Repr

/-- Function `events.NewOrderEvent`; `id` is the reading of `uuid.NewString()`. -/
def NewOrderEvent (id : String) (eventType : EventType) (order : Order) (drone : Option Drone)
    (occurredAt : Time) : Event :=
  { ID := id, Typ := eventType, AggregateType := .AggregateOrder, AggregateID := order.ID,
    Payload := .order order.ID order.Status order.UserID order.AssignedDroneID occurredAt
      (drone.map (fun d => d.Status)),
    OccurredAt := occurredAt }

/-- Function `events.NewDroneEvent`; `id` is the reading of `uuid.NewString()`. -/
def NewDroneEvent (id : String) (eventType : EventType) (drone : Drone) (occurredAt : Time) :
    Event :=
  { ID := id, Typ := eventType, AggregateType := .AggregateDrone, AggregateID := drone.ID,
    Payload := .drone drone.ID drone.Status occurredAt,
    OccurredAt := occurredAt }

/-! ## The store: tables, transactions, the two implementations -/

/-- The persisted tables. `orders` and `drones` are maps keyed by `ID`, held
as the list of their rows in iteration order; `outbox` is the event table. -/
structure Tables where
  orders : List Order
  drones : List Drone
  outbox : List Event
  deriving DecidableEq, Repr

/-- The store without any row. -/
def Tables.empty : Tables := { orders := [], drones := [], outbox := [] }

/-- Map lookup `m[id]`. -/
def lookup {α : Type} (key : α → String) (xs : List α) (id : String) : Option α :=
  xs.find? (fun x => key x == id)

/-- Overwrite the row(s) stored under the key of `x` (SQL `UPDATE ... WHERE id = $n`). -/
def replaceRow {α : Type} (key : α → String) (xs : List α) (x : α) : List α :=
  xs.map (fun y => if key y == key x then x else y)

/-- Map assignment `m[key x] = x`. -/
def assignRow {α : Type} (key : α → String) (xs : List α) (x : α) : List α :=
  if (lookup key xs (key x)).isSome then replaceRow key xs x else xs ++ [x]

/-- The two `Store` implementations of the repository: `mem` is
`memStore`/`memTx` of `service_test.go`, `postgres` is `internal/repo/postgres`. -/
inductive Backend where
  | mem
  | postgres
  deriving DecidableEq, Repr

/-- Writing a row back: `memTx.UpdateOrder`/`UpdateDrone` assign into the map,
`orderUpdateSQL`/`droneUpdateSQL` update the rows with that id. -/
def putRow {α : Type} (b : Backend) (key : α → String) (xs : List α) (x : α) : List α :=
  match b with
  | .mem => assignRow key xs x
  | .postgres => replaceRow key xs x

/-- A transaction in flight. `work` is the state the transaction sees, `calls`
counts the store calls made so far in the operation, `failAt` names the call
(if any) at which the database answers with an error of its own, `committed`
is set by a successful `Commit`. An operation returns at the first store call
that fails, so one failing call per operation covers every failure scenario. -/
structure Tx where
  backend : Backend
  failAt : Option Nat
  calls : Nat
  work : Tables
  committed : Bool
  deriving DecidableEq, Repr

/-- Code running inside a transaction: it returns a value or an error, and the
transaction as it stands at that point (an error keeps the writes made before
it: whether they survive is decided by `Rollback`). -/
def TxM (α : Type) : Type := Tx → Except DomainError α × Tx

/-- Sequencing: a Go `if err != nil { return nil, err }` after each call. -/
def TxM.bind {α β : Type} (m : TxM α) (f : α → TxM β) : TxM β := fun t =>
  match m t with
  | (.ok a, t1) => f a t1
  | (.error e, t1) => (.error e, t1)

instance : Monad TxM where
  pure a := fun t => (.ok a, t)
  bind := TxM.bind

/-- Statement `return nil, err`. -/
def fail {α : Type} (e : DomainError) : TxM α := fun t => (.error e, t)

/-- Statement `if cond { return nil, err }`. -/
def check (cond : Prop) [Decidable cond] (e : DomainError) : TxM Unit := fun t =>
  if cond then (.error e, t) else (.ok (), t)

/-- One call to the store. Only the database of the `postgres` backend can fail
on its own; the in-memory store returns only the errors written in its code. -/
def storeCall {α : Type} (f : Backend → Tables → Except DomainError (α × Tables)) : TxM α :=
  fun t =>
    if t.backend = .postgres ∧ t.failAt = some t.calls then
      (.error .Internal, { t with calls := t.calls + 1 })
    else
      match f t.backend t.work with
      | .ok (a, w) => (.ok a, { t with calls := t.calls + 1, work := w })
      | .error e => (.error e, { t with calls := t.calls + 1 })

/-- Methods `memTx.GetOrderForUpdate` / `Tx.GetOrderForUpdate` (and `Store.GetOrder`). -/
def GetOrderForUpdate (id : String) : TxM Order :=
  storeCall fun _ T =>
    match lookup Order.ID T.orders id with
    | some o => .ok (o, T)
    | none => .error .ErrNotFound

/-- Methods `memTx.GetDroneForUpdate` / `Tx.GetDroneForUpdate` (and `Store.GetDrone`). -/
def GetDroneForUpdate (id : String) : TxM Drone :=
  storeCall fun _ T =>
    match lookup Drone.ID T.drones id with
    | some d => .ok (d, T)
    | none => .error .ErrNotFound

/-- Methods `memTx.CreateDrone` / `Tx.CreateDrone`: a duplicate key is
`ErrConflict` in memory and a driver error from the `INSERT`. -/
def CreateDrone (drone : Drone) : TxM Unit :=
  storeCall fun b T =>
    if (lookup Drone.ID T.drones drone.ID).isSome then
      .error (match b with | .mem => .ErrConflict | .postgres => .Internal)
    else .ok ((), { T with drones := T.drones ++ [drone] })

/-- Methods `memTx.CreateOrder` / `Tx.CreateOrder`. -/
def CreateOrder (order : Order) : TxM Unit :=
  storeCall fun b T =>
    if (lookup Order.ID T.orders order.ID).isSome then
      .error (match b with | .mem => .ErrConflict | .postgres => .Internal)
    else .ok ((), { T with orders := T.orders ++ [order] })

/-- Methods `memTx.UpdateOrder` (map assignment) / `Tx.UpdateOrder` (`orderUpdateSQL`). -/
def UpdateOrder (order : Order) : TxM Unit :=
  storeCall fun b T => .ok ((), { T with orders := putRow b Order.ID T.orders order })

/-- Methods `memTx.UpdateDrone` (map assignment) / `Tx.UpdateDrone` (`droneUpdateSQL`). -/
def UpdateDrone (drone : Drone) : TxM Unit :=
  storeCall fun b T => .ok ((), { T with drones := putRow b Drone.ID T.drones drone })

/-- The loop of `memTx.ReserveNextOrder` over the map, `selected` being the
candidate kept so far: a row is skipped when it has an assigned drone or its
status is not allowed, and replaces the candidate when there is none yet or
when its `CreatedAt` is strictly before the candidate's. -/
def reserveScan (allowed : List OrderStatus) : List Order → Option Order → Option Order
  | [], selected => selected
  | order :: rest, selected =>
    if order.AssignedDroneID.isSome then reserveScan allowed rest selected
    else if !(allowed.contains order.Status) then reserveScan allowed rest selected
    else
      match selected with
      | none => reserveScan allowed rest (some order)
      | some sel =>
        if order.CreatedAt < sel.CreatedAt then reserveScan allowed rest (some order)
        else reserveScan allowed rest selected

/-- Method `memTx.ReserveNextOrder`. -/
def memReserveNextOrder (allowed : List OrderStatus) (orders : List Order) : Option Order :=
  reserveScan allowed orders none

/-- Methods `memTx.ReserveNextOrder` / `Tx.ReserveNextOrder`. For `postgres` the
row is the first of `orderReserveSQL` (`WHERE status = ANY($1) AND
assigned_drone_id IS NULL ORDER BY created_at LIMIT 1`), which is the row the
scan keeps when the rows are listed in the order the database breaks ties in;
with one transaction at a time no row is locked, so `SKIP LOCKED` skips none. -/
def ReserveNextOrder (allowed : List OrderStatus) : TxM (Option Order) :=
  storeCall fun _ T => .ok (memReserveNextOrder allowed T.orders, T)

/-- Methods `memTx.EnqueueEvent` (returns `nil`, stores nothing) / `Tx.EnqueueEvent`
(`outboxInsertSQL`). -/
def EnqueueEvent (event : Event) : TxM Unit :=
  storeCall fun b T =>
    match b with
    | .mem => .ok ((), T)
    | .postgres => .ok ((), { T with outbox := T.outbox ++ [event] })

/-- Methods `memTx.Commit` / `Tx.Commit`. -/
def Commit : TxM Unit := fun t =>
  if t.backend = .postgres ∧ t.failAt = some t.calls then
    (.error .Internal, { t with calls := t.calls + 1 })
  else (.ok (), { t with calls := t.calls + 1, committed := true })

/-- The transaction a successful `BeginTx` hands out on the store `T`;
`BeginTx` itself was store call number 0. -/
def Tx.start (b : Backend) (failAt : Option Nat) (T : Tables) : Tx :=
  { backend := b, failAt := failAt, calls := 1, work := T, committed := false }

/-- The store left behind by `defer tx.Rollback(ctx)` when the operation returns
with its transaction in state `t`, having started from `T`. `Rollback` after a
successful `Commit` does nothing; otherwise the `postgres` transaction discards
its writes, while `memTx.Rollback` only releases the mutex and the writes made
so far stay. -/
def Tx.final (b : Backend) (T : Tables) (t : Tx) : Tables :=
  if t.committed then t.work else match b with | .postgres => T | .mem => t.work

/-- The frame every operation shares: `s.store.BeginTx`, `defer tx.Rollback(ctx)`,
then the body. -/
def runTx {α : Type} (b : Backend) (failAt : Option Nat) (body : TxM α) (T : Tables) :
    Except DomainError α × Tables :=
  if b = .postgres ∧ failAt = some 0 then (.error .Internal, T)
  else
    match body (Tx.start b failAt T) with
    | (r, t) => (r, t.final b T)

/-! ## internal/service -/

/-- What the impure functions return during one call of an operation: `now i`
is the reading of the clock at the `i`-th place `s.now()` is written in the
operation (counted in source order, `getOrCreateDrone`'s argument first),
`uuidFunc` is the package variable behind `newOrderID`, and `NewString i` is
the `uuid.NewString()` drawn by the `i`-th event built. -/
structure Env where
  now : Nat → Time
  uuidFunc : Unit → String
  NewString : Nat → String

/-- Package variable `uuidFunc` as `service.go` initialises it. -/
def uuidFunc : Unit → String := fun _ => ""

/-- Function `newOrderID`. -/
def newOrderID (env : Env) : String := env.uuidFunc ()

/-- Function `getOrCreateDrone`. -/
def getOrCreateDrone (droneID : String) (now : Time) : TxM Drone := fun t =>
  match GetDroneForUpdate droneID t with
  | (.ok drone, t1) => (.ok drone, t1)
  | (.error err, t1) =>
    if err ≠ .ErrNotFound then (.error err, t1)
    else
      let drone : Drone :=
        { ID := droneID, Status := .Active, LastLocation := none, LastHeartbeatAt := none,
          CurrentOrderID := none, CreatedAt := now, UpdatedAt := now }
      match CreateDrone drone t1 with
      | (.ok _, t2) => (.ok drone, t2)
      | (.error e, t2) => (.error e, t2)

/-- Method `Service.SubmitOrder`. -/
def SubmitOrder (b : Backend) (failAt : Option Nat) (env : Env) (T : Tables)
    (userID : String) (origin dest : Location) : Except DomainError Order × Tables :=
  if !ValidateLocation origin then (.error .ErrInvalid, T)
  else if !ValidateLocation dest then (.error .ErrInvalid, T)
  else
    runTx b failAt (do
      let now := env.now 0
      let order : Order :=
        { ID := newOrderID env, UserID := userID, Origin := origin, Destination := dest,
          Status := .Created, AssignedDroneID := none, HandoffOrigin := none,
          CreatedAt := now, UpdatedAt := now, ReservedAt := none, PickedUpAt := none,
          DeliveredAt := none, FailedAt := none, FailureReason := none }
      CreateOrder order
      EnqueueEvent (NewOrderEvent (env.NewString 0) .EventOrderCreated order none now)
      Commit
      pure order) T

/-- Method `Service.WithdrawOrder`. -/
def WithdrawOrder (b : Backend) (failAt : Option Nat) (env : Env) (T : Tables)
    (userID orderID : String) : Except DomainError Order × Tables :=
  runTx b failAt (do
    let order ← GetOrderForUpdate orderID
    check (order.UserID ≠ userID) .ErrForbidden
    check (order.Status ≠ .Created ∧ order.Status ≠ .Reserved) .ErrPrecondition
    (match order.Status, order.AssignedDroneID with
      | .Reserved, some assigned => do
        let drone ← GetDroneForUpdate assigned
        UpdateDrone { drone with CurrentOrderID := none, UpdatedAt := env.now 0 }
      | _, _ => pure ())
    let now := env.now 1
    let order := { order with Status := .Withdrawn, AssignedDroneID := none, UpdatedAt := now }
    UpdateOrder order
    EnqueueEvent (NewOrderEvent (env.NewString 0) .EventOrderWithdrawn order none now)
    Commit
    pure order) T

/-- Method `Service.AdminUpdateOrder`. -/
def AdminUpdateOrder (b : Backend) (failAt : Option Nat) (env : Env) (T : Tables)
    (orderID : String) (origin dest : Option Location) : Except DomainError Order × Tables :=
  runTx b failAt (do
    let order ← GetOrderForUpdate orderID
    check (IsTerminal order.Status = true) .ErrPrecondition
    let order ← (match origin with
      | some o => if !ValidateLocation o then fail .ErrInvalid else pure { order with Origin := o }
      | none => pure order)
    let order ← (match dest with
      | some d =>
        if !ValidateLocation d then fail .ErrInvalid else pure { order with Destination := d }
      | none => pure order)
    let order := { order with UpdatedAt := env.now 0 }
    UpdateOrder order
    EnqueueEvent (NewOrderEvent (env.NewString 0) .EventOrderUpdated order none (env.now 1))
    Commit
    pure order) T

/-- Method `Service.DroneReserveJob`. -/
def DroneReserveJob (b : Backend) (failAt : Option Nat) (env : Env) (T : Tables)
    (droneID : String) : Except DomainError Order × Tables :=
  runTx b failAt (do
    let drone ← getOrCreateDrone droneID (env.now 0)
    check (drone.Status = .Broken) .ErrPrecondition
    check (drone.CurrentOrderID ≠ none) .ErrConflict
    let next ← ReserveNextOrder [.Created, .HandoffRequested]
    match next with
    | none => fail .ErrNoJob
    | some order =>
      let now := env.now 1
      let order :=
        { order with Status := .Reserved, AssignedDroneID := some drone.ID,
                     ReservedAt := some now, UpdatedAt := now }
      UpdateOrder order
      let drone := { drone with CurrentOrderID := some order.ID, UpdatedAt := now }
      UpdateDrone drone
      EnqueueEvent (NewOrderEvent (env.NewString 0) .EventOrderReserved order (some drone) now)
      Commit
      pure order) T

/-- Method `Service.updateOrderForDrone`. -/
def updateOrderForDrone (b : Backend) (failAt : Option Nat) (env : Env) (T : Tables)
    (droneID orderID : String) (eventType : EventType)
    (fn : Order → Except DomainError Order) : Except DomainError Order × Tables :=
  runTx b failAt (do
    let order ← GetOrderForUpdate orderID
    check (order.AssignedDroneID ≠ some droneID) .ErrForbidden
    match fn order with
    | .error e => fail e
    | .ok order =>
      UpdateOrder order
      EnqueueEvent (NewOrderEvent (env.NewString 0) eventType order none (env.now 1))
      Commit
      pure order) T

/-- Method `Service.DronePickup`; the clock of the closure is reading 0. -/
def DronePickup (b : Backend) (failAt : Option Nat) (env : Env) (T : Tables)
    (droneID orderID : String) : Except DomainError Order × Tables :=
  updateOrderForDrone b failAt env T droneID orderID .EventOrderPickedUp fun order =>
    if order.Status ≠ .Reserved ∧ order.Status ≠ .HandoffRequested then .error .ErrPrecondition
    else
      let now := env.now 0
      .ok { order with Status := .PickedUp, PickedUpAt := some now, UpdatedAt := now }

/-- Method `Service.completeOrderForDrone`. -/
def completeOrderForDrone (b : Backend) (failAt : Option Nat) (env : Env) (T : Tables)
    (droneID orderID : String) (status : OrderStatus) (reason : String) :
    Except DomainError Order × Tables :=
  runTx b failAt (do
    let order ← GetOrderForUpdate orderID
    check (order.AssignedDroneID ≠ some droneID) .ErrForbidden
    check (order.Status ≠ .PickedUp) .ErrPrecondition
    let now := env.now 0
    let order := { order with Status := status, UpdatedAt := now }
    let order :=
      if status = .Delivered then { order with DeliveredAt := some now }
      else
        { order with
          FailedAt := some now,
          FailureReason := if reason ≠ "" then some reason else order.FailureReason }
    UpdateOrder order
    let drone ← GetDroneForUpdate droneID
    let drone := { drone with CurrentOrderID := none, UpdatedAt := now }
    UpdateDrone drone
    let eventType : EventType :=
      if status = .Failed then .EventOrderFailed else .EventOrderDelivered
    EnqueueEvent (NewOrderEvent (env.NewString 0) eventType order (some drone) now)
    Commit
    pure order) T

/-- Method `Service.DroneDeliver`. -/
def DroneDeliver (b : Backend) (failAt : Option Nat) (env : Env) (T : Tables)
    (droneID orderID : String) : Except DomainError Order × Tables :=
  completeOrderForDrone b failAt env T droneID orderID .Delivered ""

/-- Method `Service.DroneFail`. -/
def DroneFail (b : Backend) (failAt : Option Nat) (env : Env) (T : Tables)
    (droneID orderID reason : String) : Except DomainError Order × Tables :=
  if reason = "" then (.error .ErrInvalid, T)
  else completeOrderForDrone b failAt env T droneID orderID .Failed reason

/-- The `if drone.CurrentOrderID != nil { ... }` block of `Service.DroneMarkBroken`:
it returns the drone with its current-order reference cleared. -/
def releaseOrder (env : Env) (drone : Drone) (now : Time) : TxM Drone :=
  match drone.CurrentOrderID with
  | none => pure drone
  | some current => do
    let order ← GetOrderForUpdate current
    match order.Status with
    | .PickedUp =>
      let order :=
        { order with
          Status := .HandoffRequested,
          AssignedDroneID := none,
          HandoffOrigin :=
            (match drone.LastLocation with
             | some loc => some loc
             | none => order.HandoffOrigin),
          UpdatedAt := now }
      UpdateOrder order
      let drone := { drone with CurrentOrderID := none }
      EnqueueEvent
        (NewOrderEvent (env.NewString 0) .EventOrderHandoffRequested order (some drone) now)
      pure drone
    | .Reserved =>
      let order :=
        { order with
          Status := .Created, AssignedDroneID := none, ReservedAt := none,
          HandoffOrigin := none, UpdatedAt := now }
      UpdateOrder order
      let drone := { drone with CurrentOrderID := none }
      EnqueueEvent (NewOrderEvent (env.NewString 0) .EventOrderUpdated order (some drone) now)
      pure drone
    | _ => pure { drone with CurrentOrderID := none }

/-- Method `Service.DroneMarkBroken` (also `AdminMarkDroneBroken`). -/
def DroneMarkBroken (b : Backend) (failAt : Option Nat) (env : Env) (T : Tables)
    (droneID : String) : Except DomainError Drone × Tables :=
  runTx b failAt (do
    let drone ← getOrCreateDrone droneID (env.now 0)
    let now := env.now 1
    let drone := { drone with Status := .Broken }
    let drone ← releaseOrder env drone now
    let drone := { drone with UpdatedAt := now }
    UpdateDrone drone
    EnqueueEvent (NewDroneEvent (env.NewString 1) .EventDroneBroken drone now)
    Commit
    pure drone) T

/-- Method `Service.DroneMarkFixed` (also `AdminMarkDroneFixed`). -/
def DroneMarkFixed (b : Backend) (failAt : Option Nat) (env : Env) (T : Tables)
    (droneID : String) : Except DomainError Drone × Tables :=
  runTx b failAt (do
    let drone ← getOrCreateDrone droneID (env.now 0)
    let now := env.now 1
    let drone := { drone with Status := .Active, UpdatedAt := now }
    UpdateDrone drone
    EnqueueEvent (NewDroneEvent (env.NewString 0) .EventDroneFixed drone now)
    Commit
    pure drone) T

/-- What `Service.DroneHeartbeat` returns: the drone and, when it holds an
order the store still has, the order and assigned drone that
`buildOrderView` projects into the `OrderView`. -/
structure DroneStatusView where
  Drone : DroneSys.Drone
  CurrentOrder : Option (Order × Option DroneSys.Drone)
  deriving DecidableEq, Repr

/-- A read outside the transaction (`s.store.GetOrder`, `s.store.GetDrone`)
that treats `ErrNotFound` as "no row": `err != nil && !errors.Is(err, domain.ErrNotFound)`. -/
def orNotFound {α : Type} (m : TxM α) : TxM (Option α) := fun t =>
  match m t with
  | (.ok a, t1) => (.ok (some a), t1)
  | (.error e, t1) => if e = .ErrNotFound then (.ok none, t1) else (.error e, t1)

/-- The store read of `Service.buildOrderView`: the assigned drone, if any. -/
def buildOrderView (order : Order) : TxM (Order × Option Drone) :=
  match order.AssignedDroneID with
  | none => pure (order, none)
  | some assigned => do
    let drone ← orNotFound (GetDroneForUpdate assigned)
    pure (order, drone)

/-- The tail of `Service.DroneHeartbeat`, after `Commit`: the view of the order
the drone holds, read from the store directly (which then shows the state just
committed). -/
def currentOrderView (drone : Drone) : TxM DroneStatusView :=
  match drone.CurrentOrderID with
  | none => pure { Drone := drone, CurrentOrder := none }
  | some current => do
    let order ← orNotFound (GetOrderForUpdate current)
    match order with
    | none => pure { Drone := drone, CurrentOrder := none }
    | some order =>
      let view ← buildOrderView order
      pure { Drone := drone, CurrentOrder := some view }

/-- Method `Service.DroneHeartbeat`. -/
def DroneHeartbeat (b : Backend) (failAt : Option Nat) (env : Env) (T : Tables)
    (droneID : String) (loc : Location) : Except DomainError DroneStatusView × Tables :=
  if !ValidateLocation loc then (.error .ErrInvalid, T)
  else
    runTx b failAt (do
      let drone ← getOrCreateDrone droneID (env.now 0)
      let now := env.now 1
      let drone :=
        { drone with LastLocation := some loc, LastHeartbeatAt := some now, UpdatedAt := now }
      UpdateDrone drone
      Commit
      currentOrderView drone) T

/-- A call of one `Service` operation with its arguments. -/
inductive Op where
  | SubmitOrder (userID : String) (origin dest : Location)
  | WithdrawOrder (userID orderID : String)
  | AdminUpdateOrder (orderID : String) (origin dest : Option Location)
  | DroneReserveJob (droneID : String)
  | DronePickup (droneID orderID : String)
  | DroneDeliver (droneID orderID : String)
  | DroneFail (droneID orderID reason : String)
  | DroneMarkBroken (droneID : String)
  | DroneMarkFixed (droneID : String)
  | DroneHeartbeat (droneID : String) (loc : Location)
  deriving DecidableEq, Repr

/-- What an operation returns on success. -/
inductive Reply where
  | order (o : Order)
  | drone (d : Drone)
  | view (v : DroneStatusView)
  deriving DecidableEq, Repr

/-- Forget which operation a result comes from. -/
def reply {α : Type} (f : α → Reply) (r : Except DomainError α × Tables) :
    Except DomainError Reply × Tables :=
  (r.1.map f, r.2)

/-- Run one operation on the store `T`: the result and the store afterwards. -/
def Op.run (b : Backend) (failAt : Option Nat) (env : Env) (T : Tables) :
    Op → Except DomainError Reply × Tables
  | .SubmitOrder u o d => reply .order (DroneSys.SubmitOrder b failAt env T u o d)
  | .WithdrawOrder u id => reply .order (DroneSys.WithdrawOrder b failAt env T u id)
  | .AdminUpdateOrder id o d => reply .order (DroneSys.AdminUpdateOrder b failAt env T id o d)
  | .DroneReserveJob d => reply .order (DroneSys.DroneReserveJob b failAt env T d)
  | .DronePickup d id => reply .order (DroneSys.DronePickup b failAt env T d id)
  | .DroneDeliver d id => reply .order (DroneSys.DroneDeliver b failAt env T d id)
  | .DroneFail d id r => reply .order (DroneSys.DroneFail b failAt env T d id r)
  | .DroneMarkBroken d => reply .drone (DroneSys.DroneMarkBroken b failAt env T d)
  | .DroneMarkFixed d => reply .drone (DroneSys.DroneMarkFixed b failAt env T d)
  | .DroneHeartbeat d l => reply .view (DroneSys.DroneHeartbeat b failAt env T d l)

/-- The store states reachable from the empty store by `Service` operations
over backend `b`, with any arguments, clock and identifier readings and
database failures. A map has no iteration order of its own (and the database
breaks `created_at` ties as it likes), hence `reorder`. -/
inductive Reachable (b : Backend) : Tables → Prop where
  | empty : Reachable b Tables.empty
  | step {T : Tables} (failAt : Option Nat) (env : Env) (op : Op) :
      Reachable b T → Reachable b (op.run b failAt env T).2
  | reorder {T : Tables} (orders : List Order) (drones : List Drone) :
      Reachable b T → orders.Perm T.orders → drones.Perm T.drones →
      Reachable b { T with orders := orders, drones := drones }

/-! ## Predicates used in the statements -/

/-- The rows of a table have pairwise distinct keys, as the values of a map
(and the rows under a primary key) do. -/
def KeysUnique {α : Type} (key : α → String) (xs : List α) : Prop :=
  ∀ x ∈ xs, ∀ y ∈ xs, key x = key y → x = y

/-- An order `ReserveNextOrder` may hand out: no assigned drone and an allowed status. -/
def Eligible (allowed : List OrderStatus) (o : Order) : Prop :=
  o.AssignedDroneID = none ∧ o.Status ∈ allowed

/-- The statuses in which a drone is working on the order: RESERVED and PICKED_UP. -/
def Active (s : OrderStatus) : Prop := s = .Reserved ∨ s = .PickedUp

/-- The statuses in which the code keeps `AssignedDroneID`: the two active ones,
and DELIVERED and FAILED, which `completeOrderForDrone` reaches without clearing it. -/
def KeepsDrone (s : OrderStatus) : Prop :=
  s = .Reserved ∨ s = .PickedUp ∨ s = .Delivered ∨ s = .Failed

instance (allowed : List OrderStatus) (o : Order) : Decidable (Eligible allowed o) := by
  unfold Eligible; infer_instance

instance (s : OrderStatus) : Decidable (Active s) := by
  unfold Active; infer_instance

instance (s : OrderStatus) : Decidable (KeepsDrone s) := by
  unfold KeepsDrone; infer_instance

/-- The order `DroneReserveJob` writes and returns when it reserves `o` for
`droneID` at clock reading `now`. -/
def reservedFor (o : Order) (droneID : String) (now : Time) : Order :=
  { o with Status := .Reserved, AssignedDroneID := some droneID, ReservedAt := some now,
           UpdatedAt := now }

/-- Drone `id` may reserve: the store has not seen it, or it is ACTIVE and holds no order. -/
def FreeDrone (T : Tables) (id : String) : Prop :=
  ∀ d, lookup Drone.ID T.drones id = some d → d.Status = .Active ∧ d.CurrentOrderID = none

/-- The invariant the operations maintain on the store. -/
structure Inv (T : Tables) : Prop where
  orderKeys : KeysUnique Order.ID T.orders
  droneKeys : KeysUnique Drone.ID T.drones
  assigned : ∀ o ∈ T.orders, o.AssignedDroneID ≠ none ↔ KeepsDrone o.Status
  handoff : ∀ o ∈ T.orders, o.HandoffOrigin ≠ none → o.Status ≠ .Created
  held : ∀ did d oid, lookup Drone.ID T.drones did = some d → d.CurrentOrderID = some oid →
    ∃ o, lookup Order.ID T.orders oid = some o ∧ Active o.Status ∧ o.AssignedDroneID = some did
  carried : ∀ oid o did, lookup Order.ID T.orders oid = some o → Active o.Status →
    o.AssignedDroneID = some did →
    ∃ d, lookup Drone.ID T.drones did = some d ∧ d.CurrentOrderID = some oid

/-! ## Notions used in the proofs -/

/-- The database fails at the next store call of `t`. -/
def Tx.fails (t : Tx) : Prop := t.backend = .postgres ∧ t.failAt = some t.calls

/-- The transaction after one more store call. -/
def Tx.next (t : Tx) : Tx := { t with calls := t.calls + 1 }

/-- The postcondition `Q` holds of the outcome of running `m` from `t`. -/
def post {α : Type} (m : TxM α) (t : Tx) (Q : Except DomainError α → Tx → Prop) : Prop :=
  Q (m t).1 (m t).2

/-- One change of the order and drone tables, as an operation can make it.
The outbox is not constrained. Each constructor records what the code has
checked before writing. -/
inductive Change (b : Backend) (T T' : Tables) : Prop where
  /-- Nothing written to orders or drones. -/
  | same (ho : T'.orders = T.orders) (hd : T'.drones = T.drones)
  /-- `CreateOrder` in `SubmitOrder`. -/
  | newOrder (o : Order) (ho : T'.orders = T.orders ++ [o]) (hd : T'.drones = T.drones)
      (hfresh : lookup Order.ID T.orders o.ID = none)
      (hs : o.Status = .Created) (ha : o.AssignedDroneID = none) (hh : o.HandoffOrigin = none)
  /-- `CreateDrone` in `getOrCreateDrone`. -/
  | newDrone (d : Drone) (ho : T'.orders = T.orders) (hd : T'.drones = T.drones ++ [d])
      (hfresh : lookup Drone.ID T.drones d.ID = none) (hc : d.CurrentOrderID = none)
  /-- `UpdateOrder` in `AdminUpdateOrder`: status, drone and handoff origin kept. -/
  | editOrder (o o' : Order)
      (ho : T'.orders = putRow b Order.ID T.orders o') (hd : T'.drones = T.drones)
      (hl : lookup Order.ID T.orders o.ID = some o)
      (hid : o'.ID = o.ID) (hterm : IsTerminal o.Status = false)
      (hs : o'.Status = o.Status) (ha : o'.AssignedDroneID = o.AssignedDroneID)
      (hh : o'.HandoffOrigin = o.HandoffOrigin)
  /-- `UpdateOrder` in `DronePickup`. -/
  | pickup (o o' : Order)
      (ho : T'.orders = putRow b Order.ID T.orders o') (hd : T'.drones = T.drones)
      (hl : lookup Order.ID T.orders o.ID = some o)
      (hid : o'.ID = o.ID) (hfrom : o.Status = .Reserved ∨ o.Status = .HandoffRequested)
      (hassigned : o.AssignedDroneID ≠ none)
      (hs : o'.Status = .PickedUp) (ha : o'.AssignedDroneID = o.AssignedDroneID)
      (hh : o'.HandoffOrigin = o.HandoffOrigin)
  /-- `UpdateDrone` in `DroneMarkFixed`, `DroneHeartbeat`, and in `DroneMarkBroken`
  for a drone without an order: the current-order reference is kept. -/
  | editDrone (d d' : Drone)
      (ho : T'.orders = T.orders) (hd : T'.drones = putRow b Drone.ID T.drones d')
      (hl : lookup Drone.ID T.drones d.ID = some d)
      (hid : d'.ID = d.ID) (hc : d'.CurrentOrderID = d.CurrentOrderID)
  /-- The two writes of `DroneReserveJob`. -/
  | link (o o' : Order) (d d' : Drone)
      (ho : T'.orders = putRow b Order.ID T.orders o')
      (hd : T'.drones = putRow b Drone.ID T.drones d')
      (hmem : o ∈ T.orders) (he : Eligible [.Created, .HandoffRequested] o)
      (hl : lookup Drone.ID T.drones d.ID = some d) (hfree : d.CurrentOrderID = none)
      (hid : o'.ID = o.ID) (hs : o'.Status = .Reserved) (ha : o'.AssignedDroneID = some d.ID)
      (hh : o'.HandoffOrigin = o.HandoffOrigin)
      (hid' : d'.ID = d.ID) (hc : d'.CurrentOrderID = some o.ID)
  /-- The writes of `WithdrawOrder`: the drone write happens exactly for a
  RESERVED order with an assigned drone. -/
  | withdraw (o o' : Order)
      (ho : T'.orders = putRow b Order.ID T.orders o')
      (hl : lookup Order.ID T.orders o.ID = some o)
      (hfrom : o.Status = .Created ∨ o.Status = .Reserved)
      (hid : o'.ID = o.ID) (hs : o'.Status = .Withdrawn) (ha : o'.AssignedDroneID = none)
      (hh : o'.HandoffOrigin = o.HandoffOrigin)
      (hd : (∃ d d', T'.drones = putRow b Drone.ID T.drones d' ∧ o.Status = .Reserved ∧
                o.AssignedDroneID = some d.ID ∧ lookup Drone.ID T.drones d.ID = some d ∧
                d'.ID = d.ID ∧ d'.CurrentOrderID = none) ∨
            ((o.Status = .Reserved → o.AssignedDroneID = none) ∧ T'.drones = T.drones))
  /-- The writes of `completeOrderForDrone`; the drone write is missing only when
  the drone row does not exist (the in-memory store then keeps the order write). -/
  | complete (o o' : Order) (droneID : String)
      (ho : T'.orders = putRow b Order.ID T.orders o')
      (hl : lookup Order.ID T.orders o.ID = some o)
      (hfrom : o.Status = .PickedUp) (hassigned : o.AssignedDroneID = some droneID)
      (hid : o'.ID = o.ID) (hs : o'.Status = .Delivered ∨ o'.Status = .Failed)
      (ha : o'.AssignedDroneID = o.AssignedDroneID) (hh : o'.HandoffOrigin = o.HandoffOrigin)
      (hd : (∃ d d', T'.drones = putRow b Drone.ID T.drones d' ∧
                lookup Drone.ID T.drones droneID = some d ∧ d'.ID = d.ID ∧
                d'.CurrentOrderID = none) ∨
            (lookup Drone.ID T.drones droneID = none ∧ T'.drones = T.drones))
  /-- The writes of `DroneMarkBroken` for a drone that holds an order. -/
  | release (d d' : Drone) (o : Order)
      (hd : T'.drones = putRow b Drone.ID T.drones d')
      (hl : lookup Drone.ID T.drones d.ID = some d)
      (hcur : d.CurrentOrderID = some o.ID) (hlo : lookup Order.ID T.orders o.ID = some o)
      (hid' : d'.ID = d.ID) (hc : d'.CurrentOrderID = none)
      (ho : (∃ o', T'.orders = putRow b Order.ID T.orders o' ∧ o.Status = .PickedUp ∧
                o'.ID = o.ID ∧ o'.Status = .HandoffRequested ∧ o'.AssignedDroneID = none) ∨
            (∃ o', T'.orders = putRow b Order.ID T.orders o' ∧ o.Status = .Reserved ∧
                o'.ID = o.ID ∧ o'.Status = .Created ∧ o'.AssignedDroneID = none ∧
                o'.HandoffOrigin = none) ∨
            (o.Status ≠ .PickedUp ∧ o.Status ≠ .Reserved ∧ T'.orders = T.orders))

/-- What one operation does to the tables: a sequence of changes (at most
a drone creation followed by the writes proper). -/
def Changes (b : Backend) : Tables → Tables → Prop := Relation.ReflTransGen (Change b)

/-- The drone `getOrCreateDrone` returns and the drone table it leaves. -/
def GotDrone (drones : List Drone) (id : String) (now : Time) (drone : Drone)
    (drones' : List Drone) : Prop :=
  (lookup Drone.ID drones id = some drone ∧ drones' = drones) ∨
  (lookup Drone.ID drones id = none ∧
    drone = { ID := id, Status := .Active, LastLocation := none, LastHeartbeatAt := none,
              CurrentOrderID := none, CreatedAt := now, UpdatedAt := now } ∧
    drones' = drones ++ [drone])

/-- The lookups of a table after at most one of its rows has been set to `u`. -/
def updated {α : Type} (key : α → String) (u : Option α) (xs : List α) (id : String) :
    Option α :=
  match u with
  | some v => if id = key v then some v else lookup key xs id
  | none => lookup key xs id

/-! ## Sample runs, on the in-memory store -/

/-- Run a list of operations one after the other, all with the same readings
and without database failures; the store after the last one. -/
def runAll (b : Backend) (env : Env) (T : Tables) (ops : List Op) : Tables :=
  ops.foldl (fun S op => (op.run b none env S).2) T

/-- Sample readings: a clock that starts at 100, the identifier function of
`service.go`, event identifiers `e0`, `e1`. -/
def sampleEnv : Env :=
  { now := fun i => 100 + i
    uuidFunc := uuidFunc
    NewString := fun i => if i = 0 then "e0" else "e1" }

/-- Sample coordinates. -/
def sampleOrigin : Location := { Lat := .val 1, Lng := .val 1 }

/-- Sample coordinates. -/
def sampleDest : Location := { Lat := .val 2, Lng := .val 2 }

/-- Sample coordinates, a drone position. -/
def sampleDronePos : Location := { Lat := .val 5, Lng := .val 6 }

/-- A run in which drone `drone-a` delivers the one submitted order (whose id is
the empty string `newOrderID` returns). -/
def deliveredStore : Tables :=
  runAll .mem sampleEnv Tables.empty
    [.SubmitOrder "u1" sampleOrigin sampleDest, .DroneReserveJob "drone-a",
     .DronePickup "drone-a" "", .DroneDeliver "drone-a" ""]

/-- A run in which `drone-a` breaks while carrying the order and `drone-b`
reserves the handed-off order. -/
def handedOverStore : Tables :=
  runAll .mem sampleEnv Tables.empty
    [.SubmitOrder "u1" sampleOrigin sampleDest, .DroneReserveJob "drone-a",
     .DronePickup "drone-a" "", .DroneHeartbeat "drone-a" sampleDronePos,
     .DroneMarkBroken "drone-a", .DroneReserveJob "drone-b"]

/-- A run in which the submitted order is withdrawn by its owner `u1`. -/
def withdrawnStore : Tables :=
  runAll .mem sampleEnv Tables.empty
    [.SubmitOrder "u1" sampleOrigin sampleDest, .WithdrawOrder "u1" ""]

/-- A run in which `drone-a` is marked broken on first contact. -/
def brokenDroneStore : Tables :=
  runAll .mem sampleEnv Tables.empty [.DroneMarkBroken "drone-a"]

/-- A run in which the one order is submitted and nothing else happens. -/
def submittedStore : Tables :=
  runAll .mem sampleEnv Tables.empty [.SubmitOrder "u1" sampleOrigin sampleDest]

/-- The order of `deliveredStore`. -/
def deliveredOrder : Order :=
  { ID := "", UserID := "u1", Origin := sampleOrigin, Destination := sampleDest,
    Status := .Delivered, AssignedDroneID := some "drone-a", HandoffOrigin := none,
    CreatedAt := 100, UpdatedAt := 100, ReservedAt := some 101, PickedUpAt := some 100,
    DeliveredAt := some 100, FailedAt := none, FailureReason := none }

/-- The order of `handedOverStore`. -/
def handedOverOrder : Order :=
  { ID := "", UserID := "u1", Origin := sampleOrigin, Destination := sampleDest,
    Status := .Reserved, AssignedDroneID := some "drone-b",
    HandoffOrigin := some sampleDronePos,
    CreatedAt := 100, UpdatedAt := 101, ReservedAt := some 101, PickedUpAt := some 100,
    DeliveredAt := none, FailedAt := none, FailureReason := none }

/-- The order of `withdrawnStore`. -/
def withdrawnOrder : Order :=
  { ID := "", UserID := "u1", Origin := sampleOrigin, Destination := sampleDest,
    Status := .Withdrawn, AssignedDroneID := none, HandoffOrigin := none,
    CreatedAt := 100, UpdatedAt := 101, ReservedAt := none, PickedUpAt := none,
    DeliveredAt := none, FailedAt := none, FailureReason := none }

/-- The order of `submittedStore`. -/
def submittedOrder : Order :=
  { ID := "", UserID := "u1", Origin := sampleOrigin, Destination := sampleDest,
    Status := .Created, AssignedDroneID := none, HandoffOrigin := none,
    CreatedAt := 100, UpdatedAt := 100, ReservedAt := none, PickedUpAt := none,
    DeliveredAt := none, FailedAt := none, FailureReason := none }

/-- The drone of `brokenDroneStore`. -/
def brokenDrone : Drone :=
  { ID := "drone-a", Status := .Broken, LastLocation := none, LastHeartbeatAt := none,
    CurrentOrderID := none, CreatedAt := 100, UpdatedAt := 101 }

/-- The store after `drone-a` has reserved the order of `submittedStore`. -/
def reservedStore : Tables :=
  runAll .mem sampleEnv Tables.empty
    [.SubmitOrder "u1" sampleOrigin sampleDest, .DroneReserveJob "drone-a"]

/-- The order of `reservedStore`. -/
def reservedOrder : Order :=
  { ID := "", UserID := "u1", Origin := sampleOrigin, Destination := sampleDest,
    Status := .Reserved, AssignedDroneID := some "drone-a", HandoffOrigin := none,
    CreatedAt := 100, UpdatedAt := 101, ReservedAt := some 101, PickedUpAt := none,
    DeliveredAt := none, FailedAt := none, FailureReason := none }

/-- The order of `TestReserveJobConcurrency`. -/
def raceOrder : Order :=
  { ID := "o1", UserID := "u1", Origin := sampleOrigin, Destination := sampleDest,
    Status := .Created, AssignedDroneID := none, HandoffOrigin := none,
    CreatedAt := 100, UpdatedAt := 100, ReservedAt := none, PickedUpAt := none,
    DeliveredAt := none, FailedAt := none, FailureReason := none }

/-- The store of `TestReserveJobConcurrency`: one order, no drone yet. -/
def raceStore : Tables := { orders := [raceOrder], drones := [], outbox := [] }

/-! ## internal/service: eta.go -/

/-- Go `a <= b` on `float64`. -/
def F64.le : F64 → F64 → Bool
  | .val a, .val b => decide (a ≤ b)
  | .val a, .negZero => decide (a ≤ 0)
  | .negZero, .val b => decide (0 ≤ b)
  | .negZero, .negZero => true
  | .inf a, .inf b => a || !b
  | .inf a, .val _ => a
  | .inf a, .negZero => a
  | .val _, .inf b => !b
  | .negZero, .inf b => !b
  | .nan, _ => false
  | .inf _, .nan => false
  | .negZero, .nan => false
  | .val _, .nan => false

/-- The sign bit of a `float64` that is not NaN. -/
def F64.sign : F64 → Bool
  | .nan => false
  | .inf neg => neg
  | .negZero => true
  | .val q => decide (q < 0)

/-- The value of a finite `float64`. -/
def F64.toRat : F64 → Rat
  | .val q => q
  | _ => 0

/-- The `float64` is an infinity. -/
def F64.isInf : F64 → Bool
  | .inf _ => true
  | _ => false

/-- The zero with the given sign bit. -/
def F64.zero (neg : Bool) : F64 := if neg then .negZero else .val 0

/-- The integer nearest to `x`, the even one of the two when `x` is halfway. -/
def roundHalfEven (x : Rat) : Int :=
  let f := Rat.floor x
  if x - f < 1 / 2 then f
  else if 1 / 2 < x - f then f + 1
  else if f % 2 = 0 then f else f + 1

/-- The `float64` nearest to the real number `q`, ties to even, which is the
rounding of every `float64` operation of Go: 53 significant bits, exponents
from -1022 to 1023, gradual underflow below `2 ^ (-1022)`, an infinity from
`2 ^ 1024 - 2 ^ 970` on. -/
def F64.round (q : Rat) : F64 :=
  if q = 0 then .val 0
  else
    let e : Int := max (Int.log 2 |q|) (-1022)
    let ulp : Rat := 2 ^ (e - 52)
    let r : Rat := roundHalfEven (|q| / ulp) * ulp
    if 2 ^ 1024 ≤ r then .inf (decide (q < 0))
    else if r = 0 then F64.zero (decide (q < 0))
    else .val (if q < 0 then -r else r)

/-- Go `a + b` on `float64`. -/
def F64.add (a b : F64) : F64 :=
  if a = .nan ∨ b = .nan then .nan
  else if a.isInf then (if b.isInf ∧ a.sign ≠ b.sign then .nan else a)
  else if b.isInf then b
  else if a.toRat + b.toRat = 0 then F64.zero (a.sign && b.sign)
  else F64.round (a.toRat + b.toRat)

/-- Go `-a` on `float64`. -/
def F64.neg : F64 → F64
  | .nan => .nan
  | .inf neg => .inf (!neg)
  | .negZero => .val 0
  | .val q => if q = 0 then .negZero else .val (-q)

/-- Go `a - b` on `float64`, which is `a + (-b)`. -/
def F64.sub (a b : F64) : F64 := F64.add a (F64.neg b)

/-- Go `a * b` on `float64`. -/
def F64.mul (a b : F64) : F64 :=
  if a = .nan ∨ b = .nan then .nan
  else if a.isInf ∨ b.isInf then
    (if (¬ a.isInf ∧ a.toRat = 0) ∨ (¬ b.isInf ∧ b.toRat = 0) then .nan
     else .inf (xor a.sign b.sign))
  else if a.toRat * b.toRat = 0 then F64.zero (xor a.sign b.sign)
  else F64.round (a.toRat * b.toRat)

/-- Go `a / b` on `float64`. -/
def F64.div (a b : F64) : F64 :=
  if a = .nan ∨ b = .nan then .nan
  else if a.isInf then (if b.isInf then .nan else .inf (xor a.sign b.sign))
  else if b.isInf then F64.zero (xor a.sign b.sign)
  else if b.toRat = 0 then
    (if a.toRat = 0 then .nan else .inf (xor a.sign b.sign))
  else if a.toRat = 0 then F64.zero (xor a.sign b.sign)
  else F64.round (a.toRat / b.toRat)

/-- What `eta.go` takes from outside the repository: the constant and functions
of package `math`, and the result `Int64Undef x` of converting to `int64` an
`x` that is NaN, an infinity or a value outside the range of `int64`, which
the Go specification leaves to the implementation. -/
structure Libm where
  Pi : F64
  Sin : F64 → F64
  Cos : F64 → F64
  Asin : F64 → F64
  Sqrt : F64 → F64
  Int64Undef : F64 → Int

/-- Go conversion `int64(x)` of a `float64`: the fraction is discarded. -/
def int64 (m : Libm) : F64 → Int
  | .val q =>
    let n : Int := if 0 ≤ q then Rat.floor q else -Rat.floor (-q)
    if -2 ^ 63 ≤ n ∧ n < 2 ^ 63 then n else m.Int64Undef (.val q)
  | .negZero => 0
  | .inf neg => m.Int64Undef (.inf neg)
  | .nan => m.Int64Undef .nan

/-- Function `degreesToRadians`. -/
def degreesToRadians (m : Libm) (deg : F64) : F64 :=
  F64.div (F64.mul deg m.Pi) (.val 180)

/-- Function `haversineMeters`. -/
def haversineMeters (m : Libm) (a b : Location) : F64 :=
  let earthRadius : F64 := .val 6371000
  let lat1 := degreesToRadians m a.Lat
  let lat2 := degreesToRadians m b.Lat
  let dLat := degreesToRadians m (F64.sub b.Lat a.Lat)
  let dLng := degreesToRadians m (F64.sub b.Lng a.Lng)
  let sinLat := m.Sin (F64.div dLat (.val 2))
  let sinLng := m.Sin (F64.div dLng (.val 2))
  let h := F64.add (F64.mul sinLat sinLat)
    (F64.mul (F64.mul (F64.mul (m.Cos lat1) (m.Cos lat2)) sinLng) sinLng)
  F64.mul (F64.mul (.val 2) earthRadius) (m.Asin (m.Sqrt h))

/-- Function `ComputeETA`; `none` is the `nil` result. -/
def ComputeETA (m : Libm) (order : Order) (drone : Option Drone) (speedMPS : F64) :
    Option Int :=
  if IsTerminal order.Status then none
  else if F64.le speedMPS (.val 0) then none
  else
    let start : Option Location :=
      match order.Status with
      | .Created | .Reserved => some order.Origin
      | .PickedUp =>
        (match drone with
         | none => none
         | some d => d.LastLocation)
      | .HandoffRequested => order.HandoffOrigin
      | _ => none
    match start with
    | none => none
    | some loc =>
      let dist := haversineMeters m loc order.Destination
      let seconds := int64 m (F64.div dist speedMPS)
      some (if seconds < 0 then 0 else seconds)

/-! ## Coordinate ranges, as the statements name them -/

/-- A coordinate that is a number of the closed interval from `lo` to `hi`. -/
def F64.within (lo hi : Rat) : F64 → Prop
  | .val q => lo ≤ q ∧ q ≤ hi
  | .negZero => lo ≤ 0 ∧ 0 ≤ hi
  | .inf _ => False
  | .nan => False

/-- A coordinate that is below `lo` or above `hi`. -/
def F64.outside (lo hi : Rat) : F64 → Prop
  | .val q => q < lo ∨ hi < q
  | .negZero => 0 < lo ∨ hi < 0
  | .inf _ => True
  | .nan => False

instance (lo hi : Rat) (x : F64) : Decidable (F64.within lo hi x) := by
  cases x <;> unfold F64.within <;> infer_instance

instance (lo hi : Rat) (x : F64) : Decidable (F64.outside lo hi x) := by
  cases x <;> unfold F64.outside <;> infer_instance

/-- Coordinates within range: latitude within [-90, 90] and longitude within
[-180, 180]. -/
def InRange (loc : Location) : Prop :=
  F64.within (-90) 90 loc.Lat ∧ F64.within (-180) 180 loc.Lng

/-- Coordinates out of range: not within range. A NaN coordinate is out of
range. -/
def OutOfRange (loc : Location) : Prop := ¬ InRange loc

instance (loc : Location) : Decidable (InRange loc) := by
  unfold InRange; infer_instance

instance (loc : Location) : Decidable (OutOfRange loc) := by
  unfold OutOfRange; infer_instance

/-! ## What the operations write, as the statements name it -/

/-- The order `completeOrderForDrone` writes for the PICKED_UP order `o`. -/
def completed (o : Order) (status : OrderStatus) (reason : String) (now : Time) : Order :=
  if status = .Delivered then
    { o with Status := status, UpdatedAt := now, DeliveredAt := some now }
  else
    { o with Status := status, UpdatedAt := now, FailedAt := some now,
             FailureReason := if reason ≠ "" then some reason else o.FailureReason }

/-- The order `DroneMarkBroken` writes for the order `o` its drone holds: the
hand-off of a PICKED_UP order, the requeueing of a RESERVED one. -/
def released (o : Order) (drone : Drone) (now : Time) : Order :=
  match o.Status with
  | .PickedUp =>
    { o with
      Status := .HandoffRequested, AssignedDroneID := none,
      HandoffOrigin := if drone.LastLocation ≠ none then drone.LastLocation else o.HandoffOrigin,
      UpdatedAt := now }
  | _ =>
    { o with
      Status := .Created, AssignedDroneID := none, ReservedAt := none, HandoffOrigin := none,
      UpdatedAt := now }

/-- The order `SubmitOrder` creates. -/
def submitted (env : Env) (userID : String) (origin dest : Location) : Order :=
  { ID := newOrderID env, UserID := userID, Origin := origin, Destination := dest,
    Status := .Created, AssignedDroneID := none, HandoffOrigin := none,
    CreatedAt := env.now 0, UpdatedAt := env.now 0, ReservedAt := none, PickedUpAt := none,
    DeliveredAt := none, FailedAt := none, FailureReason := none }

/-! ## More sample runs, on the in-memory store -/

/-- Stand-ins for package `math` in the sample runs, which only need some
functions: `sin x` and `asin x` taken as `x`, `cos x` as 1, `Sqrt` as the identity,
and the `int64` an amd64 processor gives for NaN. -/
def sampleLibm : Libm :=
  { Pi := .val (355 / 113), Sin := id, Cos := fun _ => .val 1, Asin := id, Sqrt := id,
    Int64Undef := fun _ => -2 ^ 63 }

/-- The drone of `reservedStore`; it is unchanged by the pickup. -/
def reservedDrone : Drone :=
  { ID := "drone-a", Status := .Active, LastLocation := none, LastHeartbeatAt := none,
    CurrentOrderID := some "", CreatedAt := 100, UpdatedAt := 101 }

/-- The store after `drone-a` has picked up the order of `reservedStore`. -/
def pickedUpStore : Tables :=
  runAll .mem sampleEnv Tables.empty
    [.SubmitOrder "u1" sampleOrigin sampleDest, .DroneReserveJob "drone-a",
     .DronePickup "drone-a" ""]

/-- The order of `pickedUpStore`. -/
def pickedUpOrder : Order :=
  { ID := "", UserID := "u1", Origin := sampleOrigin, Destination := sampleDest,
    Status := .PickedUp, AssignedDroneID := some "drone-a", HandoffOrigin := none,
    CreatedAt := 100, UpdatedAt := 100, ReservedAt := some 101, PickedUpAt := some 100,
    DeliveredAt := none, FailedAt := none, FailureReason := none }

/-- The run of `handedOverStore`, continued: `drone-b`, which never sent a
heartbeat, picks up the handed-off order. -/
def rePickedUpStore : Tables :=
  runAll .mem sampleEnv Tables.empty
    [.SubmitOrder "u1" sampleOrigin sampleDest, .DroneReserveJob "drone-a",
     .DronePickup "drone-a" "", .DroneHeartbeat "drone-a" sampleDronePos,
     .DroneMarkBroken "drone-a", .DroneReserveJob "drone-b", .DronePickup "drone-b" ""]

/-- The order of `rePickedUpStore`. -/
def rePickedUpOrder : Order :=
  { ID := "", UserID := "u1", Origin := sampleOrigin, Destination := sampleDest,
    Status := .PickedUp, AssignedDroneID := some "drone-b",
    HandoffOrigin := some sampleDronePos,
    CreatedAt := 100, UpdatedAt := 100, ReservedAt := some 101, PickedUpAt := some 100,
    DeliveredAt := none, FailedAt := none, FailureReason := none }

/-- The drone `drone-b` of `rePickedUpStore`. -/
def secondDrone : Drone :=
  { ID := "drone-b", Status := .Active, LastLocation := none, LastHeartbeatAt := none,
    CurrentOrderID := some "", CreatedAt := 100, UpdatedAt := 101 }

/-- Coordinates with a latitude above 90. -/
def badDest : Location := { Lat := .val 91, Lng := .val 0 }

/-- Coordinates whose latitude is NaN. -/
def nanOrigin : Location := { Lat := .nan, Lng := .val 0 }

/-- The order `SubmitOrder` creates from `nanOrigin`. -/
def nanOrder : Order :=
  { ID := "", UserID := "u1", Origin := nanOrigin, Destination := sampleDest,
    Status := .Created, AssignedDroneID := none, HandoffOrigin := none,
    CreatedAt := 100, UpdatedAt := 100, ReservedAt := none, PickedUpAt := none,
    DeliveredAt := none, FailedAt := none, FailureReason := none }

/-- The store after `drone-a`, carrying the order, has reported its position. -/
def carryingStore : Tables :=
  runAll .mem sampleEnv Tables.empty
    [.SubmitOrder "u1" sampleOrigin sampleDest, .DroneReserveJob "drone-a",
     .DronePickup "drone-a" "", .DroneHeartbeat "drone-a" sampleDronePos]

/-- The drone of `carryingStore`; its order is `pickedUpOrder`. -/
def carryingDrone : Drone :=
  { ID := "drone-a", Status := .Active, LastLocation := some sampleDronePos,
    LastHeartbeatAt := some 101, CurrentOrderID := some "", CreatedAt := 100, UpdatedAt := 101 }

/-! ## internal/service: eta.go, the projected location -/

/-- Function `CurrentLocation`; `none` is the `nil` result. -/
def CurrentLocation (order : Order) (drone : Option Drone) : Option Location :=
  match order.Status with
  | .Created | .Reserved => some order.Origin
  | .PickedUp =>
    (match drone with
     | none => none
     | some d => d.LastLocation)
  | .HandoffRequested => order.HandoffOrigin
  | _ => none

/-! ## internal/domain: roles -/

/-- Constant `RoleAdmin`. -/
def RoleAdmin : String := "admin"

/-- Constant `RoleEndUser`. -/
def RoleEndUser : String := "enduser"

/-- Constant `RoleDrone`. -/
def RoleDrone : String := "drone"

/-- Function `ValidateRole`. -/
def ValidateRole (role : String) : Bool :=
  if role = RoleAdmin ∨ role = RoleEndUser ∨ role = RoleDrone then true else false

/-! ## internal/transport/httpapi: the token endpoint -/

/-- The JSON body of a response: an `errorResponse`, or the token map of
`handleIssueToken`. -/
inductive Body where
  | errorResponse (Code Message : String)
  | token (token : String) (expires_at : Time)
  deriving DecidableEq, Repr

/-- What `respondJSON` writes: the status code and the body. -/
structure Response where
  status : Nat
  body : Body
  deriving DecidableEq, Repr

/-- Function `writeError`; `errors.Is` is the comparison with the error value,
and `Internal` takes the `default` branch. -/
def writeError (err : DomainError) : Response :=
  match err with
  | .ErrUnauthorized => { status := 401, body := .errorResponse "unauthorized" "unauthorized" }
  | .ErrForbidden => { status := 403, body := .errorResponse "forbidden" "forbidden" }
  | .ErrNotFound => { status := 404, body := .errorResponse "not_found" "not found" }
  | .ErrConflict => { status := 409, body := .errorResponse "conflict" "conflict" }
  | .ErrInvalid => { status := 422, body := .errorResponse "invalid" "invalid request" }
  | .ErrPrecondition =>
    { status := 409, body := .errorResponse "precondition_failed" "precondition failed" }
  | .ErrNoJob => { status := 404, body := .errorResponse "no_job" "no job available" }
  | .Internal => { status := 500, body := .errorResponse "internal" "internal error" }

/-- The request body of `POST /auth/token`, as `json.Decode` fills it in (a
missing field is the empty string). -/
structure TokenRequest where
  Name : String
  Role : String
  deriving DecidableEq, Repr

/-- Method `Server.handleIssueToken`. `decoded` is the outcome of decoding the
request body (`none` when `Decode` returns an error) and `IssueToken` is
`auth.Authenticator.IssueToken`, which signs the token. -/
def handleIssueToken (IssueToken : String → String → Except DomainError (String × Time))
    (decoded : Option TokenRequest) : Response :=
  match decoded with
  | none => writeError .ErrInvalid
  | some req =>
    if req.Name = "" ∨ !ValidateRole req.Role then writeError .ErrInvalid
    else
      match IssueToken req.Name req.Role with
      | .error err => writeError err
      | .ok (token, exp) => { status := 200, body := .token token exp }

/-! ## internal/events: the outbox worker -/

/-- A Go `error` value of the repository, the publisher or the context, by its
message. -/
abbrev GoError := String

/-- Interface `OutboxRepository`, over a state `σ` of the world outside the
worker (the database, the bus): a call returns its result and the state after it. -/
structure OutboxRepository (σ : Type) where
  FetchPending : Int → σ → Except GoError (List Event) × σ
  MarkPublished : List String → σ → Option GoError × σ

/-- Interface `Publisher` (`Close` is not called by the worker). -/
structure Publisher (σ : Type) where
  Publish : Event → σ → Option GoError × σ

/-- Record `OutboxWorker`; the logger is the `Printf` entries of the trace. -/
structure OutboxWorker (σ : Type) where
  Repo : OutboxRepository σ
  Publisher : DroneSys.Publisher σ
  PollInterval : Int
  BatchSize : Int

/-- One call the worker makes, with what the call returned. -/
inductive Call where
  | FetchPending (limit : Int) (result : Except GoError (List Event))
  | Publish (evt : Event) (err : Option GoError)
  | MarkPublished (ids : List String) (err : Option GoError)
  | Printf (format : String)
  deriving DecidableEq, Repr

/-- The loop `for _, evt := range evts` of `OutboxWorker.Start`: the calls made,
the slice `published` and the state at the end. -/
def publishAll {σ : Type} (w : OutboxWorker σ) :
    List Event → List String → σ → List Call × List String × σ
  | [], published, s => ([], published, s)
  | evt :: rest, published, s =>
    match w.Publisher.Publish evt s with
    | (some err, s1) =>
      match publishAll w rest published s1 with
      | (calls, published', s2) =>
        (.Publish evt (some err) :: .Printf "publish error id=%s type=%s: %v" :: calls,
          published', s2)
    | (none, s1) =>
      match publishAll w rest (published ++ [evt.ID]) s1 with
      | (calls, published', s2) => (.Publish evt none :: calls, published', s2)

/-- The body of `case <-ticker.C:` in `OutboxWorker.Start`: one cycle. -/
def tick {σ : Type} (w : OutboxWorker σ) (s : σ) : List Call × σ :=
  match w.Repo.FetchPending w.BatchSize s with
  | (.error err, s1) =>
    ([.FetchPending w.BatchSize (.error err), .Printf "outbox fetch error: %v"], s1)
  | (.ok evts, s1) =>
    if evts.length = 0 then ([.FetchPending w.BatchSize (.ok evts)], s1)
    else
      match publishAll w evts [] s1 with
      | (calls, published, s2) =>
        match w.Repo.MarkPublished published s2 with
        | (some err, s3) =>
          (.FetchPending w.BatchSize (.ok evts) :: calls ++
            [.MarkPublished published (some err), .Printf "mark published error: %v"], s3)
        | (none, s3) =>
          (.FetchPending w.BatchSize (.ok evts) :: calls ++ [.MarkPublished published none], s3)

/-- Which case of the `select` of `OutboxWorker.Start` is taken: `<-ctx.Done()`
or `<-ticker.C`. -/
inductive Signal where
  | Done
  | Tick
  deriving DecidableEq, Repr

/-- The `for { select { ... } }` of `OutboxWorker.Start`, run over the cases its
`select` takes one after the other; `ctxErr` is what `ctx.Err()` returns once
the context is done. The result `none` means that `Start` has not returned: it
is waiting in `select` after the last of the signals. -/
def loop {σ : Type} (w : OutboxWorker σ) (ctxErr : GoError) :
    List Signal → σ → Option GoError × List Call × σ
  | [], s => (none, [], s)
  | .Done :: _, s => (some ctxErr, [], s)
  | .Tick :: rest, s =>
    match tick w s with
    | (calls, s1) =>
      match loop w ctxErr rest s1 with
      | (r, calls', s2) => (r, calls ++ calls', s2)

/-- The head of `OutboxWorker.Start`: the defaults for `PollInterval` (one second,
in nanoseconds) and `BatchSize`. -/
def defaults {σ : Type} (w : OutboxWorker σ) : OutboxWorker σ :=
  { w with
    PollInterval := if w.PollInterval ≤ 0 then 1000000000 else w.PollInterval
    BatchSize := if w.BatchSize ≤ 0 then 50 else w.BatchSize }

/-- Method `OutboxWorker.Start`: the defaults, then the loop. -/
def Start {σ : Type} (w : OutboxWorker σ) (ctxErr : GoError) (signals : List Signal) (s : σ) :
    Option GoError × List Call × σ :=
  loop (defaults w) ctxErr signals s

/-! ## Traces of the outbox worker, as the statements name them -/

/-- The publish attempts of a trace, in order: the event and the error returned. -/
def attempts : List Call → List (Event × Option GoError)
  | [] => []
  | .Publish evt err :: rest => (evt, err) :: attempts rest
  | _ :: rest => attempts rest

/-- The id slices passed to `MarkPublished` in a trace, in order. -/
def marked : List Call → List (List String)
  | [] => []
  | .MarkPublished ids _ :: rest => ids :: marked rest
  | _ :: rest => marked rest

/-- The ids of the events of `xs` whose publish attempt returned no error. -/
def succeeded (xs : List (Event × Option GoError)) : List String :=
  (xs.filter (fun x => x.2.isNone)).map (fun x => x.1.ID)

/-- The cycle as the specification words it, on the side of the bus: each event
of the batch gets one publish attempt, in batch order, the bus being left by
each attempt as the next one finds it. The result is the attempts with what
each returned, and the world after the last. -/
def attemptEach {σ : Type} (P : Publisher σ) :
    List Event → σ → List (Event × Option GoError) × σ
  | [], s => ([], s)
  | evt :: rest, s =>
    ((evt, (P.Publish evt s).1) :: (attemptEach P rest (P.Publish evt s).2).1,
      (attemptEach P rest (P.Publish evt s).2).2)

/-! ## Sample outbox workers -/

/-- Two sample events. -/
def sampleEvents : List Event :=
  [NewOrderEvent "e0" .EventOrderCreated submittedOrder none 100,
   NewDroneEvent "e1" .EventDroneBroken brokenDrone 101]

/-- A worker over a world whose state is the list of ids marked so far: the
fetch returns `sampleEvents`, the bus refuses the events of type `drone.broken`,
the marking succeeds. -/
def sampleWorker : OutboxWorker (List String) :=
  { Repo :=
      { FetchPending := fun _ s => (.ok sampleEvents, s)
        MarkPublished := fun ids s => (none, s ++ ids) }
    Publisher :=
      { Publish := fun evt s =>
          (if evt.Typ = .EventDroneBroken then some "bus down" else none, s) }
    PollInterval := 0
    BatchSize := 0 }

/-- The worker `sampleWorker` with a repository whose fetch fails. -/
def brokenFetchWorker : OutboxWorker (List String) :=
  { sampleWorker with
    Repo :=
      { FetchPending := fun _ s => (.error "connection refused", s)
        MarkPublished := fun ids s => (none, s ++ ids) } }

/-- A worker over a world that keeps the journal of the calls it receives: the
repository and the bus append each call, with what they return, to the state.
The fetch returns `sampleEvents`, the bus refuses the events of type
`drone.broken`, the marking succeeds. -/
def journalWorker : OutboxWorker (List Call) :=
  { Repo :=
      { FetchPending := fun limit s =>
          (.ok sampleEvents, s ++ [.FetchPending limit (.ok sampleEvents)])
        MarkPublished := fun ids s => (none, s ++ [.MarkPublished ids none]) }
    Publisher :=
      { Publish := fun evt s =>
          (if evt.Typ = .EventDroneBroken then some "bus down" else none,
            s ++ [.Publish evt (if evt.Typ = .EventDroneBroken then some "bus down" else none)]) }
    PollInterval := 0
    BatchSize := 0 }

/-! ## Sample runs for the hand-off -/

/-- The run of `carryingStore`, continued: `drone-a` is marked broken while it
carries the order. -/
def handoffStore : Tables :=
  runAll .mem sampleEnv Tables.empty
    [.SubmitOrder "u1" sampleOrigin sampleDest, .DroneReserveJob "drone-a",
     .DronePickup "drone-a" "", .DroneHeartbeat "drone-a" sampleDronePos,
     .DroneMarkBroken "drone-a"]

/-- The order of `handoffStore`. -/
def handoffOrder : Order :=
  { ID := "", UserID := "u1", Origin := sampleOrigin, Destination := sampleDest,
    Status := .HandoffRequested, AssignedDroneID := none,
    HandoffOrigin := some sampleDronePos,
    CreatedAt := 100, UpdatedAt := 101, ReservedAt := some 101, PickedUpAt := some 100,
    DeliveredAt := none, FailedAt := none, FailureReason := none }

/-! ## Database failures, as the statements name them -/

/-- The transaction `t` with a database that does not fail. -/
def Tx.sound (t : Tx) : Tx := { t with failAt := none }

/-- The code `m` does with a failing database what it does with a sound one, up
to the point where a store call fails, and then returns the error of that call. -/
def Faithful {α : Type} (m : TxM α) : Prop :=
  ∀ t, (m t).1 = .error .Internal ∨
    ((m t.sound).1 = (m t).1 ∧ (m t.sound).2 = (m t).2.sound)

/-- The code `m` leaves the transaction open and the backend as it is, and at
most appends events to the outbox. -/
def Quiet {α : Type} (m : TxM α) : Prop :=
  ∀ t, (m t).2.committed = t.committed ∧ (m t).2.backend = t.backend ∧
    ∃ evs, (m t).2.work.outbox = t.work.outbox ++ evs

/-- Run in an open transaction of the transactional store, the code `m` ends
with an error and the transaction still open, or with a result, the transaction
committed and at least one event added to the outbox. -/
def Atomic {α : Type} (m : TxM α) : Prop :=
  ∀ t, t.committed = false → t.backend = .postgres →
    (∀ e, (m t).1 = .error e → (m t).2.committed = false) ∧
    (∀ r, (m t).1 = .ok r → (m t).2.committed = true ∧
      ∃ evs, evs ≠ [] ∧ (m t).2.work.outbox = t.work.outbox ++ evs)

/-- The outcome `x` of an operation on the store `T`, `x0` being its outcome when
the database does not fail: an error leaves the store as it was, a success
adds at least one event to the outbox, and a database failure either makes the
operation fail with the error of the database or changes nothing to the outcome. -/
def Transactional {α : Type} (T : Tables) (x x0 : Except DomainError α × Tables) : Prop :=
  (∀ e, x.1 = .error e → x.2 = T) ∧
  (∀ r, x.1 = .ok r → ∃ evs, evs ≠ [] ∧ x.2.outbox = T.outbox ++ evs) ∧
  (x = (.error .Internal, T) ∨ x = x0)

/-! ## The end-to-end scenario -/

/-- The origin of the end-to-end scenario, (24.7136, 46.6753). -/
def scenarioOrigin : Location := { Lat := .val (247136 / 10000), Lng := .val (466753 / 10000) }

/-- The destination of the end-to-end scenario, (24.7743, 46.7386). -/
def scenarioDest : Location := { Lat := .val (247743 / 10000), Lng := .val (467386 / 10000) }

/-! ## Lemmas on tables -/

section tables
variable {α : Type} (key : α → String)

theorem lookup_some {xs : List α} {id : String} {x : α} (h : lookup key xs id = some x) :
    x ∈ xs ∧ key x = id := by
  unfold lookup at h
  exact ⟨List.mem_of_find?_eq_some h, by simpa using List.find?_some h⟩

theorem lookup_eq_none {xs : List α} {id : String} :
    lookup key xs id = none ↔ ∀ x ∈ xs, key x ≠ id := by
  unfold lookup
  simp

theorem lookup_of_mem {xs : List α} (hk : KeysUnique key xs) {x : α} (hx : x ∈ xs) :
    lookup key xs (key x) = some x := by
  cases h : lookup key xs (key x) with
  | none => exact absurd rfl ((lookup_eq_none key).1 h x hx)
  | some y =>
    obtain ⟨hy, hyk⟩ := lookup_some key h
    rw [hk y hy x hx hyk]

theorem lookup_replaceRow (xs : List α) (x : α) (id : String) :
    lookup key (replaceRow key xs x) id =
      if id = key x then (lookup key xs id).map (fun _ => x) else lookup key xs id := by
  unfold lookup replaceRow
  induction xs with
  | nil => simp
  | cons y ys ih =>
    simp only [List.map_cons, List.find?_cons]
    rw [ih]
    by_cases hy : key y = key x <;> by_cases hid : id = key x
    · simp [hy, hid]
    · have hb : (key x == id) = false := by simpa using fun h => hid h.symm
      simp [hy, hid, hb]
    · have hb : (key y == id) = false := by simpa using fun h => hy (h.trans hid)
      have hb' : (key y == key x) = false := by simpa using hy
      simp [hid, hb, hb']
    · have hb' : (key y == key x) = false := by simpa using hy
      simp [hid, hb']

theorem lookup_append (xs : List α) (x : α) (id : String) :
    lookup key (xs ++ [x]) id =
      match lookup key xs id with
      | some y => some y
      | none => if key x = id then some x else none := by
  unfold lookup
  rw [List.find?_append]
  cases h : List.find? (fun x => key x == id) xs <;> simp [List.find?_cons]
  split <;> simp_all

theorem putRow_eq (b : Backend) (xs : List α) (x : α) (h : (lookup key xs (key x)).isSome) :
    putRow b key xs x = replaceRow key xs x := by
  cases b <;> simp [putRow, assignRow, h]

theorem mem_replaceRow {xs : List α} {x y : α} :
    y ∈ replaceRow key xs x ↔ (y ∈ xs ∧ key y ≠ key x) ∨ (y = x ∧ ∃ z ∈ xs, key z = key x) := by
  unfold replaceRow
  simp only [List.mem_map]
  constructor
  · rintro ⟨z, hz, rfl⟩
    by_cases h : key z = key x
    · simp only [beq_iff_eq, h, if_true]; exact Or.inr ⟨trivial, z, hz, h⟩
    · simp [h, hz]
  · rintro (⟨hy, hne⟩ | ⟨rfl, z, hz, hzk⟩)
    · exact ⟨y, hy, by simp [hne]⟩
    · exact ⟨z, hz, by simp [hzk]⟩

theorem keysUnique_replaceRow {xs : List α} (hk : KeysUnique key xs) (x : α) :
    KeysUnique key (replaceRow key xs x) := by
  intro a ha c hc hac
  rw [mem_replaceRow] at ha hc
  rcases ha with ⟨ha, hne⟩ | ⟨rfl, -⟩ <;> rcases hc with ⟨hc, hne'⟩ | ⟨rfl, -⟩
  · exact hk a ha c hc hac
  · exact absurd hac hne
  · exact absurd hac.symm hne'
  · rfl

theorem keysUnique_append {xs : List α} (hk : KeysUnique key xs) (x : α)
    (h : lookup key xs (key x) = none) : KeysUnique key (xs ++ [x]) := by
  rw [lookup_eq_none] at h
  intro a ha c hc hac
  simp only [List.mem_append, List.mem_singleton] at ha hc
  rcases ha with ha | rfl <;> rcases hc with hc | rfl
  · exact hk a ha c hc hac
  · exact absurd hac (h a ha)
  · exact absurd hac.symm (h c hc)
  · rfl

theorem lookup_perm {xs ys : List α} (hk : KeysUnique key xs) (hp : ys.Perm xs) (id : String) :
    lookup key ys id = lookup key xs id := by
  have hk' : KeysUnique key ys := fun a ha c hc => hk a (hp.mem_iff.1 ha) c (hp.mem_iff.1 hc)
  cases h : lookup key xs id with
  | none =>
    rw [lookup_eq_none] at h ⊢
    exact fun x hx => h x (hp.mem_iff.1 hx)
  | some x =>
    obtain ⟨hx, rfl⟩ := lookup_some key h
    exact lookup_of_mem key hk' (hp.mem_iff.2 hx)

theorem lookup_putRow_ne (b : Backend) (xs : List α) (x : α)
    (id : String) (h : id ≠ key x) : lookup key (putRow b key xs x) id = lookup key xs id := by
  have h' : ¬ key x = id := fun hh => h hh.symm
  cases b
  · unfold putRow assignRow
    split_ifs with he
    · simp [lookup_replaceRow, h]
    · rw [lookup_append]
      cases lookup key xs id with
      | some y => rfl
      | none => simp [h']
  · simp [putRow, lookup_replaceRow, h]

end tables
/-! ## The reservation scan -/

theorem reserveScan_none (allowed : List OrderStatus) (os : List Order) (sel : Option Order) :
    reserveScan allowed os sel = none ↔ sel = none ∧ ∀ o ∈ os, ¬ Eligible allowed o := by
  induction os generalizing sel with
  | nil => simp [reserveScan]
  | cons o rest ih =>
    unfold reserveScan
    by_cases h1 : o.AssignedDroneID.isSome
    · have : ¬ Eligible allowed o := fun h => by simp [h.1] at h1
      simp [h1, ih, this]
    · have h1' : o.AssignedDroneID = none := by simpa using h1
      by_cases h2 : o.Status ∈ allowed
      · have he : Eligible allowed o := ⟨h1', h2⟩
        cases sel with
        | none => simp [h1, h2, ih, he]
        | some s =>
          by_cases h3 : o.CreatedAt < s.CreatedAt <;> simp [h1, h2, h3, ih]
      · have : ¬ Eligible allowed o := fun h => h2 h.2
        simp [h1, h2, ih, this]

theorem reserveScan_some (allowed : List OrderStatus) (os : List Order) (sel : Option Order)
    (r : Order) (h : reserveScan allowed os sel = some r) :
    ((r ∈ os ∧ Eligible allowed r) ∨ sel = some r) ∧
    (∀ o ∈ os, Eligible allowed o → r.CreatedAt ≤ o.CreatedAt) ∧
    (∀ s, sel = some s → r.CreatedAt ≤ s.CreatedAt) := by
  induction os generalizing sel with
  | nil =>
    simp only [reserveScan] at h
    subst h
    simp
  | cons o rest ih =>
    unfold reserveScan at h
    by_cases h1 : o.AssignedDroneID.isSome
    · have hne : ¬ Eligible allowed o := fun h => by simp [h.1] at h1
      simp only [h1, if_true] at h
      obtain ⟨a, b, c⟩ := ih sel h
      refine ⟨?_, ?_, c⟩
      · rcases a with ⟨a1, a2⟩ | a
        · exact Or.inl ⟨List.mem_cons_of_mem _ a1, a2⟩
        · exact Or.inr a
      · intro x hx hex
        rcases List.mem_cons.1 hx with rfl | hx
        · exact absurd hex hne
        · exact b x hx hex
    · have h1' : o.AssignedDroneID = none := by simpa using h1
      simp only [h1, Bool.false_eq_true, if_false] at h
      by_cases h2 : allowed.contains o.Status
      · have he : Eligible allowed o := ⟨h1', by simpa using h2⟩
        simp only [h2, Bool.not_true, Bool.false_eq_true, if_false] at h
        cases sel with
        | none =>
          simp only at h
          obtain ⟨a, b, c⟩ := ih (some o) h
          refine ⟨Or.inl ?_, ?_, by simp⟩
          · rcases a with ⟨a1, a2⟩ | a
            · exact ⟨List.mem_cons_of_mem _ a1, a2⟩
            · cases a; exact ⟨List.mem_cons_self _ _, he⟩
          · intro x hx hex
            rcases List.mem_cons.1 hx with rfl | hx
            · exact c _ rfl
            · exact b x hx hex
        | some s =>
          simp only at h
          by_cases h3 : o.CreatedAt < s.CreatedAt
          · simp only [h3, if_true] at h
            obtain ⟨a, b, c⟩ := ih (some o) h
            have hro := c o rfl
            refine ⟨?_, ?_, ?_⟩
            · rcases a with ⟨a1, a2⟩ | a
              · exact Or.inl ⟨List.mem_cons_of_mem _ a1, a2⟩
              · cases a; exact Or.inl ⟨List.mem_cons_self _ _, he⟩
            · intro x hx hex
              rcases List.mem_cons.1 hx with rfl | hx
              · exact hro
              · exact b x hx hex
            · intro s' hs'
              cases hs'
              exact Nat.le_trans hro (Nat.le_of_lt h3)
          · simp only [h3, if_false] at h
            obtain ⟨a, b, c⟩ := ih (some s) h
            have hrs := c s rfl
            refine ⟨?_, ?_, c⟩
            · rcases a with ⟨a1, a2⟩ | a
              · exact Or.inl ⟨List.mem_cons_of_mem _ a1, a2⟩
              · exact Or.inr a
            · intro x hx hex
              rcases List.mem_cons.1 hx with rfl | hx
              · exact Nat.le_trans hrs (Nat.le_of_not_lt h3)
              · exact b x hx hex
      · have hne : ¬ Eligible allowed o := fun h => h2 (by simpa using h.2)
        simp only [h2, Bool.not_false, if_true] at h
        obtain ⟨a, b, c⟩ := ih sel h
        refine ⟨?_, ?_, c⟩
        · rcases a with ⟨a1, a2⟩ | a
          · exact Or.inl ⟨List.mem_cons_of_mem _ a1, a2⟩
          · exact Or.inr a
        · intro x hx hex
          rcases List.mem_cons.1 hx with rfl | hx
          · exact absurd hex hne
          · exact b x hx hex

/-- The order the scan returns is stored, eligible and oldest among the eligible. -/
theorem memReserveNextOrder_some (allowed : List OrderStatus) (orders : List Order) (r : Order)
    (h : memReserveNextOrder allowed orders = some r) :
    r ∈ orders ∧ Eligible allowed r ∧
      ∀ o ∈ orders, Eligible allowed o → r.CreatedAt ≤ o.CreatedAt := by
  obtain ⟨a, b, -⟩ := reserveScan_some allowed orders none r h
  rcases a with ⟨a1, a2⟩ | a
  · exact ⟨a1, a2, b⟩
  · cases a

/-! ## Symbolic execution of transaction code -/

section rules
variable {α β : Type}

theorem forall_unit (p : Unit → Prop) : (∀ a, p a) ↔ p () :=
  ⟨fun h => h (), fun h _ => h⟩

theorem post_pure (a : α) (t : Tx) (Q : Except DomainError α → Tx → Prop) :
    post (pure a : TxM α) t Q ↔ Q (.ok a) t := Iff.rfl

theorem post_fail (e : DomainError) (t : Tx) (Q : Except DomainError α → Tx → Prop) :
    post (fail e : TxM α) t Q ↔ Q (.error e) t := Iff.rfl

theorem post_bind (m : TxM α) (f : α → TxM β) (t : Tx) (Q : Except DomainError β → Tx → Prop) :
    post (m >>= f) t Q ↔ post m t (fun r t1 =>
      (∀ a, r = .ok a → post (f a) t1 Q) ∧ (∀ e, r = .error e → Q (.error e) t1)) := by
  show post (TxM.bind m f) t Q ↔ _
  unfold post TxM.bind
  rcases m t with ⟨r, t1⟩
  cases r <;> simp

theorem post_check (c : Prop) [Decidable c] (e : DomainError) (t : Tx)
    (Q : Except DomainError Unit → Tx → Prop) :
    post (check c e) t Q ↔ (c → Q (.error e) t) ∧ (¬ c → Q (.ok ()) t) := by
  unfold post check
  split_ifs with h <;> simp [h]

theorem post_storeCall (f : Backend → Tables → Except DomainError (α × Tables)) (t : Tx)
    (Q : Except DomainError α → Tx → Prop) :
    post (storeCall f) t Q ↔
      (t.fails → Q (.error .Internal) t.next) ∧
      (¬ t.fails →
        (∀ a w, f t.backend t.work = .ok (a, w) → Q (.ok a) { t.next with work := w }) ∧
        (∀ e, f t.backend t.work = .error e → Q (.error e) t.next)) := by
  unfold post storeCall Tx.fails Tx.next
  split_ifs with h
  · simp [h]
  · simp only [h, not_false_eq_true, true_implies, false_implies, true_and]
    rcases f t.backend t.work with e | ⟨a, w⟩ <;> simp

theorem post_GetOrderForUpdate (id : String) (t : Tx) (Q : Except DomainError Order → Tx → Prop) :
    post (GetOrderForUpdate id) t Q ↔
      (t.fails → Q (.error .Internal) t.next) ∧
      (¬ t.fails →
        (∀ o, lookup Order.ID t.work.orders id = some o → Q (.ok o) t.next) ∧
        (lookup Order.ID t.work.orders id = none → Q (.error .ErrNotFound) t.next)) := by
  unfold GetOrderForUpdate
  rw [post_storeCall]
  cases h : lookup Order.ID t.work.orders id <;> simp [Tx.next]

theorem post_GetDroneForUpdate (id : String) (t : Tx) (Q : Except DomainError Drone → Tx → Prop) :
    post (GetDroneForUpdate id) t Q ↔
      (t.fails → Q (.error .Internal) t.next) ∧
      (¬ t.fails →
        (∀ d, lookup Drone.ID t.work.drones id = some d → Q (.ok d) t.next) ∧
        (lookup Drone.ID t.work.drones id = none → Q (.error .ErrNotFound) t.next)) := by
  unfold GetDroneForUpdate
  rw [post_storeCall]
  cases h : lookup Drone.ID t.work.drones id <;> simp [Tx.next]

theorem post_CreateOrder (o : Order) (t : Tx) (Q : Except DomainError Unit → Tx → Prop) :
    post (CreateOrder o) t Q ↔
      (t.fails → Q (.error .Internal) t.next) ∧
      (¬ t.fails →
        (lookup Order.ID t.work.orders o.ID = none →
          Q (.ok ()) { t.next with work := { t.work with orders := t.work.orders ++ [o] } }) ∧
        (lookup Order.ID t.work.orders o.ID ≠ none →
          Q (.error (match t.backend with | .mem => .ErrConflict | .postgres => .Internal))
            t.next)) := by
  unfold CreateOrder
  rw [post_storeCall]
  cases h : lookup Order.ID t.work.orders o.ID <;> simp [Tx.next, forall_unit]

theorem post_UpdateOrder (o : Order) (t : Tx) (Q : Except DomainError Unit → Tx → Prop) :
    post (UpdateOrder o) t Q ↔
      (t.fails → Q (.error .Internal) t.next) ∧
      (¬ t.fails →
        Q (.ok ()) { t.next with
          work := { t.work with orders := putRow t.backend Order.ID t.work.orders o } }) := by
  unfold UpdateOrder
  rw [post_storeCall]
  simp [Tx.next, forall_unit]

theorem post_UpdateDrone (d : Drone) (t : Tx) (Q : Except DomainError Unit → Tx → Prop) :
    post (UpdateDrone d) t Q ↔
      (t.fails → Q (.error .Internal) t.next) ∧
      (¬ t.fails →
        Q (.ok ()) { t.next with
          work := { t.work with drones := putRow t.backend Drone.ID t.work.drones d } }) := by
  unfold UpdateDrone
  rw [post_storeCall]
  simp [Tx.next, forall_unit]

theorem post_ReserveNextOrder (allowed : List OrderStatus) (t : Tx)
    (Q : Except DomainError (Option Order) → Tx → Prop) :
    post (ReserveNextOrder allowed) t Q ↔
      (t.fails → Q (.error .Internal) t.next) ∧
      (¬ t.fails → Q (.ok (memReserveNextOrder allowed t.work.orders)) t.next) := by
  unfold ReserveNextOrder
  rw [post_storeCall]
  simp [Tx.next, forall_unit]

theorem post_EnqueueEvent (e : Event) (t : Tx) (Q : Except DomainError Unit → Tx → Prop) :
    post (EnqueueEvent e) t Q ↔
      (t.fails → Q (.error .Internal) t.next) ∧
      (¬ t.fails →
        Q (.ok ()) { t.next with
          work := { t.work with
            outbox := match t.backend with
              | .mem => t.work.outbox
              | .postgres => t.work.outbox ++ [e] } }) := by
  unfold EnqueueEvent
  rw [post_storeCall]
  cases h : t.backend <;> simp [Tx.next, forall_unit]

theorem post_Commit (t : Tx) (Q : Except DomainError Unit → Tx → Prop) :
    post Commit t Q ↔
      (t.fails → Q (.error .Internal) t.next) ∧
      (¬ t.fails → Q (.ok ()) { t.next with committed := true }) := by
  unfold post Commit Tx.fails Tx.next
  split_ifs with h <;> simp [h]

end rules
section composite
variable {α : Type}

theorem post_getOrCreateDrone (id : String) (now : Time) (t : Tx)
    (Q : Except DomainError Drone → Tx → Prop) :
    post (getOrCreateDrone id now) t Q ↔
      (t.fails → Q (.error .Internal) t.next) ∧
      (¬ t.fails →
        (∀ d, lookup Drone.ID t.work.drones id = some d → Q (.ok d) t.next) ∧
        (lookup Drone.ID t.work.drones id = none →
          (t.next.fails → Q (.error .Internal) t.next.next) ∧
          (¬ t.next.fails →
            Q (.ok { ID := id, Status := .Active, LastLocation := none, LastHeartbeatAt := none,
                     CurrentOrderID := none, CreatedAt := now, UpdatedAt := now })
              { t.next.next with
                work := { t.work with
                  drones := t.work.drones ++
                    [{ ID := id, Status := .Active, LastLocation := none, LastHeartbeatAt := none,
                       CurrentOrderID := none, CreatedAt := now, UpdatedAt := now }] } }))) := by
  unfold post getOrCreateDrone GetDroneForUpdate CreateDrone storeCall Tx.fails Tx.next
  by_cases h : t.backend = .postgres ∧ t.failAt = some t.calls
  · simp [h]
  · simp only [h, if_false, not_false_eq_true, true_implies, false_implies, true_and]
    cases hl : lookup Drone.ID t.work.drones id with
    | some d => simp
    | none =>
      simp only [ne_eq, not_true_eq_false, if_false, hl]
      by_cases h2 : t.backend = .postgres ∧ t.failAt = some (t.calls + 1)
      · simp [h2]
      · simp [h2]

theorem post_orNotFound (m : TxM α) (t : Tx) (Q : Except DomainError (Option α) → Tx → Prop) :
    post (orNotFound m) t Q ↔ post m t (fun r t1 =>
      (∀ a, r = .ok a → Q (.ok (some a)) t1) ∧
      (r = .error .ErrNotFound → Q (.ok none) t1) ∧
      (∀ e, r = .error e → e ≠ .ErrNotFound → Q (.error e) t1)) := by
  unfold post orNotFound
  rcases m t with ⟨r, t1⟩
  cases r with
  | ok a => simp
  | error e => by_cases h : e = .ErrNotFound <;> simp [h]

theorem runTx_post (b : Backend) (failAt : Option Nat) (body : TxM α) (T : Tables)
    (P : Except DomainError α × Tables → Prop)
    (h0 : b = .postgres ∧ failAt = some 0 → P (.error .Internal, T))
    (h1 : ¬ (b = .postgres ∧ failAt = some 0) →
      post body (Tx.start b failAt T) (fun r t => P (r, t.final b T))) :
    P (runTx b failAt body T) := by
  unfold runTx
  split_ifs with h
  · exact h0 h
  · exact h1 h

end composite

section bindRules
variable {α β γ : Type}

theorem post_ite (c : Prop) [Decidable c] (m1 m2 : TxM α) (t : Tx)
    (Q : Except DomainError α → Tx → Prop) :
    post (if c then m1 else m2) t Q ↔ (c → post m1 t Q) ∧ (¬ c → post m2 t Q) := by
  split_ifs with h <;> simp [h]

theorem bind_assoc' (m : TxM α) (g : α → TxM β) (f : β → TxM γ) :
    (m >>= g) >>= f = m >>= fun a => g a >>= f := by
  funext t
  show TxM.bind (TxM.bind m g) f t = TxM.bind m (fun a => TxM.bind (g a) f) t
  unfold TxM.bind
  rcases m t with ⟨r, t1⟩
  cases r <;> rfl

theorem pure_bind' (a : α) (f : α → TxM β) : (pure a : TxM α) >>= f = f a := rfl

theorem fail_bind (e : DomainError) (f : α → TxM β) : (fail e : TxM α) >>= f = fail e := rfl

theorem ite_bind (c : Prop) [Decidable c] (m1 m2 : TxM α) (f : α → TxM β) :
    (if c then m1 else m2) >>= f = if c then m1 >>= f else m2 >>= f := by
  split_ifs <;> rfl

theorem post_check_bind (c : Prop) [Decidable c] (e : DomainError) (f : Unit → TxM β) (t : Tx)
    (Q : Except DomainError β → Tx → Prop) :
    post (check c e >>= f) t Q ↔ (c → Q (.error e) t) ∧ (¬ c → post (f ()) t Q) := by
  rw [post_bind, post_check]; simp [forall_unit]

theorem post_GetOrderForUpdate_bind (id : String) (f : Order → TxM β) (t : Tx)
    (Q : Except DomainError β → Tx → Prop) :
    post (GetOrderForUpdate id >>= f) t Q ↔
      (t.fails → Q (.error .Internal) t.next) ∧
      (¬ t.fails →
        (∀ o, lookup Order.ID t.work.orders id = some o → post (f o) t.next Q) ∧
        (lookup Order.ID t.work.orders id = none → Q (.error .ErrNotFound) t.next)) := by
  rw [post_bind, post_GetOrderForUpdate]; simp [forall_unit]

theorem post_GetDroneForUpdate_bind (id : String) (f : Drone → TxM β) (t : Tx)
    (Q : Except DomainError β → Tx → Prop) :
    post (GetDroneForUpdate id >>= f) t Q ↔
      (t.fails → Q (.error .Internal) t.next) ∧
      (¬ t.fails →
        (∀ d, lookup Drone.ID t.work.drones id = some d → post (f d) t.next Q) ∧
        (lookup Drone.ID t.work.drones id = none → Q (.error .ErrNotFound) t.next)) := by
  rw [post_bind, post_GetDroneForUpdate]; simp [forall_unit]

theorem post_CreateOrder_bind (o : Order) (f : Unit → TxM β) (t : Tx)
    (Q : Except DomainError β → Tx → Prop) :
    post (CreateOrder o >>= f) t Q ↔
      (t.fails → Q (.error .Internal) t.next) ∧
      (¬ t.fails →
        (lookup Order.ID t.work.orders o.ID = none →
          post (f ())
            { t.next with work := { t.work with orders := t.work.orders ++ [o] } } Q) ∧
        (lookup Order.ID t.work.orders o.ID ≠ none →
          Q (.error (match t.backend with | .mem => .ErrConflict | .postgres => .Internal))
            t.next)) := by
  rw [post_bind, post_CreateOrder]; simp [forall_unit]

theorem post_UpdateOrder_bind (o : Order) (f : Unit → TxM β) (t : Tx)
    (Q : Except DomainError β → Tx → Prop) :
    post (UpdateOrder o >>= f) t Q ↔
      (t.fails → Q (.error .Internal) t.next) ∧
      (¬ t.fails →
        post (f ()) { t.next with
          work := { t.work with orders := putRow t.backend Order.ID t.work.orders o } } Q) := by
  rw [post_bind, post_UpdateOrder]; simp [forall_unit]

theorem post_UpdateDrone_bind (d : Drone) (f : Unit → TxM β) (t : Tx)
    (Q : Except DomainError β → Tx → Prop) :
    post (UpdateDrone d >>= f) t Q ↔
      (t.fails → Q (.error .Internal) t.next) ∧
      (¬ t.fails →
        post (f ()) { t.next with
          work := { t.work with drones := putRow t.backend Drone.ID t.work.drones d } } Q) := by
  rw [post_bind, post_UpdateDrone]; simp [forall_unit]

theorem post_ReserveNextOrder_bind (allowed : List OrderStatus) (f : Option Order → TxM β)
    (t : Tx) (Q : Except DomainError β → Tx → Prop) :
    post (ReserveNextOrder allowed >>= f) t Q ↔
      (t.fails → Q (.error .Internal) t.next) ∧
      (¬ t.fails → post (f (memReserveNextOrder allowed t.work.orders)) t.next Q) := by
  rw [post_bind, post_ReserveNextOrder]; simp [forall_unit]

theorem post_EnqueueEvent_bind (e : Event) (f : Unit → TxM β) (t : Tx)
    (Q : Except DomainError β → Tx → Prop) :
    post (EnqueueEvent e >>= f) t Q ↔
      (t.fails → Q (.error .Internal) t.next) ∧
      (¬ t.fails →
        post (f ()) { t.next with
          work := { t.work with
            outbox := match t.backend with
              | .mem => t.work.outbox
              | .postgres => t.work.outbox ++ [e] } } Q) := by
  rw [post_bind, post_EnqueueEvent]; simp [forall_unit]

theorem post_Commit_bind (f : Unit → TxM β) (t : Tx) (Q : Except DomainError β → Tx → Prop) :
    post (Commit >>= f) t Q ↔
      (t.fails → Q (.error .Internal) t.next) ∧
      (¬ t.fails → post (f ()) { t.next with committed := true } Q) := by
  rw [post_bind, post_Commit]; simp [forall_unit]

theorem post_orNotFound_bind (m : TxM α) (f : Option α → TxM β) (t : Tx)
    (Q : Except DomainError β → Tx → Prop) :
    post (orNotFound m >>= f) t Q ↔ post m t (fun r t1 =>
      (∀ a, r = .ok a → post (f (some a)) t1 Q) ∧
      (r = .error .ErrNotFound → post (f none) t1 Q) ∧
      (∀ e, r = .error e → e ≠ .ErrNotFound → Q (.error e) t1)) := by
  rw [post_bind, post_orNotFound]
  unfold post
  rcases m t with ⟨r, t1⟩
  cases r <;> simp

/-- Rule for `getOrCreateDrone` followed by more code, the two ways of getting
the drone merged. -/
theorem post_getOrCreateDrone_bind (id : String) (now : Time) (f : Drone → TxM β) (t : Tx)
    (Q : Except DomainError β → Tx → Prop)
    (h1 : t.backend = .postgres → ∀ n, Q (.error .Internal) { t with calls := n })
    (h3 : ∀ drone drones' n, GotDrone t.work.drones id now drone drones' →
      post (f drone) { t with calls := n, work := { t.work with drones := drones' } } Q) :
    post (getOrCreateDrone id now >>= f) t Q := by
  rw [post_bind, post_getOrCreateDrone]
  refine ⟨fun hf => ?_, fun _ => ⟨fun d hd => ?_, fun hn => ⟨fun hf => ?_, fun _ => ?_⟩⟩⟩
  · simpa using h1 hf.1 _
  · simpa using h3 d t.work.drones (t.calls + 1) (Or.inl ⟨hd, rfl⟩)
  · simpa using h1 hf.1 _
  · simpa using h3 _ _ _ (Or.inr ⟨hn, rfl, rfl⟩)

end bindRules

/-! ## What each operation does to the tables -/

@[simp] theorem Changes.rfl' (b : Backend) (T : Tables) : Changes b T T := Relation.ReflTransGen.refl

theorem Changes.one {b : Backend} {T T' : Tables} (h : Change b T T') : Changes b T T' :=
  Relation.ReflTransGen.single h

theorem Changes.two {b : Backend} {T T' : Tables} (T1 : Tables) (h : Change b T T1)
    (h' : Change b T1 T') : Changes b T T' :=
  Relation.ReflTransGen.tail (Relation.ReflTransGen.single h) h'

theorem GotDrone.id_eq {drones : List Drone} {id : String} {now : Time} {drone : Drone}
    {drones' : List Drone} (h : GotDrone drones id now drone drones') : drone.ID = id := by
  rcases h with ⟨h, -⟩ | ⟨-, rfl, -⟩
  · exact (lookup_some _ h).2
  · rfl

theorem GotDrone.lookup {drones : List Drone} {id : String} {now : Time} {drone : Drone}
    {drones' : List Drone} (h : GotDrone drones id now drone drones') :
    lookup Drone.ID drones' drone.ID = some drone := by
  rcases h with ⟨h, rfl⟩ | ⟨h, rfl, rfl⟩
  · rw [(lookup_some _ h).2]; exact h
  · rw [lookup_append]; simp [h]

/-- After `getOrCreateDrone`, a change made on top of its table is a sequence of changes. -/
theorem GotDrone.changes {b : Backend} {T T' : Tables} {id : String} {now : Time} {drone : Drone}
    {drones' : List Drone} (h : GotDrone T.drones id now drone drones')
    (hc : Change b { T with drones := drones' } T') : Changes b T T' := by
  rcases h with ⟨-, rfl⟩ | ⟨h, rfl, rfl⟩
  · exact Changes.one hc
  · exact Changes.two { T with drones := T.drones ++ [_] } (.newDrone _ rfl rfl h rfl) hc

theorem GotDrone.changes_self {b : Backend} {T : Tables} {id : String} {now : Time} {drone : Drone}
    {drones' : List Drone} (h : GotDrone T.drones id now drone drones') (ob : List Event) :
    Changes b T { orders := T.orders, drones := drones', outbox := ob } :=
  h.changes (.same rfl rfl)

theorem lookup_self {α : Type} (key : α → String) {xs : List α} {id : String} {x : α}
    (h : lookup key xs id = some x) : lookup key xs (key x) = some x := by
  rw [(lookup_some key h).2]; exact h

theorem SubmitOrder_changes (b : Backend) (failAt : Option Nat) (env : Env) (T : Tables)
    (userID : String) (origin dest : Location) :
    Changes b T (SubmitOrder b failAt env T userID origin dest).2 := by
  unfold SubmitOrder
  split_ifs
  · simp
  · simp
  · refine runTx_post b failAt _ T (fun x => Changes b T x.2) ?_ ?_
    · simp
    · intro _
      cases b <;>
        simp [post_CreateOrder_bind, post_EnqueueEvent_bind, post_Commit_bind, post_pure,
          Tx.fails, Tx.start, Tx.next, Tx.final] <;>
        (repeat' (first | intro _ | apply And.intro)) <;>
        first
        | exact Changes.rfl' _ _
        | exact Changes.one (.newOrder _ rfl rfl (by assumption) rfl rfl rfl)

theorem AdminUpdateOrder_changes (b : Backend) (failAt : Option Nat) (env : Env) (T : Tables)
    (orderID : String) (origin dest : Option Location) :
    Changes b T (AdminUpdateOrder b failAt env T orderID origin dest).2 := by
  unfold AdminUpdateOrder
  refine runTx_post b failAt _ T (fun x => Changes b T x.2) ?_ ?_
  · simp
  · intro _
    cases b <;> cases origin <;> cases dest <;>
      simp [pure_bind', fail_bind, ite_bind, post_ite, post_check_bind,
        post_GetOrderForUpdate_bind, post_UpdateOrder_bind, post_EnqueueEvent_bind,
        post_Commit_bind, post_pure, post_fail, Tx.fails, Tx.start, Tx.next, Tx.final] <;>
      (repeat' (first | intro _ | apply And.intro)) <;>
      first
      | exact Changes.rfl' _ _
      | (have hl := ‹lookup Order.ID T.orders orderID = some _›
         exact Changes.one
          (.editOrder _ _ rfl rfl (lookup_self _ hl) rfl (by assumption) rfl rfl rfl))

theorem DroneReserveJob_changes (b : Backend) (failAt : Option Nat) (env : Env) (T : Tables)
    (droneID : String) : Changes b T (DroneReserveJob b failAt env T droneID).2 := by
  unfold DroneReserveJob
  refine runTx_post b failAt _ T (fun x => Changes b T x.2) ?_ ?_
  · simp
  · intro _
    apply post_getOrCreateDrone_bind
    · intro hb n
      simp only [Tx.start] at hb
      subst hb
      simp [Tx.final, Tx.start]
    · intro drone drones' n hg
      simp only [Tx.start] at hg
      have hmem := memReserveNextOrder_some [.Created, .HandoffRequested] T.orders
      cases hr : memReserveNextOrder [.Created, .HandoffRequested] T.orders with
      | none =>
        cases b <;>
          (simp [post_check_bind, post_ReserveNextOrder_bind, post_fail, hr,
            Tx.fails, Tx.start, Tx.next, Tx.final]
           all_goals
             ((repeat' (first | intro _ | apply And.intro)) <;> exact hg.changes_self _))
      | some order =>
        obtain ⟨hm, he, -⟩ := hmem order hr
        cases b <;>
          simp [post_check_bind, post_ReserveNextOrder_bind, post_fail, hr, post_UpdateOrder_bind,
            post_UpdateDrone_bind, post_EnqueueEvent_bind, post_Commit_bind, post_pure,
            Tx.fails, Tx.start, Tx.next, Tx.final] <;>
          (repeat' (first | intro _ | apply And.intro)) <;>
          first
          | exact hg.changes_self _
          | exact hg.changes
              (.link order _ drone _ rfl rfl hm he hg.lookup (by assumption) rfl rfl rfl rfl rfl rfl)

/-- The reads of `currentOrderView` leave the transaction as it is, up to the call counter. -/
theorem post_currentOrderView (drone : Drone) (t : Tx)
    (Q : Except DomainError DroneStatusView → Tx → Prop)
    (h : ∀ r n, Q r { t with calls := n }) : post (currentOrderView drone) t Q := by
  unfold currentOrderView
  cases hc : drone.CurrentOrderID with
  | none => simpa [post_pure] using h _ t.calls
  | some cur =>
    simp only [post_orNotFound_bind, post_GetOrderForUpdate]
    refine ⟨fun _ => ?_, fun _ => ⟨fun o _ => ?_, fun _ => ?_⟩⟩
    · simpa [Tx.next] using h _ _
    · simp only [true_and, forall_eq', reduceCtorEq, false_implies, implies_true, and_true,
        Except.ok.injEq]
      unfold buildOrderView
      cases ha : o.AssignedDroneID with
      | none => simpa [pure_bind', post_pure, Tx.next] using h _ _
      | some a =>
        simp only [bind_assoc', pure_bind', post_orNotFound_bind, post_GetDroneForUpdate]
        refine ⟨fun _ => ?_, fun _ => ⟨fun d _ => ?_, fun _ => ?_⟩⟩
        · simpa [Tx.next] using h _ _
        · simpa [post_pure, Tx.next] using h _ _
        · simpa [post_pure, Tx.next] using h _ _
    · simpa [post_pure, Tx.next] using h _ _

theorem WithdrawOrder_changes (b : Backend) (failAt : Option Nat) (env : Env) (T : Tables)
    (userID orderID : String) : Changes b T (WithdrawOrder b failAt env T userID orderID).2 := by
  unfold WithdrawOrder
  refine runTx_post b failAt _ T (fun x => Changes b T x.2) ?_ ?_
  · simp
  · intro _
    rw [post_GetOrderForUpdate_bind]
    refine ⟨?_, fun _ => ⟨fun o hl => ?_, ?_⟩⟩
    · cases b <;> simp [Tx.fails, Tx.start, Tx.next, Tx.final]
    · have hl' := lookup_self _ hl
      simp only [Tx.start, Tx.next] at hl
      cases hs : o.Status <;> cases ha : o.AssignedDroneID <;> cases b <;>
        simp [bind_assoc', pure_bind', post_check_bind, post_GetDroneForUpdate_bind,
          post_UpdateDrone_bind, post_UpdateOrder_bind, post_EnqueueEvent_bind,
          post_Commit_bind, post_pure, Tx.fails, Tx.start, Tx.next, Tx.final, hs, ha] <;>
        (repeat' (first | intro _ | apply And.intro)) <;>
        first
        | exact Changes.rfl' _ _
        | exact Changes.one (.withdraw o _ rfl hl' (by simp [hs]) rfl rfl rfl rfl
            (Or.inr ⟨by simp [hs, ha], rfl⟩))
        | (have hd := ‹lookup Drone.ID T.drones _ = some _›
           exact Changes.one (.withdraw o _ rfl hl' (by simp [hs]) rfl rfl rfl rfl
            (Or.inl ⟨_, _, rfl, hs, ha.trans (congrArg some (lookup_some _ hd).2.symm),
              lookup_self _ hd, rfl, rfl⟩)))
    · cases b <;> simp [Tx.fails, Tx.start, Tx.next, Tx.final]

theorem DronePickup_changes (b : Backend) (failAt : Option Nat) (env : Env) (T : Tables)
    (droneID orderID : String) : Changes b T (DronePickup b failAt env T droneID orderID).2 := by
  unfold DronePickup updateOrderForDrone
  refine runTx_post b failAt _ T (fun x => Changes b T x.2) ?_ ?_
  · simp
  · intro _
    rw [post_GetOrderForUpdate_bind]
    refine ⟨?_, fun _ => ⟨fun o hl => ?_, ?_⟩⟩
    · cases b <;> simp [Tx.fails, Tx.start, Tx.next, Tx.final]
    · have hl' := lookup_self _ hl
      simp only [Tx.start, Tx.next] at hl
      rw [post_check_bind]
      refine ⟨fun _ => ?_, fun ha => ?_⟩
      · cases b <;> simp [Tx.start, Tx.next, Tx.final]
      · have ha' : o.AssignedDroneID = some droneID := by simpa using ha
        cases hs : o.Status <;> cases b <;>
          simp [post_UpdateOrder_bind, post_EnqueueEvent_bind, post_fail,
            post_Commit_bind, post_pure, Tx.fails, Tx.start, Tx.next, Tx.final, hs] <;>
          (repeat' (first | intro _ | apply And.intro)) <;>
          first
          | exact Changes.rfl' _ _
          | exact Changes.one (.pickup o _ rfl rfl hl' rfl (by simp [hs]) (by simp [ha'])
              rfl rfl rfl)
    · cases b <;> simp [Tx.fails, Tx.start, Tx.next, Tx.final]

theorem completeOrderForDrone_changes (b : Backend) (failAt : Option Nat) (env : Env)
    (T : Tables) (droneID orderID : String) (status : OrderStatus) (reason : String)
    (hstatus : status = .Delivered ∨ status = .Failed) :
    Changes b T (completeOrderForDrone b failAt env T droneID orderID status reason).2 := by
  unfold completeOrderForDrone
  refine runTx_post b failAt _ T (fun x => Changes b T x.2) ?_ ?_
  · simp
  · intro _
    rw [post_GetOrderForUpdate_bind]
    refine ⟨?_, fun _ => ⟨fun o hl => ?_, ?_⟩⟩
    · cases b <;> simp [Tx.fails, Tx.start, Tx.next, Tx.final]
    · have hl' := lookup_self _ hl
      simp only [Tx.start, Tx.next] at hl
      rw [post_check_bind]
      refine ⟨fun _ => ?_, fun ha => ?_⟩
      · cases b <;> simp [Tx.start, Tx.next, Tx.final]
      · have ha' : o.AssignedDroneID = some droneID := by simpa using ha
        rw [post_check_bind]
        refine ⟨fun _ => ?_, fun hs => ?_⟩
        · cases b <;> simp [Tx.start, Tx.next, Tx.final]
        · have hs' : o.Status = .PickedUp := by simpa using hs
          rcases hstatus with rfl | rfl <;> cases b <;>
            simp [post_UpdateOrder_bind, post_GetDroneForUpdate_bind, post_UpdateDrone_bind,
              post_EnqueueEvent_bind, post_Commit_bind, post_pure,
              Tx.fails, Tx.start, Tx.next, Tx.final] <;>
            (repeat' (first | intro _ | apply And.intro)) <;>
            first
            | exact Changes.rfl' _ _
            | (have hd := ‹lookup Drone.ID T.drones droneID = some _›
               exact Changes.one (.complete o _ droneID rfl hl' hs' ha' rfl (by simp) rfl rfl
                (Or.inl ⟨_, _, rfl, hd, rfl, rfl⟩)))
            | (have hd := ‹lookup Drone.ID T.drones droneID = none›
               exact Changes.one (.complete o _ droneID rfl hl' hs' ha' rfl (by simp) rfl rfl
                (Or.inr ⟨hd, rfl⟩)))
    · cases b <;> simp [Tx.fails, Tx.start, Tx.next, Tx.final]

theorem DroneDeliver_changes (b : Backend) (failAt : Option Nat) (env : Env) (T : Tables)
    (droneID orderID : String) :
    Changes b T (DroneDeliver b failAt env T droneID orderID).2 :=
  completeOrderForDrone_changes b failAt env T droneID orderID _ _ (Or.inl rfl)

theorem DroneFail_changes (b : Backend) (failAt : Option Nat) (env : Env) (T : Tables)
    (droneID orderID reason : String) :
    Changes b T (DroneFail b failAt env T droneID orderID reason).2 := by
  unfold DroneFail
  split_ifs
  · simp
  · exact completeOrderForDrone_changes b failAt env T droneID orderID _ _ (Or.inr rfl)

theorem DroneMarkFixed_changes (b : Backend) (failAt : Option Nat) (env : Env) (T : Tables)
    (droneID : String) : Changes b T (DroneMarkFixed b failAt env T droneID).2 := by
  unfold DroneMarkFixed
  refine runTx_post b failAt _ T (fun x => Changes b T x.2) ?_ ?_
  · simp
  · intro _
    apply post_getOrCreateDrone_bind
    · intro hb n
      simp only [Tx.start] at hb
      subst hb
      simp [Tx.final, Tx.start]
    · intro drone drones' n hg
      simp only [Tx.start] at hg
      cases b <;>
        simp [post_UpdateDrone_bind, post_EnqueueEvent_bind, post_Commit_bind, post_pure,
          Tx.fails, Tx.start, Tx.next, Tx.final] <;>
        (repeat' (first | intro _ | apply And.intro)) <;>
        first
        | exact hg.changes_self _
        | exact hg.changes (.editDrone drone _ rfl rfl hg.lookup rfl rfl)

theorem DroneHeartbeat_changes (b : Backend) (failAt : Option Nat) (env : Env) (T : Tables)
    (droneID : String) (loc : Location) :
    Changes b T (DroneHeartbeat b failAt env T droneID loc).2 := by
  unfold DroneHeartbeat
  split_ifs
  · simp
  · refine runTx_post b failAt _ T (fun x => Changes b T x.2) ?_ ?_
    · simp
    · intro _
      apply post_getOrCreateDrone_bind
      · intro hb n
        simp only [Tx.start] at hb
        subst hb
        simp [Tx.final, Tx.start]
      · intro drone drones' n hg
        simp only [Tx.start] at hg
        cases b <;>
          simp [post_UpdateDrone_bind, post_Commit_bind,
            Tx.fails, Tx.start, Tx.next, Tx.final] <;>
          (repeat' (first | intro _ | apply And.intro)) <;>
          first
          | exact hg.changes_self _
          | (apply post_currentOrderView
             intro r k
             exact hg.changes (.editDrone drone _ rfl rfl hg.lookup rfl rfl))

theorem DroneMarkBroken_changes (b : Backend) (failAt : Option Nat) (env : Env) (T : Tables)
    (droneID : String) : Changes b T (DroneMarkBroken b failAt env T droneID).2 := by
  unfold DroneMarkBroken
  refine runTx_post b failAt _ T (fun x => Changes b T x.2) ?_ ?_
  · simp
  · intro _
    apply post_getOrCreateDrone_bind
    · intro hb n
      simp only [Tx.start] at hb
      subst hb
      simp [Tx.final, Tx.start]
    · intro drone drones' n hg
      simp only [Tx.start] at hg
      unfold releaseOrder
      cases hc : drone.CurrentOrderID with
      | none =>
        cases b <;>
          simp [pure_bind', post_UpdateDrone_bind, post_EnqueueEvent_bind, post_Commit_bind,
            post_pure, Tx.fails, Tx.start, Tx.next, Tx.final] <;>
          (repeat' (first | intro _ | apply And.intro)) <;>
          first
          | exact hg.changes_self _
          | exact hg.changes (.editDrone drone _ rfl rfl hg.lookup rfl (by simp [hc]))
      | some cur =>
        simp only [bind_assoc']
        rw [post_GetOrderForUpdate_bind]
        refine ⟨?_, fun _ => ⟨fun o hl => ?_, ?_⟩⟩
        · cases b <;> simp [Tx.fails, Tx.start, Tx.next, Tx.final]
        · have hl' := lookup_self _ hl
          have hcur : drone.CurrentOrderID = some o.ID := by
            rw [hc, (lookup_some _ hl).2]
          simp only [Tx.start, Tx.next] at hl hl'
          cases hs : o.Status <;> cases b <;>
            simp [bind_assoc', pure_bind', post_UpdateOrder_bind, post_UpdateDrone_bind,
              post_EnqueueEvent_bind, post_Commit_bind,
              post_pure, Tx.fails, Tx.start, Tx.next, Tx.final] <;>
            (repeat' (first | intro _ | apply And.intro)) <;>
            first
            | exact hg.changes_self _
            | exact hg.changes (.release drone _ o rfl hg.lookup hcur hl' rfl rfl
                (Or.inl ⟨_, rfl, hs, rfl, rfl, rfl⟩))
            | exact hg.changes (.release drone _ o rfl hg.lookup hcur hl' rfl rfl
                (Or.inr (Or.inl ⟨_, rfl, hs, rfl, rfl, rfl, rfl⟩)))
            | exact hg.changes (.release drone _ o rfl hg.lookup hcur hl' rfl rfl
                (Or.inr (Or.inr ⟨by simp [hs], by simp [hs], rfl⟩)))
        · cases b <;> simp [Tx.fails, Tx.start, Tx.next, Tx.final]
          exact fun _ => hg.changes_self _

theorem Op.run_changes (b : Backend) (failAt : Option Nat) (env : Env) (T : Tables) (op : Op) :
    Changes b T (op.run b failAt env T).2 := by
  cases op <;> simp only [Op.run, reply]
  · exact SubmitOrder_changes ..
  · exact WithdrawOrder_changes ..
  · exact AdminUpdateOrder_changes ..
  · exact DroneReserveJob_changes ..
  · exact DronePickup_changes ..
  · exact DroneDeliver_changes ..
  · exact DroneFail_changes ..
  · exact DroneMarkBroken_changes ..
  · exact DroneMarkFixed_changes ..
  · exact DroneHeartbeat_changes ..

/-! ## The invariant -/

section writes
variable {α : Type} (key : α → String)

theorem lookup_putRow (b : Backend) (xs : List α) (x : α) (id : String)
    (h : (lookup key xs (key x)).isSome) :
    lookup key (putRow b key xs x) id = if id = key x then some x else lookup key xs id := by
  rw [putRow_eq key b xs x h, lookup_replaceRow]
  split_ifs with hid
  · subst hid
    cases hl : lookup key xs (key x) with
    | none => simp [hl] at h
    | some y => rfl
  · rfl

theorem mem_putRow (b : Backend) {xs : List α} {x y : α} (h : (lookup key xs (key x)).isSome)
    (hy : y ∈ putRow b key xs x) : y ∈ xs ∨ y = x := by
  rw [putRow_eq key b xs x h, mem_replaceRow] at hy
  rcases hy with ⟨hy, -⟩ | ⟨rfl, -⟩
  · exact Or.inl hy
  · exact Or.inr rfl

theorem keysUnique_putRow (b : Backend) {xs : List α} (hk : KeysUnique key xs) (x : α)
    (h : (lookup key xs (key x)).isSome) : KeysUnique key (putRow b key xs x) := by
  rw [putRow_eq key b xs x h]
  exact keysUnique_replaceRow key hk x

theorem lookup_append_fresh (xs : List α) (x : α) (id : String)
    (h : lookup key xs (key x) = none) :
    lookup key (xs ++ [x]) id = if id = key x then some x else lookup key xs id := by
  rw [lookup_append]
  by_cases hid : id = key x
  · subst hid
    simp [h]
  · have : ¬ key x = id := fun hh => hid hh.symm
    cases lookup key xs id <;> simp [this, hid]

end writes

/-- The invariant after an update of at most one order row and one drone row. -/
theorem Inv.update {T T' : Tables} (hI : Inv T) (uo : Option Order) (ud : Option Drone)
    (hko : KeysUnique Order.ID T'.orders) (hkd : KeysUnique Drone.ID T'.drones)
    (hmo : ∀ x ∈ T'.orders, x ∈ T.orders ∨ uo = some x)
    (hlo : ∀ id, lookup Order.ID T'.orders id = updated Order.ID uo T.orders id)
    (hld : ∀ id, lookup Drone.ID T'.drones id = updated Drone.ID ud T.drones id)
    (hrow : ∀ v, uo = some v →
      (v.AssignedDroneID ≠ none ↔ KeepsDrone v.Status) ∧
      (v.HandoffOrigin ≠ none → v.Status ≠ .Created))
    (hCd : ∀ w, ud = some w → ∀ oid, w.CurrentOrderID = some oid →
      ∃ x, lookup Order.ID T'.orders oid = some x ∧ Active x.Status ∧
        x.AssignedDroneID = some w.ID)
    (hCo : ∀ v, uo = some v → Active v.Status → ∀ did, v.AssignedDroneID = some did →
      ∃ e, lookup Drone.ID T'.drones did = some e ∧ e.CurrentOrderID = some v.ID)
    (hKo : ∀ v, uo = some v → ∀ x0, lookup Order.ID T.orders v.ID = some x0 →
      Active x0.Status → ∀ did, x0.AssignedDroneID = some did →
      (∀ w, ud = some w → did ≠ w.ID) → Active v.Status ∧ v.AssignedDroneID = some did)
    (hKd : ∀ w, ud = some w → ∀ e0, lookup Drone.ID T.drones w.ID = some e0 →
      ∀ oid, e0.CurrentOrderID = some oid → (∀ v, uo = some v → oid ≠ v.ID) →
      w.CurrentOrderID = some oid) :
    Inv T' := by
  refine ⟨hko, hkd, ?_, ?_, ?_, ?_⟩
  · intro x hx
    rcases hmo x hx with h | h
    · exact hI.assigned x h
    · exact (hrow x h).1
  · intro x hx
    rcases hmo x hx with h | h
    · exact hI.handoff x h
    · exact (hrow x h).2
  · intro did e oid hl hc
    simp only [updated] at hlo hld
    -- the order the old table had for this drone, when the drone row is an old one
    have old : lookup Drone.ID T.drones did = some e → (∀ w, ud = some w → did ≠ w.ID) →
        ∃ o, lookup Order.ID T'.orders oid = some o ∧ Active o.Status ∧
          o.AssignedDroneID = some did := by
      intro hl0 hne
      obtain ⟨x0, hx0, hact, hass⟩ := hI.held did e oid hl0 hc
      rw [hlo]
      cases uo with
      | none => exact ⟨x0, hx0, hact, hass⟩
      | some v =>
        by_cases hv : oid = v.ID
        · subst hv
          obtain ⟨h1, h2⟩ := hKo v rfl x0 hx0 hact did hass hne
          exact ⟨v, by simp, h1, h2⟩
        · exact ⟨x0, by simpa [hv] using hx0, hact, hass⟩
    rw [hld] at hl
    cases ud with
    | none => exact old hl (by simp)
    | some w =>
      by_cases hw : did = w.ID
      · subst hw
        simp only [if_true, Option.some.injEq] at hl
        subst hl
        exact hCd w rfl oid hc
      · simp only [hw, if_false] at hl
        exact old hl (by simpa using hw)
  · intro oid x did hl hact hass
    simp only [updated] at hlo hld
    have old : lookup Order.ID T.orders oid = some x → (∀ v, uo = some v → oid ≠ v.ID) →
        ∃ d, lookup Drone.ID T'.drones did = some d ∧ d.CurrentOrderID = some oid := by
      intro hl0 hne
      obtain ⟨e0, he0, hcur⟩ := hI.carried oid x did hl0 hact hass
      rw [hld]
      cases ud with
      | none => exact ⟨e0, he0, hcur⟩
      | some w =>
        by_cases hw : did = w.ID
        · subst hw
          exact ⟨w, by simp, hKd w rfl e0 he0 oid hcur hne⟩
        · exact ⟨e0, by simpa [hw] using he0, hcur⟩
    rw [hlo] at hl
    cases uo with
    | none => exact old hl (by simp)
    | some v =>
      by_cases hv : oid = v.ID
      · subst hv
        simp only [if_true, Option.some.injEq] at hl
        subst hl
        exact hCo _ rfl hact did hass
      · simp only [hv, if_false] at hl
        exact old hl (by simpa using hv)

theorem isSome_of_lookup {α : Type} (key : α → String) {xs : List α} {x y : α}
    (h : lookup key xs (key x) = some x) (hid : key y = key x) :
    (lookup key xs (key y)).isSome := by
  rw [hid, h]; rfl

theorem Inv.of_same {T T' : Tables} (hI : Inv T) (ho : T'.orders = T.orders)
    (hd : T'.drones = T.drones) : Inv T' := by
  obtain ⟨a, b, c, d, e, f⟩ := hI
  exact ⟨ho ▸ a, hd ▸ b, ho ▸ c, ho ▸ d, by rw [ho, hd]; exact e, by rw [ho, hd]; exact f⟩

theorem Inv.newOrder {T T' : Tables} (hI : Inv T) (o : Order)
    (ho : T'.orders = T.orders ++ [o]) (hd : T'.drones = T.drones)
    (hfresh : lookup Order.ID T.orders o.ID = none)
    (hs : o.Status = .Created) (ha : o.AssignedDroneID = none) (hh : o.HandoffOrigin = none) :
    Inv T' := by
  refine hI.update (some o) none ?_ ?_ ?_ ?_ ?_ ?_ ?_ ?_ ?_ ?_
  · rw [ho]; exact keysUnique_append _ hI.orderKeys o hfresh
  · rw [hd]; exact hI.droneKeys
  · intro x hx
    rw [ho] at hx
    simpa [eq_comm] using hx
  · intro id; rw [ho]; exact lookup_append_fresh _ _ _ _ hfresh
  · intro id; rw [hd]; rfl
  · rintro v ⟨rfl⟩
    simp [ha, hs, hh, KeepsDrone]
  · simp
  · rintro v ⟨rfl⟩ hact
    simp [hs, Active] at hact
  · rintro v ⟨rfl⟩ x0 hx0
    rw [hfresh] at hx0
    cases hx0
  · simp

theorem Inv.newDrone {T T' : Tables} (hI : Inv T) (d : Drone)
    (ho : T'.orders = T.orders) (hd : T'.drones = T.drones ++ [d])
    (hfresh : lookup Drone.ID T.drones d.ID = none) (hc : d.CurrentOrderID = none) :
    Inv T' := by
  refine hI.update none (some d) ?_ ?_ ?_ ?_ ?_ ?_ ?_ ?_ ?_ ?_
  · rw [ho]; exact hI.orderKeys
  · rw [hd]; exact keysUnique_append _ hI.droneKeys d hfresh
  · intro x hx
    rw [ho] at hx
    exact Or.inl hx
  · intro id; rw [ho]; rfl
  · intro id; rw [hd]; exact lookup_append_fresh _ _ _ _ hfresh
  · simp
  · rintro w ⟨rfl⟩ oid hcur
    rw [hc] at hcur
    cases hcur
  · simp
  · simp
  · rintro w ⟨rfl⟩ e0 he0
    rw [hfresh] at he0
    cases he0

/-- An order row rewritten with its drone and its being active unchanged. -/
theorem Inv.orderOnly {b : Backend} {T T' : Tables} (hI : Inv T) (o o' : Order)
    (ho : T'.orders = putRow b Order.ID T.orders o') (hd : T'.drones = T.drones)
    (hl : lookup Order.ID T.orders o.ID = some o) (hid : o'.ID = o.ID)
    (ha : o'.AssignedDroneID = o.AssignedDroneID)
    (hact : Active o'.Status ↔ Active o.Status)
    (hkeep : KeepsDrone o'.Status ↔ KeepsDrone o.Status)
    (hh : o'.HandoffOrigin ≠ none → o'.Status ≠ .Created) : Inv T' := by
  have hsome := isSome_of_lookup Order.ID hl hid
  have hmem := (lookup_some _ hl).1
  refine hI.update (some o') none ?_ ?_ ?_ ?_ ?_ ?_ ?_ ?_ ?_ ?_
  · rw [ho]; exact keysUnique_putRow _ b hI.orderKeys o' hsome
  · rw [hd]; exact hI.droneKeys
  · intro x hx
    rw [ho] at hx
    rcases mem_putRow _ b hsome hx with h | rfl
    · exact Or.inl h
    · exact Or.inr rfl
  · intro id; rw [ho]; exact lookup_putRow _ b _ _ _ hsome
  · intro id; rw [hd]; rfl
  · rintro v ⟨rfl⟩
    refine ⟨?_, hh⟩
    rw [ha, hkeep]
    exact hI.assigned o hmem
  · simp
  · rintro v ⟨rfl⟩ hv did hdid
    rw [hd, hid]
    exact hI.carried o.ID o did hl (hact.1 hv) (ha ▸ hdid)
  · rintro v ⟨rfl⟩ x0 hx0 hx0a did hdid -
    rw [hid, hl] at hx0
    cases hx0
    exact ⟨hact.2 hx0a, ha.trans hdid⟩
  · simp

/-- A drone row rewritten with its current-order reference unchanged. -/
theorem Inv.droneOnly {b : Backend} {T T' : Tables} (hI : Inv T) (d d' : Drone)
    (ho : T'.orders = T.orders) (hd : T'.drones = putRow b Drone.ID T.drones d')
    (hl : lookup Drone.ID T.drones d.ID = some d) (hid : d'.ID = d.ID)
    (hc : d'.CurrentOrderID = d.CurrentOrderID) : Inv T' := by
  have hsome := isSome_of_lookup Drone.ID hl hid
  refine hI.update none (some d') ?_ ?_ ?_ ?_ ?_ ?_ ?_ ?_ ?_ ?_
  · rw [ho]; exact hI.orderKeys
  · rw [hd]; exact keysUnique_putRow _ b hI.droneKeys d' hsome
  · intro x hx
    rw [ho] at hx
    exact Or.inl hx
  · intro id; rw [ho]; rfl
  · intro id; rw [hd]; exact lookup_putRow _ b _ _ _ hsome
  · simp
  · rintro w ⟨rfl⟩ oid hcur
    rw [ho, hid]
    exact hI.held d.ID d oid hl (hc ▸ hcur)
  · simp
  · simp
  · rintro w ⟨rfl⟩ e0 he0 oid hcur -
    rw [hid, hl] at he0
    cases he0
    exact hc.trans hcur

/-- An order that is not active gets RESERVED for a drone that holds nothing. -/
theorem Inv.link {b : Backend} {T T' : Tables} (hI : Inv T) (o o' : Order) (d d' : Drone)
    (ho : T'.orders = putRow b Order.ID T.orders o')
    (hd : T'.drones = putRow b Drone.ID T.drones d')
    (hlo : lookup Order.ID T.orders o.ID = some o) (hnot : ¬ Active o.Status)
    (hl : lookup Drone.ID T.drones d.ID = some d) (hfree : d.CurrentOrderID = none)
    (hid : o'.ID = o.ID) (hs : o'.Status = .Reserved) (ha : o'.AssignedDroneID = some d.ID)
    (hid' : d'.ID = d.ID) (hc : d'.CurrentOrderID = some o.ID) : Inv T' := by
  have hsomeO := isSome_of_lookup Order.ID hlo hid
  have hsomeD := isSome_of_lookup Drone.ID hl hid'
  have hlo' : ∀ id, lookup Order.ID T'.orders id = updated Order.ID (some o') T.orders id := by
    intro id; rw [ho]; exact lookup_putRow _ b _ _ _ hsomeO
  have hld' : ∀ id, lookup Drone.ID T'.drones id = updated Drone.ID (some d') T.drones id := by
    intro id; rw [hd]; exact lookup_putRow _ b _ _ _ hsomeD
  refine hI.update (some o') (some d') ?_ ?_ ?_ hlo' hld' ?_ ?_ ?_ ?_ ?_
  · rw [ho]; exact keysUnique_putRow _ b hI.orderKeys o' hsomeO
  · rw [hd]; exact keysUnique_putRow _ b hI.droneKeys d' hsomeD
  · intro x hx
    rw [ho] at hx
    rcases mem_putRow _ b hsomeO hx with h | rfl
    · exact Or.inl h
    · exact Or.inr rfl
  · rintro v ⟨rfl⟩
    simp [ha, hs, KeepsDrone]
  · rintro w ⟨rfl⟩ oid hcur
    rw [hc] at hcur
    cases hcur
    refine ⟨o', ?_, by simp [hs, Active], by rw [ha, hid']⟩
    rw [hlo']; simp [updated, hid]
  · rintro v ⟨rfl⟩ - did hdid
    rw [ha] at hdid
    cases hdid
    refine ⟨d', ?_, by rw [hc, hid]⟩
    rw [hld']; simp [updated, hid']
  · rintro v ⟨rfl⟩ x0 hx0 hx0a
    rw [hid, hlo] at hx0
    cases hx0
    exact absurd hx0a hnot
  · rintro w ⟨rfl⟩ e0 he0 oid hcur
    rw [hid', hl] at he0
    cases he0
    rw [hfree] at hcur
    cases hcur

/-- An active order leaves its drone: the order row stops being active and the
drone row loses its current-order reference. -/
theorem Inv.unlink {b : Backend} {T T' : Tables} (hI : Inv T) (o o' : Order) (d d' : Drone)
    (ho : T'.orders = putRow b Order.ID T.orders o')
    (hd : T'.drones = putRow b Drone.ID T.drones d')
    (hlo : lookup Order.ID T.orders o.ID = some o) (hact : Active o.Status)
    (hass : o.AssignedDroneID = some d.ID)
    (hl : lookup Drone.ID T.drones d.ID = some d)
    (hid : o'.ID = o.ID) (hnot : ¬ Active o'.Status)
    (hrow : (o'.AssignedDroneID ≠ none ↔ KeepsDrone o'.Status) ∧
      (o'.HandoffOrigin ≠ none → o'.Status ≠ .Created))
    (hid' : d'.ID = d.ID) (hc : d'.CurrentOrderID = none) : Inv T' := by
  have hsomeO := isSome_of_lookup Order.ID hlo hid
  have hsomeD := isSome_of_lookup Drone.ID hl hid'
  have hlo' : ∀ id, lookup Order.ID T'.orders id = updated Order.ID (some o') T.orders id := by
    intro id; rw [ho]; exact lookup_putRow _ b _ _ _ hsomeO
  have hld' : ∀ id, lookup Drone.ID T'.drones id = updated Drone.ID (some d') T.drones id := by
    intro id; rw [hd]; exact lookup_putRow _ b _ _ _ hsomeD
  refine hI.update (some o') (some d') ?_ ?_ ?_ hlo' hld' ?_ ?_ ?_ ?_ ?_
  · rw [ho]; exact keysUnique_putRow _ b hI.orderKeys o' hsomeO
  · rw [hd]; exact keysUnique_putRow _ b hI.droneKeys d' hsomeD
  · intro x hx
    rw [ho] at hx
    rcases mem_putRow _ b hsomeO hx with h | rfl
    · exact Or.inl h
    · exact Or.inr rfl
  · rintro v ⟨rfl⟩
    exact hrow
  · rintro w ⟨rfl⟩ oid hcur
    rw [hc] at hcur
    cases hcur
  · rintro v ⟨rfl⟩ hv
    exact absurd hv hnot
  · rintro v ⟨rfl⟩ x0 hx0 - did hdid hne
    rw [hid, hlo] at hx0
    cases hx0
    rw [hass] at hdid
    cases hdid
    exact absurd hid'.symm (hne _ rfl)
  · rintro w ⟨rfl⟩ e0 he0 oid hcur hne
    rw [hid', hl] at he0
    cases he0
    obtain ⟨e, he, hecur⟩ := hI.carried o.ID o d.ID hlo hact hass
    rw [hl] at he
    cases he
    rw [hcur] at hecur
    cases hecur
    exact absurd hid.symm (hne _ rfl)

theorem Change.preserves_inv {b : Backend} {T T' : Tables} (hI : Inv T) (h : Change b T T') : Inv T' := by
  cases h with
  | same ho hd => exact hI.of_same ho hd
  | newOrder o ho hd hfresh hs ha hh => exact hI.newOrder o ho hd hfresh hs ha hh
  | newDrone d ho hd hfresh hc => exact hI.newDrone d ho hd hfresh hc
  | editOrder o o' ho hd hl hid hterm hs ha hh =>
    refine hI.orderOnly o o' ho hd hl hid ha (by rw [hs]) (by rw [hs]) ?_
    rw [hh, hs]
    exact hI.handoff o (lookup_some _ hl).1
  | pickup o o' ho hd hl hid hfrom hassigned hs ha hh =>
    have hkeep := (hI.assigned o (lookup_some _ hl).1).1 hassigned
    have hres : o.Status = .Reserved := by
      rcases hfrom with h | h
      · exact h
      · simp [KeepsDrone, h] at hkeep
    refine hI.orderOnly o o' ho hd hl hid ha ?_ ?_ ?_
    · simp [Active, hs, hres]
    · simp [KeepsDrone, hs, hres]
    · simp [hs]
  | editDrone d d' ho hd hl hid hc => exact hI.droneOnly d d' ho hd hl hid hc
  | link o o' d d' ho hd hmem he hl hfree hid hs ha hh hid' hc =>
    have hlo := lookup_of_mem Order.ID hI.orderKeys hmem
    refine hI.link o o' d d' ho hd hlo ?_ hl hfree hid hs ha hid' hc
    have := he.2
    simp only [List.mem_cons, List.mem_singleton, List.not_mem_nil, or_false] at this
    rcases this with h | h <;> simp [Active, h]
  | withdraw o o' ho hl hfrom hid hs ha hh hd =>
    have hmem := (lookup_some _ hl).1
    have hrow : (o'.AssignedDroneID ≠ none ↔ KeepsDrone o'.Status) ∧
        (o'.HandoffOrigin ≠ none → o'.Status ≠ .Created) := by
      simp [ha, hs, KeepsDrone]
    rcases hd with ⟨d, d', hd, hres, hass, hld, hid', hc⟩ | ⟨hnone, hd⟩
    · exact hI.unlink o o' d d' ho hd hl (Or.inl hres) hass hld hid (by simp [hs, Active])
        hrow hid' hc
    · have hkeep := hI.assigned o hmem
      have hass : o.AssignedDroneID = none := by
        rcases hfrom with h | h
        · by_contra hne
          have := hkeep.1 hne
          simp [KeepsDrone, h] at this
        · exact hnone h
      have hcre : o.Status = .Created := by
        rcases hfrom with h | h
        · exact h
        · have := hkeep.2 (by simp [KeepsDrone, h])
          exact absurd hass this
      exact hI.orderOnly o o' ho hd hl hid (by rw [ha, hass]) (by simp [Active, hs, hcre])
        (by simp [KeepsDrone, hs, hcre]) hrow.2
  | complete o o' droneID ho hl hfrom hassigned hid hs ha hh hd =>
    have hmem := (lookup_some _ hl).1
    obtain ⟨e, he, hecur⟩ := hI.carried o.ID o droneID hl (Or.inr hfrom) hassigned
    have heid := (lookup_some _ he).2
    rcases hd with ⟨d, d', hd, hld, hid', hc⟩ | ⟨hnone, -⟩
    · rw [he] at hld
      cases hld
      refine hI.unlink o o' e d' ho hd hl (Or.inr hfrom) (heid ▸ hassigned)
        (heid ▸ he) hid ?_ ⟨?_, ?_⟩ hid' hc
      · rcases hs with h | h <;> simp [Active, h]
      · rw [ha, hassigned]
        rcases hs with h | h <;> simp [KeepsDrone, h]
      · rcases hs with h | h <;> simp [h]
    · rw [he] at hnone
      cases hnone
  | release d d' o hd hl hcur hlo hid' hc ho =>
    obtain ⟨x, hx, hxact, hxass⟩ := hI.held d.ID d o.ID hl hcur
    rw [hlo] at hx
    cases hx
    rcases ho with ⟨o', ho, hs, hid, hs', ha⟩ | ⟨o', ho, hs, hid, hs', ha, hh⟩ | ⟨h1, h2, -⟩
    · exact hI.unlink o o' d d' ho hd hlo hxact hxass hl hid (by simp [Active, hs'])
        (by simp [ha, hs', KeepsDrone]) hid' hc
    · exact hI.unlink o o' d d' ho hd hlo hxact hxass hl hid (by simp [Active, hs'])
        (by simp [ha, hs', hh, KeepsDrone]) hid' hc
    · rcases hxact with h | h
      · exact absurd h h2
      · exact absurd h h1

theorem Changes.preserve_inv {b : Backend} {T T' : Tables} (hI : Inv T) (h : Changes b T T') :
    Inv T' := by
  induction h with
  | refl => exact hI
  | tail _ hc ih => exact hc.preserves_inv ih

theorem Inv.empty : Inv Tables.empty := by
  refine ⟨?_, ?_, ?_, ?_, ?_, ?_⟩ <;> simp [Tables.empty, KeysUnique, lookup]

theorem Inv.reorder {T : Tables} (hI : Inv T) (orders : List Order) (drones : List Drone)
    (ho : orders.Perm T.orders) (hd : drones.Perm T.drones) :
    Inv { T with orders := orders, drones := drones } := by
  have hlo : ∀ id, lookup Order.ID orders id = lookup Order.ID T.orders id :=
    lookup_perm _ hI.orderKeys ho
  have hld : ∀ id, lookup Drone.ID drones id = lookup Drone.ID T.drones id :=
    lookup_perm _ hI.droneKeys hd
  refine ⟨?_, ?_, ?_, ?_, ?_, ?_⟩
  · exact fun a ha c hc => hI.orderKeys a (ho.mem_iff.1 ha) c (ho.mem_iff.1 hc)
  · exact fun a ha c hc => hI.droneKeys a (hd.mem_iff.1 ha) c (hd.mem_iff.1 hc)
  · exact fun o h => hI.assigned o (ho.mem_iff.1 h)
  · exact fun o h => hI.handoff o (ho.mem_iff.1 h)
  · intro did d oid h1 h2
    simp only [hlo, hld] at h1 ⊢
    exact hI.held did d oid h1 h2
  · intro oid o did h1 h2 h3
    simp only [hlo, hld] at h1 ⊢
    exact hI.carried oid o did h1 h2 h3

/-- Every reachable store satisfies the invariant. -/
theorem Reachable.invariant {b : Backend} {T : Tables} (h : Reachable b T) : Inv T := by
  induction h with
  | empty => exact Inv.empty
  | step failAt env op _ ih => exact Changes.preserve_inv ih (Op.run_changes b failAt env _ op)
  | reorder orders drones _ ho hd ih => exact ih.reorder orders drones ho hd

/-! ## The claims -/

theorem Reachable.runAll {b : Backend} (env : Env) {T : Tables} (h : Reachable b T)
    (ops : List Op) : Reachable b (runAll b env T ops) := by
  induction ops generalizing T with
  | nil => exact h
  | cons op rest ih => exact ih (Reachable.step none env op h)

/-- C1: the failing input. In the store reached by submit, reserve, pickup and
deliver, the order is DELIVERED and still has `AssignedDroneID = drone-a`:
`completeOrderForDrone` clears the drone's `CurrentOrderID` and does not clear
the order's `AssignedDroneID`, which `WithdrawOrder` and `DroneMarkBroken` do
clear. -/
theorem delivered_order_keeps_drone :
    Reachable .mem deliveredStore ∧ deliveredOrder ∈ deliveredStore.orders ∧
    deliveredOrder.Status = .Delivered ∧ deliveredOrder.AssignedDroneID = some "drone-a" ∧
    ¬ (deliveredOrder.AssignedDroneID ≠ none ↔
        (deliveredOrder.Status = .Reserved ∨ deliveredOrder.Status = .PickedUp)) :=
  ⟨Reachable.runAll _ Reachable.empty _, by decide, by decide, by decide, by decide⟩

/-- How far the defect of `completeOrderForDrone` goes: in every reachable
store, the orders that have `AssignedDroneID` set are those of status RESERVED
or PICKED_UP and, against the specification, those of status DELIVERED or
FAILED. -/
theorem assigned_iff_keepsDrone (b : Backend) (T : Tables) (h : Reachable b T)
    (o : Order) (ho : o ∈ T.orders) :
    o.AssignedDroneID ≠ none ↔
      (o.Status = .Reserved ∨ o.Status = .PickedUp ∨ o.Status = .Delivered ∨
        o.Status = .Failed) :=
  h.invariant.assigned o ho

theorem keeps_putRow {b : Backend} {os : List Order} {o x o' : Order}
    (hk : KeysUnique Order.ID os) (ho : lookup Order.ID os o.ID = some o)
    (hx : lookup Order.ID os x.ID = some x) (hne : x.Status ≠ o.Status) (hid : o'.ID = x.ID) :
    KeysUnique Order.ID (putRow b Order.ID os o') ∧
      lookup Order.ID (putRow b Order.ID os o') o.ID = some o := by
  refine ⟨keysUnique_putRow _ b hk o' (isSome_of_lookup Order.ID hx hid), ?_⟩
  rw [lookup_putRow_ne _ b _ _ _ ?_]
  · exact ho
  · intro h
    rw [hid] at h
    rw [h, hx] at ho
    cases ho
    exact hne rfl

theorem Change.keeps_terminal {b : Backend} {T T' : Tables} (h : Change b T T') (o : Order)
    (hk : KeysUnique Order.ID T.orders) (ho : lookup Order.ID T.orders o.ID = some o)
    (ht : IsTerminal o.Status = true) :
    KeysUnique Order.ID T'.orders ∧ lookup Order.ID T'.orders o.ID = some o := by
  cases h with
  | same ho' hd => rw [ho']; exact ⟨hk, ho⟩
  | newOrder n ho' hd hfresh hs ha hh =>
    rw [ho']
    refine ⟨keysUnique_append _ hk n hfresh, ?_⟩
    rw [lookup_append_fresh _ _ _ _ hfresh]
    have : o.ID ≠ n.ID := by
      intro h
      rw [h, hfresh] at ho
      cases ho
    simpa [this] using ho
  | newDrone d ho' hd hfresh hc => rw [ho']; exact ⟨hk, ho⟩
  | editOrder x o' ho' hd hl hid hterm hs ha hh =>
    rw [ho']
    exact keeps_putRow hk ho hl (fun h => by rw [h, ht] at hterm; cases hterm) hid
  | pickup x o' ho' hd hl hid hfrom hassigned hs ha hh =>
    rw [ho']
    refine keeps_putRow hk ho hl (fun h => ?_) hid
    rcases hfrom with h' | h' <;> rw [← h, h'] at ht <;> cases ht
  | editDrone d d' ho' hd hl hid hc => rw [ho']; exact ⟨hk, ho⟩
  | link x o' d d' ho' hd hmem he hl hfree hid hs ha hh hid' hc =>
    rw [ho']
    refine keeps_putRow hk ho (lookup_of_mem _ hk hmem) (fun h => ?_) hid
    have := he.2
    simp only [List.mem_cons, List.mem_singleton, List.not_mem_nil, or_false] at this
    rcases this with h' | h' <;> rw [← h, h'] at ht <;> cases ht
  | withdraw x o' ho' hl hfrom hid hs ha hh hd =>
    rw [ho']
    refine keeps_putRow hk ho hl (fun h => ?_) hid
    rcases hfrom with h' | h' <;> rw [← h, h'] at ht <;> cases ht
  | complete x o' droneID ho' hl hfrom hassigned hid hs ha hh hd =>
    rw [ho']
    refine keeps_putRow hk ho hl (fun h => ?_) hid
    rw [← h, hfrom] at ht
    cases ht
  | release d d' x hd hl hcur hlo hid' hc ho' =>
    rcases ho' with ⟨o', ho', hs, hid, -⟩ | ⟨o', ho', hs, hid, -⟩ | ⟨-, -, ho'⟩
    · rw [ho']
      refine keeps_putRow hk ho hlo (fun h => ?_) hid
      rw [← h, hs] at ht
      cases ht
    · rw [ho']
      refine keeps_putRow hk ho hlo (fun h => ?_) hid
      rw [← h, hs] at ht
      cases ht
    · rw [ho']; exact ⟨hk, ho⟩

theorem Changes.keep_terminal {b : Backend} {T T' : Tables} (h : Changes b T T') (o : Order)
    (hk : KeysUnique Order.ID T.orders) (ho : lookup Order.ID T.orders o.ID = some o)
    (ht : IsTerminal o.Status = true) :
    KeysUnique Order.ID T'.orders ∧ lookup Order.ID T'.orders o.ID = some o := by
  induction h with
  | refl => exact ⟨hk, ho⟩
  | tail _ hc ih => exact hc.keeps_terminal o ih.1 ih.2 ht

/-- C2. A stored order whose status is DELIVERED, FAILED or WITHDRAWN survives
every operation: whatever the operation, its arguments, the clock and the
database failures, the operation fails or the order stored under that id
afterwards is the same record, field for field. (The store is a map: its rows
have distinct ids.) -/
theorem terminal_order_immutable (b : Backend) (failAt : Option Nat) (env : Env) (T : Tables)
    (op : Op) (o : Order) (hk : KeysUnique Order.ID T.orders) (ho : o ∈ T.orders)
    (ht : o.Status = .Delivered ∨ o.Status = .Failed ∨ o.Status = .Withdrawn) :
    (∃ e, (op.run b failAt env T).1 = .error e) ∨
      (o ∈ (op.run b failAt env T).2.orders ∧
        lookup Order.ID (op.run b failAt env T).2.orders o.ID = some o) := by
  have ht' : IsTerminal o.Status = true := by
    rcases ht with h | h | h <;> simp [IsTerminal, h]
  have := (Op.run_changes b failAt env T op).keep_terminal o hk (lookup_of_mem _ hk ho) ht'
  exact Or.inr ⟨(lookup_some _ this.2).1, this.2⟩

/-- C2, at the delivered order of `deliveredStore` and a further `DronePickup`. -/
theorem terminal_order_immutable_witness :
    deliveredOrder ∈ deliveredStore.orders ∧ deliveredOrder.Status = .Delivered ∧
    ((∃ e, ((Op.DronePickup "drone-a" "").run .mem none sampleEnv deliveredStore).1
        = .error e) ∨
      (deliveredOrder ∈
          ((Op.DronePickup "drone-a" "").run .mem none sampleEnv deliveredStore).2.orders ∧
        lookup Order.ID
          ((Op.DronePickup "drone-a" "").run .mem none sampleEnv deliveredStore).2.orders
          deliveredOrder.ID = some deliveredOrder)) :=
  ⟨by decide, by decide,
   terminal_order_immutable .mem none sampleEnv deliveredStore (.DronePickup "drone-a" "")
     deliveredOrder (Reachable.invariant (Reachable.runAll sampleEnv Reachable.empty _)).orderKeys
     (by decide) (Or.inl (by decide))⟩

/-- C4. In every reachable store, two stored orders that are RESERVED or
PICKED_UP and assigned to the same drone are the same order: a drone has at
most one active order. -/
theorem at_most_one_active_order_per_drone (b : Backend) (T : Tables) (h : Reachable b T)
    (droneID : String) (o1 o2 : Order) (h1 : o1 ∈ T.orders) (h2 : o2 ∈ T.orders)
    (hs1 : o1.Status = .Reserved ∨ o1.Status = .PickedUp)
    (ha1 : o1.AssignedDroneID = some droneID)
    (hs2 : o2.Status = .Reserved ∨ o2.Status = .PickedUp)
    (ha2 : o2.AssignedDroneID = some droneID) : o1 = o2 := by
  have hI := h.invariant
  obtain ⟨d1, hd1, hc1⟩ :=
    hI.carried o1.ID o1 droneID (lookup_of_mem _ hI.orderKeys h1) hs1 ha1
  obtain ⟨d2, hd2, hc2⟩ :=
    hI.carried o2.ID o2 droneID (lookup_of_mem _ hI.orderKeys h2) hs2 ha2
  rw [hd1] at hd2
  cases hd2
  rw [hc1] at hc2
  exact hI.orderKeys o1 h1 o2 h2 (Option.some.inj hc2)

/-- C4, at the order `drone-b` holds in `handedOverStore`. -/
theorem at_most_one_active_order_per_drone_witness :
    Reachable .mem handedOverStore ∧ handedOverOrder ∈ handedOverStore.orders ∧
    handedOverOrder.Status = .Reserved ∧ handedOverOrder.AssignedDroneID = some "drone-b" ∧
    handedOverOrder = handedOverOrder :=
  ⟨Reachable.runAll _ Reachable.empty _, by decide, by decide, by decide,
   at_most_one_active_order_per_drone .mem handedOverStore
     (Reachable.runAll _ Reachable.empty _) "drone-b" handedOverOrder handedOverOrder
     (by decide) (by decide) (Or.inl (by decide)) (by decide) (Or.inl (by decide))
     (by decide)⟩

/-- C5, as stated, fails. After `drone-a` broke while carrying the order and
`drone-b` reserved the handed-off order, the order is RESERVED and its
`HandoffOrigin` is still the position `drone-a` last reported:
`DroneReserveJob` does not clear it. -/
theorem reserved_order_keeps_handoff_origin :
    Reachable .mem handedOverStore ∧ handedOverOrder ∈ handedOverStore.orders ∧
    handedOverOrder.HandoffOrigin = some sampleDronePos ∧
    handedOverOrder.Status = .Reserved ∧
    ¬ (handedOverOrder.HandoffOrigin ≠ none → handedOverOrder.Status = .HandoffRequested) :=
  ⟨Reachable.runAll _ Reachable.empty _, by decide, by decide, by decide, by decide⟩

/-- C5 (amended). In every reachable store, a stored order whose `HandoffOrigin`
is set is not in status CREATED. -/
theorem handoff_origin_not_created (b : Backend) (T : Tables) (h : Reachable b T)
    (o : Order) (ho : o ∈ T.orders) (hh : o.HandoffOrigin ≠ none) : o.Status ≠ .Created :=
  h.invariant.handoff o ho hh

/-- C5 (amended), at the order of `handedOverStore`. -/
theorem handoff_origin_not_created_witness :
    Reachable .mem handedOverStore ∧ handedOverOrder ∈ handedOverStore.orders ∧
    handedOverOrder.HandoffOrigin ≠ none ∧ handedOverOrder.Status ≠ .Created :=
  ⟨Reachable.runAll _ Reachable.empty _, by decide, by decide,
   handoff_origin_not_created .mem handedOverStore (Reachable.runAll _ Reachable.empty _)
     handedOverOrder (by decide) (by decide)⟩

/-- C3, as stated, fails. On the WITHDRAWN order of `withdrawnStore`, owned by
`u1`, `WithdrawOrder` called by `u2` and `DronePickup` called by `drone-a` both
fail with Forbidden, not Precondition: ownership and assignment are checked
before the status. -/
theorem terminal_order_forbidden_first :
    lookup Order.ID withdrawnStore.orders "" = some withdrawnOrder ∧
    withdrawnOrder.Status = .Withdrawn ∧
    (WithdrawOrder .mem none sampleEnv withdrawnStore "u2" "").1
      = .error .ErrForbidden ∧
    (DronePickup .mem none sampleEnv withdrawnStore "drone-a" "").1
      = .error .ErrForbidden := by
  decide

/-- C3 (amended). On a stored order whose status is DELIVERED, FAILED or
WITHDRAWN, when the store calls succeed: `AdminUpdateOrder` fails with
Precondition; `WithdrawOrder` fails with Precondition when the caller owns the
order and with Forbidden otherwise; `DronePickup`, `DroneDeliver` and
`DroneFail` (non-empty reason) fail with Precondition when the caller is the
order's assigned drone and with Forbidden otherwise. The store is left as it was. -/
theorem terminal_order_rejected (b : Backend) (env : Env) (T : Tables) (o : Order)
    (caller reason : String) (origin dest : Option Location)
    (ho : lookup Order.ID T.orders o.ID = some o)
    (ht : o.Status = .Delivered ∨ o.Status = .Failed ∨ o.Status = .Withdrawn)
    (hr : reason ≠ "") :
    AdminUpdateOrder b none env T o.ID origin dest = (.error .ErrPrecondition, T) ∧
    WithdrawOrder b none env T caller o.ID =
      (.error (if o.UserID = caller then .ErrPrecondition else .ErrForbidden), T) ∧
    DronePickup b none env T caller o.ID =
      (.error (if o.AssignedDroneID = some caller then .ErrPrecondition else .ErrForbidden),
        T) ∧
    DroneDeliver b none env T caller o.ID =
      (.error (if o.AssignedDroneID = some caller then .ErrPrecondition else .ErrForbidden),
        T) ∧
    DroneFail b none env T caller o.ID reason =
      (.error (if o.AssignedDroneID = some caller then .ErrPrecondition else .ErrForbidden),
        T) := by
  have hterm : IsTerminal o.Status = true := by
    rcases ht with h | h | h <;> simp [IsTerminal, h]
  refine ⟨?_, ?_, ?_, ?_, ?_⟩
  · unfold AdminUpdateOrder
    refine runTx_post b none _ T (fun x => x = (.error .ErrPrecondition, T)) (by simp) ?_
    intro _
    cases b <;>
      simp [post_GetOrderForUpdate_bind, post_check_bind, Tx.fails, Tx.start, Tx.next,
        Tx.final, ho, hterm]
  · unfold WithdrawOrder
    refine runTx_post b none _ T (fun x => x = (.error _, T)) (by simp) ?_
    intro _
    by_cases hu : o.UserID = caller <;> rcases ht with h | h | h <;> cases b <;>
      simp [post_GetOrderForUpdate_bind, post_check_bind, Tx.fails, Tx.start, Tx.next,
        Tx.final, ho, hu, h]
  · unfold DronePickup updateOrderForDrone
    refine runTx_post b none _ T (fun x => x = (.error _, T)) (by simp) ?_
    intro _
    by_cases hu : o.AssignedDroneID = some caller <;> rcases ht with h | h | h <;> cases b <;>
      simp [post_GetOrderForUpdate_bind, post_check_bind, post_fail, Tx.fails, Tx.start,
        Tx.next, Tx.final, ho, hu, h]
  · unfold DroneDeliver completeOrderForDrone
    refine runTx_post b none _ T (fun x => x = (.error _, T)) (by simp) ?_
    intro _
    by_cases hu : o.AssignedDroneID = some caller <;> rcases ht with h | h | h <;> cases b <;>
      simp [post_GetOrderForUpdate_bind, post_check_bind, post_fail, Tx.fails, Tx.start,
        Tx.next, Tx.final, ho, hu, h]
  · unfold DroneFail completeOrderForDrone
    rw [if_neg hr]
    refine runTx_post b none _ T (fun x => x = (.error _, T)) (by simp) ?_
    intro _
    by_cases hu : o.AssignedDroneID = some caller <;> rcases ht with h | h | h <;> cases b <;>
      simp [post_GetOrderForUpdate_bind, post_check_bind, post_fail, Tx.fails, Tx.start,
        Tx.next, Tx.final, ho, hu, h]

/-- C3 (amended), at the WITHDRAWN order of `withdrawnStore`, with a caller that
is neither its owner nor its drone. -/
theorem terminal_order_rejected_witness :
    lookup Order.ID withdrawnStore.orders withdrawnOrder.ID = some withdrawnOrder ∧
    withdrawnOrder.Status = .Withdrawn ∧
    (AdminUpdateOrder .mem none sampleEnv withdrawnStore withdrawnOrder.ID none none =
        (.error .ErrPrecondition, withdrawnStore) ∧
      WithdrawOrder .mem none sampleEnv withdrawnStore "u2" withdrawnOrder.ID =
        (.error (if withdrawnOrder.UserID = "u2" then .ErrPrecondition else .ErrForbidden),
          withdrawnStore) ∧
      DronePickup .mem none sampleEnv withdrawnStore "u2" withdrawnOrder.ID =
        (.error (if withdrawnOrder.AssignedDroneID = some "u2" then .ErrPrecondition
          else .ErrForbidden), withdrawnStore) ∧
      DroneDeliver .mem none sampleEnv withdrawnStore "u2" withdrawnOrder.ID =
        (.error (if withdrawnOrder.AssignedDroneID = some "u2" then .ErrPrecondition
          else .ErrForbidden), withdrawnStore) ∧
      DroneFail .mem none sampleEnv withdrawnStore "u2" withdrawnOrder.ID "crash" =
        (.error (if withdrawnOrder.AssignedDroneID = some "u2" then .ErrPrecondition
          else .ErrForbidden), withdrawnStore)) :=
  ⟨by decide, by decide,
   terminal_order_rejected .mem sampleEnv withdrawnStore withdrawnOrder "u2" "crash"
     none none (by decide) (Or.inr (Or.inr (by decide))) (by decide)⟩

/-- C8. `memTx.ReserveNextOrder` returns no order exactly when no stored order
is eligible (allowed status and no assigned drone); otherwise the order it
returns is one of the stored orders, is eligible, and no eligible stored
order has an earlier `CreatedAt`. -/
theorem memReserveNextOrder_oldest_eligible (allowed : List OrderStatus) (orders : List Order) :
    (memReserveNextOrder allowed orders = none ↔ ∀ o ∈ orders, ¬ Eligible allowed o) ∧
    (∀ r, memReserveNextOrder allowed orders = some r →
      r ∈ orders ∧ Eligible allowed r ∧
      ∀ o ∈ orders, Eligible allowed o → r.CreatedAt ≤ o.CreatedAt) := by
  constructor
  · simpa [memReserveNextOrder] using reserveScan_none allowed orders none
  · exact fun r h => memReserveNextOrder_some allowed orders r h

/-- C9, as stated, fails. For the BROKEN drone of `brokenDroneStore`,
`DroneReserveJob` fails with Precondition, not Conflict. -/
theorem broken_drone_reserve_is_precondition :
    (lookup Drone.ID brokenDroneStore.drones "drone-a").map (fun d => d.Status)
      = some .Broken ∧
    DroneReserveJob .mem none sampleEnv brokenDroneStore "drone-a"
      = (.error .ErrPrecondition, brokenDroneStore) := by
  decide

/-- C9 (amended). When the store calls succeed, `DroneReserveJob` for a stored
drone fails with Precondition when the drone is BROKEN, and with Conflict when
it is not broken but holds an order; in both cases the store is left exactly
as it was. -/
theorem reserve_rejected_for_broken_or_busy (b : Backend) (env : Env) (T : Tables)
    (droneID : String) (drone : Drone)
    (hd : lookup Drone.ID T.drones droneID = some drone)
    (h : drone.Status = .Broken ∨ drone.CurrentOrderID ≠ none) :
    DroneReserveJob b none env T droneID =
      (.error (if drone.Status = .Broken then .ErrPrecondition else .ErrConflict), T) := by
  unfold DroneReserveJob
  refine runTx_post b none _ T (fun x => x = (.error _, T)) (by simp) ?_
  intro _
  rw [post_bind, post_getOrCreateDrone]
  by_cases hb : drone.Status = .Broken
  · cases b <;>
      simp [post_check_bind, Tx.fails, Tx.start, Tx.next, Tx.final, hd, hb]
  · have hc : drone.CurrentOrderID ≠ none := h.resolve_left hb
    cases b <;>
      simp [post_check_bind, Tx.fails, Tx.start, Tx.next, Tx.final, hd, hb, hc]

/-- C9 (amended), at the broken drone of `brokenDroneStore`. -/
theorem reserve_rejected_for_broken_or_busy_witness :
    lookup Drone.ID brokenDroneStore.drones "drone-a" = some brokenDrone ∧
    brokenDrone.Status = .Broken ∧
    DroneReserveJob .mem none sampleEnv brokenDroneStore "drone-a" =
      (.error (if brokenDrone.Status = .Broken then .ErrPrecondition else .ErrConflict),
        brokenDroneStore) :=
  ⟨by decide, by decide,
   reserve_rejected_for_broken_or_busy .mem sampleEnv brokenDroneStore "drone-a"
     brokenDrone (by decide) (Or.inl (by decide))⟩

/-- C10: the failing input. On the transactional store, `DroneReserveJob` for a
drone the empty store has never seen returns NoJob and leaves the store empty:
the drone row `getOrCreateDrone` inserted is rolled back with the transaction. -/
theorem reserve_nojob_discards_new_drone (env : Env) (droneID : String) :
    DroneReserveJob .postgres none env Tables.empty droneID
        = (.error .ErrNoJob, Tables.empty) ∧
    lookup Drone.ID
      (DroneReserveJob .postgres none env Tables.empty droneID).2.drones droneID = none := by
  have h : DroneReserveJob .postgres none env Tables.empty droneID
      = (.error .ErrNoJob, Tables.empty) := by
    unfold DroneReserveJob
    refine runTx_post .postgres none _ _ (fun x => x = (.error .ErrNoJob, Tables.empty))
      (by simp) ?_
    intro _
    rw [post_bind, post_getOrCreateDrone]
    simp [post_check_bind, post_ReserveNextOrder_bind, post_fail, Tx.fails, Tx.start, Tx.next,
      Tx.final, Tables.empty, lookup, memReserveNextOrder, reserveScan]
  exact ⟨h, by rw [h]; rfl⟩

/-- The sibling paths of C10: on the transactional store, a first `DroneHeartbeat`
and a first `DroneMarkBroken` do leave the drone row behind. -/
theorem first_contact_creates_drone (env : Env) (droneID : String) :
    (lookup Drone.ID
      (DroneHeartbeat .postgres none env Tables.empty droneID sampleDronePos).2.drones
      droneID).isSome ∧
    (lookup Drone.ID
      (DroneMarkBroken .postgres none env Tables.empty droneID).2.drones droneID).isSome := by
  constructor
  · unfold DroneHeartbeat
    rw [if_neg (by decide)]
    refine runTx_post .postgres none _ _
      (fun x => (lookup Drone.ID x.2.drones droneID).isSome) (by simp) ?_
    intro _
    rw [post_bind, post_getOrCreateDrone]
    simp only [Tx.fails, Tx.start, Tx.next, Tables.empty, lookup, List.find?_nil]
    simp [post_UpdateDrone_bind, post_Commit_bind, Tx.fails, Tx.next, putRow, replaceRow]
    apply post_currentOrderView
    intro r n
    simp [lookup, Tx.final]
  · unfold DroneMarkBroken releaseOrder
    refine runTx_post .postgres none _ _
      (fun x => (lookup Drone.ID x.2.drones droneID).isSome) (by simp) ?_
    intro _
    rw [post_bind, post_getOrCreateDrone]
    simp [pure_bind', post_UpdateDrone_bind, post_EnqueueEvent_bind, post_Commit_bind, post_pure,
      Tx.fails, Tx.start, Tx.next, Tx.final, Tables.empty, putRow, replaceRow, lookup]

theorem GotDrone.lookup_ne {drones : List Drone} {id : String} {now : Time} {drone : Drone}
    {drones' : List Drone} (h : GotDrone drones id now drone drones') (id' : String)
    (hne : id' ≠ id) :
    DroneSys.lookup Drone.ID drones' id' = DroneSys.lookup Drone.ID drones id' := by
  rcases h with ⟨-, rfl⟩ | ⟨hn, rfl, rfl⟩
  · rfl
  · rw [lookup_append_fresh _ _ _ _ hn]
    simp [hne]

theorem isSome_of_mem {α : Type} (key : α → String) {xs : List α} {x : α} (h : x ∈ xs) :
    (lookup key xs (key x)).isSome := by
  cases hl : lookup key xs (key x) with
  | some y => rfl
  | none => exact absurd rfl ((lookup_eq_none key).1 hl x h)

/-- What a successful `DroneReserveJob` has read and written (elimination form). -/
theorem DroneReserveJob_ok_elim (b : Backend) (failAt : Option Nat) (env : Env) (T : Tables)
    (droneID : String) (r : Order) (T' : Tables)
    (h : DroneReserveJob b failAt env T droneID = (.ok r, T')) (G : Prop)
    (k : ∀ o drone drones', GotDrone T.drones droneID (env.now 0) drone drones' →
      drone.Status ≠ .Broken → drone.CurrentOrderID = none →
      memReserveNextOrder [.Created, .HandoffRequested] T.orders = some o →
      r = reservedFor o droneID (env.now 1) →
      T'.orders = putRow b Order.ID T.orders r →
      T'.drones = putRow b Drone.ID drones'
        { drone with CurrentOrderID := some o.ID, UpdatedAt := env.now 1 } → G) : G := by
  revert h
  unfold DroneReserveJob
  refine runTx_post b failAt _ T (fun x => x = (.ok r, T') → G) (by simp) ?_
  intro _
  apply post_getOrCreateDrone_bind
  · intro hb n
    simp
  · intro drone drones' n hg
    simp only [Tx.start] at hg
    have hid := hg.id_eq
    cases hr : memReserveNextOrder [.Created, .HandoffRequested] T.orders with
    | none =>
      cases b <;>
        simp [post_check_bind, post_ReserveNextOrder_bind, post_fail, hr,
          Tx.fails, Tx.start, Tx.next, Tx.final]
    | some order =>
      cases b <;>
        simp [post_check_bind, post_ReserveNextOrder_bind, post_fail, hr, post_UpdateOrder_bind,
          post_UpdateDrone_bind, post_EnqueueEvent_bind, post_Commit_bind, post_pure,
          Tx.fails, Tx.start, Tx.next, Tx.final] <;>
        (repeat' (first | intro _ | apply And.intro)) <;>
        (rename_i hr' hT
         subst hr' hT
         exact k order drone drones' hg ‹_› ‹_› hr (by simp [reservedFor, hid])
           (by simp [reservedFor, hid]) rfl)

theorem lookup_putRow_self {α : Type} (key : α → String) (b : Backend) (xs : List α) (x : α)
    (h : (lookup key xs (key x)).isSome) : lookup key (putRow b key xs x) (key x) = some x := by
  rw [lookup_putRow key b xs x (key x) h]
  simp

/-- C7. Whenever `DroneReserveJob(d)` succeeds, the order it returns is a stored
order `o` that had status CREATED or HANDOFF_REQUESTED and no assigned drone,
rewritten with status RESERVED, `AssignedDroneID = d` and `ReservedAt` (and
`UpdatedAt`) the clock reading of the call; afterwards that record is the one
stored under its id, drone `d` is stored with `CurrentOrderID` that id, and
the lookup of every other order id and drone id is unchanged. -/
theorem reserve_success_effect (b : Backend) (failAt : Option Nat) (env : Env) (T : Tables)
    (droneID : String) (r : Order) (T' : Tables)
    (h : DroneReserveJob b failAt env T droneID = (.ok r, T')) :
    ∃ o, o ∈ T.orders ∧ o.ID = r.ID ∧
      (o.Status = .Created ∨ o.Status = .HandoffRequested) ∧ o.AssignedDroneID = none ∧
      r = { o with Status := .Reserved, AssignedDroneID := some droneID,
                   ReservedAt := some (env.now 1), UpdatedAt := env.now 1 } ∧
      lookup Order.ID T'.orders r.ID = some r ∧
      (∃ d, lookup Drone.ID T'.drones droneID = some d ∧ d.ID = droneID ∧
        d.CurrentOrderID = some r.ID) ∧
      (∀ id, id ≠ r.ID → lookup Order.ID T'.orders id = lookup Order.ID T.orders id) ∧
      (∀ id, id ≠ droneID → lookup Drone.ID T'.drones id = lookup Drone.ID T.drones id) := by
  apply DroneReserveJob_ok_elim b failAt env T droneID r T' h
  intro o drone drones' hg _ _ hr hreq ho hd
  obtain ⟨hm, he, -⟩ :=
    memReserveNextOrder_some [.Created, .HandoffRequested] T.orders o hr
  have hrid : r.ID = o.ID := by rw [hreq]; rfl
  have hsomeO : (lookup Order.ID T.orders r.ID).isSome := by
    rw [hrid]; exact isSome_of_mem _ hm
  have hdid := hg.id_eq
  have hsomeD : (lookup Drone.ID drones'
      ({ drone with CurrentOrderID := some o.ID, UpdatedAt := env.now 1 } : Drone).ID).isSome := by
    show (lookup Drone.ID drones' drone.ID).isSome
    rw [hg.lookup]; rfl
  refine ⟨o, hm, hrid.symm, ?_, he.1, hreq, ?_, ?_, ?_, ?_⟩
  · have := he.2
    simpa using this
  · rw [ho]; exact lookup_putRow_self _ b _ _ hsomeO
  · refine ⟨{ drone with CurrentOrderID := some o.ID, UpdatedAt := env.now 1 }, ?_, hdid, ?_⟩
    · rw [hd, ← hdid]
      exact lookup_putRow_self Drone.ID b drones' _ hsomeD
    · simp [hrid]
  · intro id hne
    rw [ho]
    exact lookup_putRow_ne _ b _ _ _ hne
  · intro id hne
    rw [hd, lookup_putRow_ne Drone.ID b _ _ _ (by simpa [hdid] using hne)]
    exact hg.lookup_ne id hne

/-- C7, at the reservation of the order of `submittedStore` by `drone-a`. -/
theorem reserve_success_effect_witness :
    DroneReserveJob .mem none sampleEnv submittedStore "drone-a"
      = (.ok reservedOrder, reservedStore) ∧
    ∃ o, o ∈ submittedStore.orders ∧ o.ID = reservedOrder.ID ∧
      (o.Status = .Created ∨ o.Status = .HandoffRequested) ∧ o.AssignedDroneID = none ∧
      reservedOrder = { o with Status := .Reserved, AssignedDroneID := some "drone-a",
                               ReservedAt := some (sampleEnv.now 1),
                               UpdatedAt := sampleEnv.now 1 } ∧
      lookup Order.ID reservedStore.orders reservedOrder.ID = some reservedOrder ∧
      (∃ d, lookup Drone.ID reservedStore.drones "drone-a" = some d ∧ d.ID = "drone-a" ∧
        d.CurrentOrderID = some reservedOrder.ID) ∧
      (∀ id, id ≠ reservedOrder.ID →
        lookup Order.ID reservedStore.orders id = lookup Order.ID submittedStore.orders id) ∧
      (∀ id, id ≠ "drone-a" →
        lookup Drone.ID reservedStore.drones id = lookup Drone.ID submittedStore.drones id) :=
  ⟨by decide,
   reserve_success_effect .mem none sampleEnv submittedStore "drone-a" reservedOrder
     reservedStore (by decide)⟩

/-- `DroneReserveJob` succeeds when the drone may reserve and the scan finds an order. -/
theorem DroneReserveJob_succeeds (b : Backend) (env : Env) (T : Tables) (droneID : String)
    (o : Order) (hfree : FreeDrone T droneID)
    (hr : memReserveNextOrder [.Created, .HandoffRequested] T.orders = some o) :
    ∃ T', DroneReserveJob b none env T droneID
      = (.ok (reservedFor o droneID (env.now 1)), T') := by
  unfold DroneReserveJob
  refine runTx_post b none _ T
    (fun x => ∃ T', x = (.ok (reservedFor o droneID (env.now 1)), T')) (by simp) ?_
  intro _
  rw [post_bind, post_getOrCreateDrone]
  cases hl : lookup Drone.ID T.drones droneID with
  | none =>
    cases b <;>
      simp [post_check_bind, post_ReserveNextOrder_bind, post_UpdateOrder_bind,
        post_UpdateDrone_bind, post_EnqueueEvent_bind, post_Commit_bind, post_pure,
        Tx.fails, Tx.start, Tx.next, Tx.final, hl, hr, reservedFor]
  | some d =>
    obtain ⟨hs, hc⟩ := hfree d hl
    have hid := (lookup_some _ hl).2
    cases b <;>
      simp [post_check_bind, post_ReserveNextOrder_bind, post_UpdateOrder_bind,
        post_UpdateDrone_bind, post_EnqueueEvent_bind, post_Commit_bind, post_pure,
        Tx.fails, Tx.start, Tx.next, Tx.final, hl, hr, hs, hc, reservedFor, hid]

/-- `DroneReserveJob` returns NoJob when the drone may reserve and the scan finds
nothing; the orders are left as they were. -/
theorem DroneReserveJob_nojob (b : Backend) (env : Env) (T : Tables) (droneID : String)
    (hfree : FreeDrone T droneID)
    (hr : memReserveNextOrder [.Created, .HandoffRequested] T.orders = none) :
    ∃ T', DroneReserveJob b none env T droneID = (.error .ErrNoJob, T') ∧
      T'.orders = T.orders := by
  unfold DroneReserveJob
  refine runTx_post b none _ T
    (fun x => ∃ T', x = (.error .ErrNoJob, T') ∧ T'.orders = T.orders) (by simp) ?_
  intro _
  rw [post_bind, post_getOrCreateDrone]
  cases hl : lookup Drone.ID T.drones droneID with
  | none =>
    cases b <;>
      simp [post_check_bind, post_ReserveNextOrder_bind, post_fail,
        Tx.fails, Tx.start, Tx.next, Tx.final, hl, hr]
  | some d =>
    obtain ⟨hs, hc⟩ := hfree d hl
    cases b <;>
      simp [post_check_bind, post_ReserveNextOrder_bind, post_fail,
        Tx.fails, Tx.start, Tx.next, Tx.final, hl, hr, hs, hc]

/-- Two drones, one order: the drone served first wins, the other gets NoJob. -/
theorem reserve_first_wins (b : Backend) (env1 env2 : Env) (T : Tables) (o : Order)
    (first second : String) (horders : T.orders = [o]) (hs : o.Status = .Created)
    (hu : o.AssignedDroneID = none) (hne : first ≠ second)
    (h1 : FreeDrone T first) (h2 : FreeDrone T second) :
    ∃ r T1 T2, DroneReserveJob b none env1 T first = (.ok r, T1) ∧
      DroneReserveJob b none env2 T1 second = (.error .ErrNoJob, T2) ∧
      T2.orders = [r] ∧ r.ID = o.ID ∧ r.Status = .Reserved ∧
      r.AssignedDroneID = some first := by
  have hscan : memReserveNextOrder [.Created, .HandoffRequested] T.orders = some o := by
    simp [horders, memReserveNextOrder, reserveScan, hs, hu]
  obtain ⟨T1, hT1⟩ := DroneReserveJob_succeeds b env1 T first o h1 hscan
  apply DroneReserveJob_ok_elim b none env1 T first _ T1 hT1
  intro o' drone drones' hg _ _ hr' _ ho hd
  rw [hscan] at hr'
  cases hr'
  have hT1o : T1.orders = [reservedFor o first (env1.now 1)] := by
    rw [ho, horders]
    cases b <;> simp [putRow, assignRow, replaceRow, lookup, reservedFor]
  have hscan1 : memReserveNextOrder [.Created, .HandoffRequested] T1.orders = none := by
    simp [hT1o, memReserveNextOrder, reserveScan, reservedFor]
  have hfree1 : FreeDrone T1 second := by
    intro d hl
    rw [hd, lookup_putRow_ne Drone.ID b _ _ _ (by simpa [hg.id_eq] using hne.symm),
      hg.lookup_ne second hne.symm] at hl
    exact h2 d hl
  obtain ⟨T2, hT2, hT2o⟩ := DroneReserveJob_nojob b env2 T1 second hfree1 hscan1
  exact ⟨_, T1, T2, hT1, hT2, by rw [hT2o, hT1o], rfl, rfl, rfl⟩

/-- C6. A store holds exactly one order, CREATED and unassigned; two distinct
drones are each unseen or ACTIVE without an order. Running `DroneReserveJob`
for the two, one transaction after the other, in either order: the first call
succeeds, the second returns NoJob, and the store then holds the order
RESERVED for the drone that was served first. -/
theorem reserve_race_one_winner (b : Backend) (env1 env2 : Env) (T : Tables) (o : Order)
    (droneA droneB : String) (horders : T.orders = [o]) (hs : o.Status = .Created)
    (hu : o.AssignedDroneID = none) (hne : droneA ≠ droneB)
    (hA : FreeDrone T droneA) (hB : FreeDrone T droneB) :
    (∃ r T1 T2, DroneReserveJob b none env1 T droneA = (.ok r, T1) ∧
      DroneReserveJob b none env2 T1 droneB = (.error .ErrNoJob, T2) ∧
      T2.orders = [r] ∧ r.ID = o.ID ∧ r.Status = .Reserved ∧
      r.AssignedDroneID = some droneA) ∧
    (∃ r T1 T2, DroneReserveJob b none env1 T droneB = (.ok r, T1) ∧
      DroneReserveJob b none env2 T1 droneA = (.error .ErrNoJob, T2) ∧
      T2.orders = [r] ∧ r.ID = o.ID ∧ r.Status = .Reserved ∧
      r.AssignedDroneID = some droneB) :=
  ⟨reserve_first_wins b env1 env2 T o droneA droneB horders hs hu hne hA hB,
   reserve_first_wins b env1 env2 T o droneB droneA horders hs hu hne.symm hB hA⟩

/-- C6, on the store of `TestReserveJobConcurrency`: the order `o1` alone, and the
unseen drones `drone-a` and `drone-b`, over the in-memory store. -/
theorem reserve_race_one_winner_witness :
    raceStore.orders = [raceOrder] ∧ raceOrder.Status = .Created ∧
    raceOrder.AssignedDroneID = none ∧ "drone-a" ≠ "drone-b" ∧
    ((∃ r T1 T2, DroneReserveJob .mem none sampleEnv raceStore "drone-a" = (.ok r, T1) ∧
        DroneReserveJob .mem none sampleEnv T1 "drone-b" = (.error .ErrNoJob, T2) ∧
        T2.orders = [r] ∧ r.ID = raceOrder.ID ∧ r.Status = .Reserved ∧
        r.AssignedDroneID = some "drone-a") ∧
      (∃ r T1 T2, DroneReserveJob .mem none sampleEnv raceStore "drone-b" = (.ok r, T1) ∧
        DroneReserveJob .mem none sampleEnv T1 "drone-a" = (.error .ErrNoJob, T2) ∧
        T2.orders = [r] ∧ r.ID = raceOrder.ID ∧ r.Status = .Reserved ∧
        r.AssignedDroneID = some "drone-b")) :=
  ⟨rfl, rfl, rfl, by decide,
   reserve_race_one_winner .mem sampleEnv sampleEnv raceStore raceOrder "drone-a" "drone-b"
     rfl rfl rfl (by decide) (fun _ h => Option.noConfusion h)
     (fun _ h => Option.noConfusion h)⟩

/-! ## What each operation writes and returns -/

/-- The row stored under the id of `x` after `x` was written over an existing row. -/
theorem lookup_written {α : Type} (key : α → String) (b : Backend) {xs : List α} {id : String}
    {y : α} (x : α) (h : lookup key xs id = some y) (hid : key x = id) :
    lookup key (putRow b key xs x) id = some x := by
  subst hid
  exact lookup_putRow_self key b xs x (by rw [h]; rfl)

/-- The writes of a successful `WithdrawOrder` on a RESERVED order. -/
theorem WithdrawOrder_reserved (b : Backend) (env : Env) (T : Tables) (o : Order) (d : String)
    (drone : Drone) (ho : lookup Order.ID T.orders o.ID = some o)
    (hs : o.Status = .Reserved) (ha : o.AssignedDroneID = some d)
    (hd : lookup Drone.ID T.drones d = some drone) :
    ∃ T', WithdrawOrder b none env T o.UserID o.ID =
        (.ok { o with Status := .Withdrawn, AssignedDroneID := none, UpdatedAt := env.now 1 },
          T') ∧
      T'.orders = putRow b Order.ID T.orders
        { o with Status := .Withdrawn, AssignedDroneID := none, UpdatedAt := env.now 1 } ∧
      T'.drones = putRow b Drone.ID T.drones
        { drone with CurrentOrderID := none, UpdatedAt := env.now 0 } := by
  unfold WithdrawOrder
  refine runTx_post b none _ T (fun x => ∃ T', x = (.ok _, T') ∧ T'.orders = _ ∧ T'.drones = _)
    (by simp) ?_
  intro _
  cases b <;>
    simp [post_GetOrderForUpdate_bind, post_check_bind, post_GetDroneForUpdate_bind,
      post_UpdateDrone_bind, post_UpdateOrder_bind, post_EnqueueEvent_bind, post_Commit_bind,
      post_pure, bind_assoc', Tx.fails, Tx.start, Tx.next, Tx.final, ho, hs, ha, hd]

/-- The write of a successful `DronePickup`. -/
theorem DronePickup_ok (b : Backend) (env : Env) (T : Tables) (o : Order) (droneID : String)
    (ho : lookup Order.ID T.orders o.ID = some o) (ha : o.AssignedDroneID = some droneID)
    (hs : o.Status = .Reserved ∨ o.Status = .HandoffRequested) :
    ∃ T', DronePickup b none env T droneID o.ID =
        (.ok { o with Status := .PickedUp, PickedUpAt := some (env.now 0),
                      UpdatedAt := env.now 0 }, T') ∧
      T'.orders = putRow b Order.ID T.orders
        { o with Status := .PickedUp, PickedUpAt := some (env.now 0), UpdatedAt := env.now 0 } ∧
      T'.drones = T.drones := by
  unfold DronePickup updateOrderForDrone
  refine runTx_post b none _ T (fun x => ∃ T', x = (.ok _, T') ∧ T'.orders = _ ∧ T'.drones = _)
    (by simp) ?_
  intro _
  rcases hs with hs | hs <;> cases b <;>
    simp [post_GetOrderForUpdate_bind, post_check_bind, post_UpdateOrder_bind,
      post_EnqueueEvent_bind, post_Commit_bind, post_pure, Tx.fails, Tx.start, Tx.next,
      Tx.final, ho, hs, ha]

/-- The errors of `DronePickup` on a stored order. -/
theorem DronePickup_error (b : Backend) (env : Env) (T : Tables) (o : Order) (droneID : String)
    (ho : lookup Order.ID T.orders o.ID = some o) :
    (o.AssignedDroneID ≠ some droneID →
      DronePickup b none env T droneID o.ID = (.error .ErrForbidden, T)) ∧
    (o.AssignedDroneID = some droneID → o.Status ≠ .Reserved → o.Status ≠ .HandoffRequested →
      DronePickup b none env T droneID o.ID = (.error .ErrPrecondition, T)) := by
  constructor
  · intro ha
    unfold DronePickup updateOrderForDrone
    refine runTx_post b none _ T (fun x => x = (.error _, T)) (by simp) ?_
    intro _
    cases b <;>
      simp [post_GetOrderForUpdate_bind, post_check_bind, Tx.fails, Tx.start, Tx.next,
        Tx.final, ho, ha]
  · intro ha h1 h2
    unfold DronePickup updateOrderForDrone
    refine runTx_post b none _ T (fun x => x = (.error _, T)) (by simp) ?_
    intro _
    cases b <;>
      simp [post_GetOrderForUpdate_bind, post_check_bind, post_fail, Tx.fails, Tx.start,
        Tx.next, Tx.final, ho, ha, h1, h2]

/-- The writes of a successful `completeOrderForDrone`. -/
theorem completeOrderForDrone_ok (b : Backend) (env : Env) (T : Tables) (o : Order)
    (d : String) (drone : Drone) (status : OrderStatus) (reason : String)
    (ho : lookup Order.ID T.orders o.ID = some o) (hs : o.Status = .PickedUp)
    (ha : o.AssignedDroneID = some d) (hd : lookup Drone.ID T.drones d = some drone) :
    ∃ T', completeOrderForDrone b none env T d o.ID status reason =
        (.ok (completed o status reason (env.now 0)), T') ∧
      T'.orders = putRow b Order.ID T.orders (completed o status reason (env.now 0)) ∧
      T'.drones = putRow b Drone.ID T.drones
        { drone with CurrentOrderID := none, UpdatedAt := env.now 0 } := by
  unfold completeOrderForDrone
  refine runTx_post b none _ T (fun x => ∃ T', x = (.ok _, T') ∧ T'.orders = _ ∧ T'.drones = _)
    (by simp) ?_
  intro _
  by_cases hst : status = .Delivered <;> cases b <;>
    simp [post_GetOrderForUpdate_bind, post_check_bind, post_GetDroneForUpdate_bind,
      post_UpdateDrone_bind, post_UpdateOrder_bind, post_EnqueueEvent_bind, post_Commit_bind,
      post_pure, Tx.fails, Tx.start, Tx.next, Tx.final, ho, hs, ha, hd, hst, completed]

/-- The errors of `completeOrderForDrone` on a stored order. -/
theorem completeOrderForDrone_error (b : Backend) (env : Env) (T : Tables) (o : Order)
    (droneID : String) (status : OrderStatus) (reason : String)
    (ho : lookup Order.ID T.orders o.ID = some o) :
    (o.AssignedDroneID ≠ some droneID →
      completeOrderForDrone b none env T droneID o.ID status reason
        = (.error .ErrForbidden, T)) ∧
    (o.AssignedDroneID = some droneID → o.Status ≠ .PickedUp →
      completeOrderForDrone b none env T droneID o.ID status reason
        = (.error .ErrPrecondition, T)) := by
  constructor
  · intro ha
    unfold completeOrderForDrone
    refine runTx_post b none _ T (fun x => x = (.error _, T)) (by simp) ?_
    intro _
    cases b <;>
      simp [post_GetOrderForUpdate_bind, post_check_bind, Tx.fails, Tx.start, Tx.next,
        Tx.final, ho, ha]
  · intro ha h1
    unfold completeOrderForDrone
    refine runTx_post b none _ T (fun x => x = (.error _, T)) (by simp) ?_
    intro _
    cases b <;>
      simp [post_GetOrderForUpdate_bind, post_check_bind, post_fail, Tx.fails, Tx.start,
        Tx.next, Tx.final, ho, ha, h1]

/-- The writes of `DroneMarkBroken` for a drone holding a PICKED_UP or RESERVED order. -/
theorem DroneMarkBroken_holding (b : Backend) (env : Env) (T : Tables) (drone : Drone)
    (o : Order) (hd : lookup Drone.ID T.drones drone.ID = some drone)
    (hc : drone.CurrentOrderID = some o.ID) (ho : lookup Order.ID T.orders o.ID = some o)
    (hs : o.Status = .PickedUp ∨ o.Status = .Reserved) :
    ∃ T', DroneMarkBroken b none env T drone.ID =
        (.ok { drone with Status := .Broken, CurrentOrderID := none, UpdatedAt := env.now 1 },
          T') ∧
      T'.orders = putRow b Order.ID T.orders (released o drone (env.now 1)) ∧
      T'.drones = putRow b Drone.ID T.drones
        { drone with Status := .Broken, CurrentOrderID := none, UpdatedAt := env.now 1 } := by
  unfold DroneMarkBroken releaseOrder
  refine runTx_post b none _ T (fun x => ∃ T', x = (.ok _, T') ∧ T'.orders = _ ∧ T'.drones = _)
    (by simp) ?_
  intro _
  rw [post_bind, post_getOrCreateDrone]
  rcases hs with hs | hs <;> cases hl : drone.LastLocation <;> cases b <;>
    simp [post_GetOrderForUpdate_bind, post_UpdateDrone_bind, post_UpdateOrder_bind,
      post_EnqueueEvent_bind, post_Commit_bind, post_pure, bind_assoc', pure_bind',
      Tx.fails, Tx.start, Tx.next, Tx.final, ho, hs, hc, hd, hl, released]

/-- The write of a successful `AdminUpdateOrder`. -/
theorem AdminUpdateOrder_ok (b : Backend) (env : Env) (T : Tables) (o : Order)
    (origin dest : Option Location) (ho : lookup Order.ID T.orders o.ID = some o)
    (ht : IsTerminal o.Status = false)
    (h1 : ∀ l, origin = some l → ValidateLocation l = true)
    (h2 : ∀ l, dest = some l → ValidateLocation l = true) :
    ∃ T', AdminUpdateOrder b none env T o.ID origin dest =
        (.ok { o with Origin := origin.getD o.Origin, Destination := dest.getD o.Destination,
                      UpdatedAt := env.now 0 }, T') ∧
      T'.orders = putRow b Order.ID T.orders
        { o with Origin := origin.getD o.Origin, Destination := dest.getD o.Destination,
                 UpdatedAt := env.now 0 } ∧
      T'.drones = T.drones := by
  unfold AdminUpdateOrder
  refine runTx_post b none _ T (fun x => ∃ T', x = (.ok _, T') ∧ T'.orders = _ ∧ T'.drones = _)
    (by simp) ?_
  intro _
  cases origin <;> cases dest <;> cases b <;>
    simp_all [post_GetOrderForUpdate_bind, post_check_bind, post_UpdateOrder_bind,
      post_EnqueueEvent_bind, post_Commit_bind, post_pure, pure_bind', Tx.fails, Tx.start,
      Tx.next, Tx.final]

/-- The errors of `AdminUpdateOrder` on a stored order. -/
theorem AdminUpdateOrder_error (b : Backend) (env : Env) (T : Tables) (o : Order)
    (origin dest : Option Location) (ho : lookup Order.ID T.orders o.ID = some o) :
    (IsTerminal o.Status = true →
      AdminUpdateOrder b none env T o.ID origin dest = (.error .ErrPrecondition, T)) ∧
    (IsTerminal o.Status = false →
      ((∃ l, origin = some l ∧ ValidateLocation l = false) ∨
        (∃ l, dest = some l ∧ ValidateLocation l = false)) →
      AdminUpdateOrder b none env T o.ID origin dest = (.error .ErrInvalid, T)) := by
  constructor
  · intro ht
    unfold AdminUpdateOrder
    refine runTx_post b none _ T (fun x => x = (.error _, T)) (by simp) ?_
    intro _
    cases b <;>
      simp [post_GetOrderForUpdate_bind, post_check_bind, Tx.fails, Tx.start, Tx.next,
        Tx.final, ho, ht]
  · intro ht hbad
    unfold AdminUpdateOrder
    refine runTx_post b none _ T (fun x => x = (.error _, T)) (by simp) ?_
    intro _
    rcases hbad with ⟨l, rfl, hl⟩ | ⟨l, rfl, hl⟩
    · cases b <;>
        simp [post_GetOrderForUpdate_bind, post_check_bind, post_fail, fail_bind, Tx.fails,
          Tx.start, Tx.next, Tx.final, ho, ht, hl]
    · cases origin with
      | none =>
        cases b <;>
          simp [post_GetOrderForUpdate_bind, post_check_bind, post_fail, fail_bind, pure_bind',
            Tx.fails, Tx.start, Tx.next, Tx.final, ho, ht, hl]
      | some l0 =>
        cases h0 : ValidateLocation l0 <;> cases b <;>
          simp [post_GetOrderForUpdate_bind, post_check_bind, post_fail, fail_bind, pure_bind',
            Tx.fails, Tx.start, Tx.next, Tx.final, ho, ht, hl, h0]

/-- Out of the interval, by the comparisons of Go. -/
theorem F64.outside_iff_lt (lo hi : Rat) (x : F64) :
    F64.outside lo hi x ↔ (F64.lt x (.val lo) = true ∨ F64.gt x (.val hi) = true) := by
  cases x with
  | nan => simp [F64.outside, F64.lt, F64.gt]
  | inf s => cases s <;> simp [F64.outside, F64.lt, F64.gt]
  | negZero => simp [F64.outside, F64.lt, F64.gt]
  | val q => simp [F64.outside, F64.lt, F64.gt]

/-- `ValidateLocation` rejects exactly a latitude below -90 or above 90 and a
longitude below -180 or above 180. -/
theorem ValidateLocation_eq_false (loc : Location) :
    ValidateLocation loc = false ↔
      F64.outside (-90) 90 loc.Lat ∨ F64.outside (-180) 180 loc.Lng := by
  rw [F64.outside_iff_lt, F64.outside_iff_lt]
  unfold ValidateLocation
  cases F64.lt loc.Lat (.val (-90)) <;> cases F64.gt loc.Lat (.val 90) <;>
    cases F64.lt loc.Lng (.val (-180)) <;> cases F64.gt loc.Lng (.val 180) <;> simp

/-- A coordinate other than NaN is out of the interval when it is not within it. -/
theorem F64.outside_iff (lo hi : Rat) (x : F64) (hx : x ≠ .nan) :
    F64.outside lo hi x ↔ ¬ F64.within lo hi x := by
  cases x with
  | nan => exact absurd rfl hx
  | inf s => simp [F64.outside, F64.within]
  | negZero => simp only [F64.outside, F64.within, not_and_or, not_le]
  | val q => simp only [F64.outside, F64.within, not_and_or, not_le]

/-- When neither coordinate is NaN, `ValidateLocation` rejects exactly the
coordinates out of range. -/
theorem ValidateLocation_eq_false_iff (loc : Location) (h1 : loc.Lat ≠ .nan)
    (h2 : loc.Lng ≠ .nan) : ValidateLocation loc = false ↔ OutOfRange loc := by
  rw [ValidateLocation_eq_false, F64.outside_iff _ _ _ h1, F64.outside_iff _ _ _ h2]
  unfold OutOfRange InRange
  exact not_and_or.symm

/-- `ValidateLocation` accepts the coordinates within range. -/
theorem ValidateLocation_of_inRange (loc : Location) (h : InRange loc) :
    ValidateLocation loc = true := by
  rcases loc with ⟨lat, lng⟩
  cases lat <;> cases lng <;>
    simp_all [ValidateLocation, InRange, F64.within, F64.lt, F64.gt]

/-- For coordinates that are numbers, `ValidateLocation` accepts exactly those
within range. -/
theorem ValidateLocation_val (lat lng : Rat) :
    ValidateLocation { Lat := .val lat, Lng := .val lng } = true ↔
      InRange { Lat := .val lat, Lng := .val lng } := by
  by_cases h1 : lat < -90 <;> by_cases h2 : 90 < lat <;>
    by_cases h3 : lng < -180 <;> by_cases h4 : 180 < lng <;>
    simp [ValidateLocation, InRange, F64.within, F64.lt, F64.gt, h1, h2, h3, h4, ← not_lt]

/-! ## The claims on single operations -/

/-- C11. For a stored order in status RESERVED, assigned to a stored drone `d`,
`WithdrawOrder` called by the order's owner succeeds (the store calls
succeeding): the order returned and stored is the old one with status
WITHDRAWN, `AssignedDroneID` cleared and a new `UpdatedAt`; the stored drone `d`
is the old one with `CurrentOrderID` cleared and a new `UpdatedAt`, so its
status and last location are unchanged. -/
theorem withdraw_reserved_clears_drone (b : Backend) (env : Env) (T : Tables) (o : Order)
    (d : String) (drone : Drone) (ho : lookup Order.ID T.orders o.ID = some o)
    (hs : o.Status = .Reserved) (ha : o.AssignedDroneID = some d)
    (hd : lookup Drone.ID T.drones d = some drone) :
    (WithdrawOrder b none env T o.UserID o.ID).1 =
      .ok { o with Status := .Withdrawn, AssignedDroneID := none, UpdatedAt := env.now 1 } ∧
    lookup Order.ID (WithdrawOrder b none env T o.UserID o.ID).2.orders o.ID =
      some { o with Status := .Withdrawn, AssignedDroneID := none, UpdatedAt := env.now 1 } ∧
    lookup Drone.ID (WithdrawOrder b none env T o.UserID o.ID).2.drones d =
      some { drone with CurrentOrderID := none, UpdatedAt := env.now 0 } := by
  obtain ⟨T', h, hO, hD⟩ := WithdrawOrder_reserved b env T o d drone ho hs ha hd
  rw [h]
  refine ⟨rfl, ?_, ?_⟩
  · show lookup Order.ID T'.orders o.ID = _
    rw [hO]
    exact lookup_written Order.ID b _ ho rfl
  · show lookup Drone.ID T'.drones d = _
    rw [hD]
    exact lookup_written Drone.ID b _ hd (lookup_some _ hd).2

/-- C11, at the order of `reservedStore`, withdrawn by its owner `u1` while
reserved for `drone-a`. -/
theorem withdraw_reserved_clears_drone_witness :
    lookup Order.ID reservedStore.orders reservedOrder.ID = some reservedOrder ∧
    reservedOrder.Status = .Reserved ∧ reservedOrder.AssignedDroneID = some "drone-a" ∧
    lookup Drone.ID reservedStore.drones "drone-a" = some reservedDrone ∧
    ((WithdrawOrder .mem none sampleEnv reservedStore reservedOrder.UserID reservedOrder.ID).1 =
        .ok { reservedOrder with
              Status := .Withdrawn, AssignedDroneID := none, UpdatedAt := sampleEnv.now 1 } ∧
      lookup Order.ID
          (WithdrawOrder .mem none sampleEnv reservedStore reservedOrder.UserID
            reservedOrder.ID).2.orders reservedOrder.ID =
        some { reservedOrder with
               Status := .Withdrawn, AssignedDroneID := none, UpdatedAt := sampleEnv.now 1 } ∧
      lookup Drone.ID
          (WithdrawOrder .mem none sampleEnv reservedStore reservedOrder.UserID
            reservedOrder.ID).2.drones "drone-a" =
        some { reservedDrone with CurrentOrderID := none, UpdatedAt := sampleEnv.now 0 }) :=
  ⟨by decide, by decide, by decide, by decide,
   withdraw_reserved_clears_drone .mem sampleEnv reservedStore reservedOrder "drone-a"
     reservedDrone (by decide) (by decide) (by decide) (by decide)⟩

/-- C12. On a stored order, `WithdrawOrder` called by a user who is not its
owner fails with Forbidden, and called by its owner while its status is
neither CREATED nor RESERVED fails with Precondition (the store calls
succeeding); the store is left exactly as it was. -/
theorem withdraw_rejected (b : Backend) (env : Env) (T : Tables) (o : Order) (userID : String)
    (ho : lookup Order.ID T.orders o.ID = some o) :
    (o.UserID ≠ userID →
      WithdrawOrder b none env T userID o.ID = (.error .ErrForbidden, T)) ∧
    (o.UserID = userID → o.Status ≠ .Created → o.Status ≠ .Reserved →
      WithdrawOrder b none env T userID o.ID = (.error .ErrPrecondition, T)) := by
  constructor
  · intro hu
    unfold WithdrawOrder
    refine runTx_post b none _ T (fun x => x = (.error _, T)) (by simp) ?_
    intro _
    cases b <;>
      simp [post_GetOrderForUpdate_bind, post_check_bind, Tx.fails, Tx.start, Tx.next,
        Tx.final, ho, hu]
  · intro hu h1 h2
    unfold WithdrawOrder
    refine runTx_post b none _ T (fun x => x = (.error _, T)) (by simp) ?_
    intro _
    cases b <;>
      simp [post_GetOrderForUpdate_bind, post_check_bind, Tx.fails, Tx.start, Tx.next,
        Tx.final, ho, hu, h1, h2]

/-- C12, at the CREATED order of `submittedStore` withdrawn by `u2`, who does not
own it, and at the DELIVERED order of `deliveredStore` withdrawn by its owner. -/
theorem withdraw_rejected_witness :
    lookup Order.ID submittedStore.orders submittedOrder.ID = some submittedOrder ∧
    submittedOrder.UserID ≠ "u2" ∧
    WithdrawOrder .mem none sampleEnv submittedStore "u2" submittedOrder.ID =
      (.error .ErrForbidden, submittedStore) ∧
    lookup Order.ID deliveredStore.orders deliveredOrder.ID = some deliveredOrder ∧
    deliveredOrder.UserID = "u1" ∧ deliveredOrder.Status = .Delivered ∧
    WithdrawOrder .mem none sampleEnv deliveredStore "u1" deliveredOrder.ID =
      (.error .ErrPrecondition, deliveredStore) :=
  ⟨by decide, by decide,
   (withdraw_rejected .mem sampleEnv submittedStore submittedOrder "u2" (by decide)).1
     (by decide),
   by decide, by decide, by decide,
   (withdraw_rejected .mem sampleEnv deliveredStore deliveredOrder "u1" (by decide)).2
     (by decide) (by decide) (by decide)⟩

/-- C13. On a stored order, the store calls succeeding, `DronePickup(d, order)`
succeeds if and only if the order's `AssignedDroneID` is `d` and its status is
RESERVED or HANDOFF_REQUESTED. On success the order returned and stored is the
old one with status PICKED_UP and `PickedUpAt` (and `UpdatedAt`) the clock
reading, so assigned drone, origin and destination are unchanged, and no
drone is written. Otherwise it fails with Forbidden when the caller is not the
assigned drone and with Precondition when it is but the status is wrong, and
the store is left exactly as it was. -/
theorem pickup_succeeds_iff (b : Backend) (env : Env) (T : Tables) (o : Order)
    (droneID : String) (ho : lookup Order.ID T.orders o.ID = some o) :
    ((∃ r, (DronePickup b none env T droneID o.ID).1 = .ok r) ↔
      (o.AssignedDroneID = some droneID ∧
        (o.Status = .Reserved ∨ o.Status = .HandoffRequested))) ∧
    (o.AssignedDroneID = some droneID →
      (o.Status = .Reserved ∨ o.Status = .HandoffRequested) →
      (DronePickup b none env T droneID o.ID).1 =
        .ok { o with Status := .PickedUp, PickedUpAt := some (env.now 0),
                     UpdatedAt := env.now 0 } ∧
      lookup Order.ID (DronePickup b none env T droneID o.ID).2.orders o.ID =
        some { o with Status := .PickedUp, PickedUpAt := some (env.now 0),
                      UpdatedAt := env.now 0 } ∧
      (DronePickup b none env T droneID o.ID).2.drones = T.drones) ∧
    (o.AssignedDroneID ≠ some droneID →
      DronePickup b none env T droneID o.ID = (.error .ErrForbidden, T)) ∧
    (o.AssignedDroneID = some droneID →
      ¬ (o.Status = .Reserved ∨ o.Status = .HandoffRequested) →
      DronePickup b none env T droneID o.ID = (.error .ErrPrecondition, T)) := by
  have hE := DronePickup_error b env T o droneID ho
  have hok : o.AssignedDroneID = some droneID →
      (o.Status = .Reserved ∨ o.Status = .HandoffRequested) →
      (DronePickup b none env T droneID o.ID).1 =
        .ok { o with Status := .PickedUp, PickedUpAt := some (env.now 0),
                     UpdatedAt := env.now 0 } ∧
      lookup Order.ID (DronePickup b none env T droneID o.ID).2.orders o.ID =
        some { o with Status := .PickedUp, PickedUpAt := some (env.now 0),
                      UpdatedAt := env.now 0 } ∧
      (DronePickup b none env T droneID o.ID).2.drones = T.drones := by
    intro ha hs
    obtain ⟨T', h, hO, hD⟩ := DronePickup_ok b env T o droneID ho ha hs
    rw [h]
    refine ⟨rfl, ?_, hD⟩
    show lookup Order.ID T'.orders o.ID = _
    rw [hO]
    exact lookup_written Order.ID b _ ho rfl
  have hpre : o.AssignedDroneID = some droneID →
      ¬ (o.Status = .Reserved ∨ o.Status = .HandoffRequested) →
      DronePickup b none env T droneID o.ID = (.error .ErrPrecondition, T) := by
    intro ha hs
    exact hE.2 ha (fun h => hs (Or.inl h)) (fun h => hs (Or.inr h))
  refine ⟨⟨?_, ?_⟩, hok, hE.1, hpre⟩
  · rintro ⟨r, hr⟩
    by_cases ha : o.AssignedDroneID = some droneID
    · by_cases hs : o.Status = .Reserved ∨ o.Status = .HandoffRequested
      · exact ⟨ha, hs⟩
      · rw [hpre ha hs] at hr
        cases hr
    · rw [hE.1 ha] at hr
      cases hr
  · rintro ⟨ha, hs⟩
    exact ⟨_, (hok ha hs).1⟩

/-- C13, at the RESERVED order of `reservedStore`: `drone-a`, to which it is
assigned, picks it up; `drone-b` is refused. -/
theorem pickup_succeeds_iff_witness :
    lookup Order.ID reservedStore.orders reservedOrder.ID = some reservedOrder ∧
    reservedOrder.AssignedDroneID = some "drone-a" ∧ reservedOrder.Status = .Reserved ∧
    ((DronePickup .mem none sampleEnv reservedStore "drone-a" reservedOrder.ID).1 =
        .ok { reservedOrder with
              Status := .PickedUp, PickedUpAt := some (sampleEnv.now 0),
              UpdatedAt := sampleEnv.now 0 } ∧
      lookup Order.ID
          (DronePickup .mem none sampleEnv reservedStore "drone-a" reservedOrder.ID).2.orders
          reservedOrder.ID =
        some { reservedOrder with
               Status := .PickedUp, PickedUpAt := some (sampleEnv.now 0),
               UpdatedAt := sampleEnv.now 0 } ∧
      (DronePickup .mem none sampleEnv reservedStore "drone-a" reservedOrder.ID).2.drones =
        reservedStore.drones) ∧
    DronePickup .mem none sampleEnv reservedStore "drone-b" reservedOrder.ID =
      (.error .ErrForbidden, reservedStore) :=
  ⟨by decide, by decide, by decide,
   (pickup_succeeds_iff .mem sampleEnv reservedStore reservedOrder "drone-a"
     (by decide)).2.1 (by decide) (Or.inl (by decide)),
   (pickup_succeeds_iff .mem sampleEnv reservedStore reservedOrder "drone-b"
     (by decide)).2.2.1 (by decide)⟩

/-- C14. For a stored order in status PICKED_UP assigned to a stored drone `d`,
the store calls succeeding: `DroneDeliver(d, order)` returns and stores the
order with status DELIVERED and `DeliveredAt` the clock reading, and
`DroneFail(d, order, reason)` with a non-empty reason returns and stores it with
status FAILED, `FailedAt` the clock reading and `FailureReason = reason`; in both
cases the stored drone `d` is the old one with `CurrentOrderID` cleared and a new
`UpdatedAt`, so its status and last location are unchanged. -/
theorem deliver_and_fail_complete_order (b : Backend) (env : Env) (T : Tables) (o : Order)
    (d reason : String) (drone : Drone) (ho : lookup Order.ID T.orders o.ID = some o)
    (hs : o.Status = .PickedUp) (ha : o.AssignedDroneID = some d)
    (hd : lookup Drone.ID T.drones d = some drone) (hr : reason ≠ "") :
    ((DroneDeliver b none env T d o.ID).1 =
        .ok { o with Status := .Delivered, UpdatedAt := env.now 0,
                     DeliveredAt := some (env.now 0) } ∧
      lookup Order.ID (DroneDeliver b none env T d o.ID).2.orders o.ID =
        some { o with Status := .Delivered, UpdatedAt := env.now 0,
                      DeliveredAt := some (env.now 0) } ∧
      lookup Drone.ID (DroneDeliver b none env T d o.ID).2.drones d =
        some { drone with CurrentOrderID := none, UpdatedAt := env.now 0 }) ∧
    ((DroneFail b none env T d o.ID reason).1 =
        .ok { o with Status := .Failed, UpdatedAt := env.now 0, FailedAt := some (env.now 0),
                     FailureReason := some reason } ∧
      lookup Order.ID (DroneFail b none env T d o.ID reason).2.orders o.ID =
        some { o with Status := .Failed, UpdatedAt := env.now 0, FailedAt := some (env.now 0),
                      FailureReason := some reason } ∧
      lookup Drone.ID (DroneFail b none env T d o.ID reason).2.drones d =
        some { drone with CurrentOrderID := none, UpdatedAt := env.now 0 }) := by
  constructor
  · obtain ⟨T', h, hO, hD⟩ :=
      completeOrderForDrone_ok b env T o d drone .Delivered "" ho hs ha hd
    unfold DroneDeliver
    rw [h]
    refine ⟨rfl, ?_, ?_⟩
    · show lookup Order.ID T'.orders o.ID = _
      rw [hO]
      exact lookup_written Order.ID b _ ho rfl
    · show lookup Drone.ID T'.drones d = _
      rw [hD]
      exact lookup_written Drone.ID b _ hd (lookup_some _ hd).2
  · obtain ⟨T', h, hO, hD⟩ :=
      completeOrderForDrone_ok b env T o d drone .Failed reason ho hs ha hd
    have hc : completed o .Failed reason (env.now 0) =
        { o with Status := .Failed, UpdatedAt := env.now 0, FailedAt := some (env.now 0),
                 FailureReason := some reason } := by
      simp [completed, hr]
    unfold DroneFail
    rw [if_neg hr, h, ← hc]
    refine ⟨rfl, ?_, ?_⟩
    · show lookup Order.ID T'.orders o.ID = _
      rw [hO]
      exact lookup_written Order.ID b _ ho (by rw [hc])
    · show lookup Drone.ID T'.drones d = _
      rw [hD]
      exact lookup_written Drone.ID b _ hd (lookup_some _ hd).2

/-- C14, at the PICKED_UP order of `pickedUpStore`, carried by `drone-a`, with
the failure reason `crash`. -/
theorem deliver_and_fail_complete_order_witness :
    lookup Order.ID pickedUpStore.orders pickedUpOrder.ID = some pickedUpOrder ∧
    pickedUpOrder.Status = .PickedUp ∧ pickedUpOrder.AssignedDroneID = some "drone-a" ∧
    lookup Drone.ID pickedUpStore.drones "drone-a" = some reservedDrone ∧ "crash" ≠ "" ∧
    (((DroneDeliver .mem none sampleEnv pickedUpStore "drone-a" pickedUpOrder.ID).1 =
        .ok { pickedUpOrder with
              Status := .Delivered, UpdatedAt := sampleEnv.now 0,
              DeliveredAt := some (sampleEnv.now 0) } ∧
      lookup Order.ID
          (DroneDeliver .mem none sampleEnv pickedUpStore "drone-a" pickedUpOrder.ID).2.orders
          pickedUpOrder.ID =
        some { pickedUpOrder with
               Status := .Delivered, UpdatedAt := sampleEnv.now 0,
               DeliveredAt := some (sampleEnv.now 0) } ∧
      lookup Drone.ID
          (DroneDeliver .mem none sampleEnv pickedUpStore "drone-a" pickedUpOrder.ID).2.drones
          "drone-a" =
        some { reservedDrone with CurrentOrderID := none, UpdatedAt := sampleEnv.now 0 }) ∧
    ((DroneFail .mem none sampleEnv pickedUpStore "drone-a" pickedUpOrder.ID "crash").1 =
        .ok { pickedUpOrder with
              Status := .Failed, UpdatedAt := sampleEnv.now 0,
              FailedAt := some (sampleEnv.now 0), FailureReason := some "crash" } ∧
      lookup Order.ID
          (DroneFail .mem none sampleEnv pickedUpStore "drone-a" pickedUpOrder.ID
            "crash").2.orders pickedUpOrder.ID =
        some { pickedUpOrder with
               Status := .Failed, UpdatedAt := sampleEnv.now 0,
               FailedAt := some (sampleEnv.now 0), FailureReason := some "crash" } ∧
      lookup Drone.ID
          (DroneFail .mem none sampleEnv pickedUpStore "drone-a" pickedUpOrder.ID
            "crash").2.drones "drone-a" =
        some { reservedDrone with CurrentOrderID := none, UpdatedAt := sampleEnv.now 0 })) :=
  ⟨by decide, by decide, by decide, by decide, by decide,
   deliver_and_fail_complete_order .mem sampleEnv pickedUpStore pickedUpOrder "drone-a"
     "crash" reservedDrone (by decide) (by decide) (by decide) (by decide) (by decide)⟩

/-- C15. `DroneFail` with an empty reason fails with Invalid without touching the
store, whatever the store, the order and the state of the database. On a
stored order, the store calls succeeding, `DroneDeliver` and `DroneFail` (with a
non-empty reason) fail with Forbidden when the caller is not the order's
assigned drone, and with Precondition when it is but the order's status is
not PICKED_UP. In each case the store is left exactly as it was. -/
theorem deliver_fail_rejected (b : Backend) (env : Env) (T : Tables) (o : Order)
    (caller reason : String) (ho : lookup Order.ID T.orders o.ID = some o)
    (hr : reason ≠ "") :
    (∀ failAt S droneID orderID,
      DroneFail b failAt env S droneID orderID "" = (.error .ErrInvalid, S)) ∧
    (o.AssignedDroneID ≠ some caller →
      DroneDeliver b none env T caller o.ID = (.error .ErrForbidden, T) ∧
      DroneFail b none env T caller o.ID reason = (.error .ErrForbidden, T)) ∧
    (o.AssignedDroneID = some caller → o.Status ≠ .PickedUp →
      DroneDeliver b none env T caller o.ID = (.error .ErrPrecondition, T) ∧
      DroneFail b none env T caller o.ID reason = (.error .ErrPrecondition, T)) := by
  refine ⟨fun failAt S droneID orderID => by simp [DroneFail], ?_, ?_⟩
  · intro ha
    unfold DroneDeliver DroneFail
    rw [if_neg hr]
    exact ⟨(completeOrderForDrone_error b env T o caller _ _ ho).1 ha,
      (completeOrderForDrone_error b env T o caller _ _ ho).1 ha⟩
  · intro ha hs
    unfold DroneDeliver DroneFail
    rw [if_neg hr]
    exact ⟨(completeOrderForDrone_error b env T o caller _ _ ho).2 ha hs,
      (completeOrderForDrone_error b env T o caller _ _ ho).2 ha hs⟩

/-- C15, at the PICKED_UP order of `pickedUpStore`, which `drone-b` does not
carry, and at the RESERVED order of `reservedStore`, which `drone-a` has not
picked up yet. -/
theorem deliver_fail_rejected_witness :
    lookup Order.ID pickedUpStore.orders pickedUpOrder.ID = some pickedUpOrder ∧
    "crash" ≠ "" ∧ pickedUpOrder.AssignedDroneID ≠ some "drone-b" ∧
    (DroneDeliver .mem none sampleEnv pickedUpStore "drone-b" pickedUpOrder.ID =
        (.error .ErrForbidden, pickedUpStore) ∧
      DroneFail .mem none sampleEnv pickedUpStore "drone-b" pickedUpOrder.ID "crash" =
        (.error .ErrForbidden, pickedUpStore)) ∧
    lookup Order.ID reservedStore.orders reservedOrder.ID = some reservedOrder ∧
    reservedOrder.AssignedDroneID = some "drone-a" ∧ reservedOrder.Status ≠ .PickedUp ∧
    (DroneDeliver .mem none sampleEnv reservedStore "drone-a" reservedOrder.ID =
        (.error .ErrPrecondition, reservedStore) ∧
      DroneFail .mem none sampleEnv reservedStore "drone-a" reservedOrder.ID "crash" =
        (.error .ErrPrecondition, reservedStore)) :=
  ⟨by decide, by decide, by decide,
   (deliver_fail_rejected .mem sampleEnv pickedUpStore pickedUpOrder "drone-b" "crash"
     (by decide) (by decide)).2.1 (by decide),
   by decide, by decide, by decide,
   (deliver_fail_rejected .mem sampleEnv reservedStore reservedOrder "drone-a" "crash"
     (by decide) (by decide)).2.2 (by decide) (by decide)⟩

/-- C16, as stated, fails. In `rePickedUpStore` the drone `drone-b` holds the
PICKED_UP order and has never reported a location, while the order still
carries the `HandoffOrigin` written when `drone-a` broke. After
`DroneMarkBroken("drone-b")` the stored order is HANDOFF_REQUESTED with that
old `HandoffOrigin`, which is not the last location of `drone-b` (it has none). -/
theorem handoff_origin_kept_without_location :
    Reachable .mem rePickedUpStore ∧
    lookup Drone.ID rePickedUpStore.drones "drone-b" = some secondDrone ∧
    secondDrone.CurrentOrderID = some rePickedUpOrder.ID ∧
    lookup Order.ID rePickedUpStore.orders rePickedUpOrder.ID = some rePickedUpOrder ∧
    rePickedUpOrder.Status = .PickedUp ∧ secondDrone.LastLocation = none ∧
    (lookup Order.ID (DroneMarkBroken .mem none sampleEnv rePickedUpStore "drone-b").2.orders
        rePickedUpOrder.ID).map (fun o => (o.Status, o.HandoffOrigin)) =
      some (.HandoffRequested, some sampleDronePos) ∧
    ¬ ((lookup Order.ID (DroneMarkBroken .mem none sampleEnv rePickedUpStore "drone-b").2.orders
        rePickedUpOrder.ID).map (fun o => o.HandoffOrigin) = some secondDrone.LastLocation) :=
  ⟨Reachable.runAll _ Reachable.empty _, by decide, by decide, by decide, by decide, by decide,
   by decide, by decide⟩

/-- C16 (amended). For a stored drone `d` whose `CurrentOrderID` names a stored
order in status PICKED_UP, the store calls succeeding, `DroneMarkBroken(d)`
returns and stores drone `d` with status BROKEN and `CurrentOrderID` cleared, and
stores the order with status HANDOFF_REQUESTED, `AssignedDroneID` cleared and
`HandoffOrigin` equal to the last location of `d` when `d` has one, and left as
it was when `d` has none. -/
theorem mark_broken_hands_off (b : Backend) (env : Env) (T : Tables) (drone : Drone)
    (o : Order) (hd : lookup Drone.ID T.drones drone.ID = some drone)
    (hc : drone.CurrentOrderID = some o.ID) (ho : lookup Order.ID T.orders o.ID = some o)
    (hs : o.Status = .PickedUp) :
    (DroneMarkBroken b none env T drone.ID).1 =
      .ok { drone with Status := .Broken, CurrentOrderID := none, UpdatedAt := env.now 1 } ∧
    lookup Order.ID (DroneMarkBroken b none env T drone.ID).2.orders o.ID =
      some { o with
        Status := .HandoffRequested, AssignedDroneID := none,
        HandoffOrigin :=
          if drone.LastLocation ≠ none then drone.LastLocation else o.HandoffOrigin,
        UpdatedAt := env.now 1 } ∧
    lookup Drone.ID (DroneMarkBroken b none env T drone.ID).2.drones drone.ID =
      some { drone with Status := .Broken, CurrentOrderID := none, UpdatedAt := env.now 1 } := by
  obtain ⟨T', h, hO, hD⟩ := DroneMarkBroken_holding b env T drone o hd hc ho (Or.inl hs)
  have hrel : released o drone (env.now 1) =
      { o with
        Status := .HandoffRequested, AssignedDroneID := none,
        HandoffOrigin :=
          if drone.LastLocation ≠ none then drone.LastLocation else o.HandoffOrigin,
        UpdatedAt := env.now 1 } := by
    simp [released, hs]
  rw [h, ← hrel]
  refine ⟨rfl, ?_, ?_⟩
  · show lookup Order.ID T'.orders o.ID = _
    rw [hO]
    exact lookup_written Order.ID b _ ho (by rw [hrel])
  · show lookup Drone.ID T'.drones drone.ID = _
    rw [hD]
    exact lookup_written Drone.ID b _ hd rfl

/-- C16 (amended), at `carryingStore`, where `drone-a` carries the order and has
reported `sampleDronePos`: that position becomes the `HandoffOrigin`. -/
theorem mark_broken_hands_off_witness :
    lookup Drone.ID carryingStore.drones carryingDrone.ID = some carryingDrone ∧
    carryingDrone.CurrentOrderID = some pickedUpOrder.ID ∧
    lookup Order.ID carryingStore.orders pickedUpOrder.ID = some pickedUpOrder ∧
    pickedUpOrder.Status = .PickedUp ∧
    ((DroneMarkBroken .mem none sampleEnv carryingStore carryingDrone.ID).1 =
        .ok { carryingDrone with
              Status := .Broken, CurrentOrderID := none, UpdatedAt := sampleEnv.now 1 } ∧
      lookup Order.ID
          (DroneMarkBroken .mem none sampleEnv carryingStore carryingDrone.ID).2.orders
          pickedUpOrder.ID =
        some { pickedUpOrder with
          Status := .HandoffRequested, AssignedDroneID := none,
          HandoffOrigin :=
            if carryingDrone.LastLocation ≠ none then carryingDrone.LastLocation
            else pickedUpOrder.HandoffOrigin,
          UpdatedAt := sampleEnv.now 1 } ∧
      lookup Drone.ID
          (DroneMarkBroken .mem none sampleEnv carryingStore carryingDrone.ID).2.drones
          carryingDrone.ID =
        some { carryingDrone with
               Status := .Broken, CurrentOrderID := none, UpdatedAt := sampleEnv.now 1 }) :=
  ⟨by decide, by decide, by decide, by decide,
   mark_broken_hands_off .mem sampleEnv carryingStore carryingDrone pickedUpOrder
     (by decide) (by decide) (by decide) (by decide)⟩

/-- C17. For a stored drone `d` whose `CurrentOrderID` names a stored order in
status RESERVED, the store calls succeeding, `DroneMarkBroken(d)` returns and
stores drone `d` with status BROKEN and `CurrentOrderID` cleared, and stores the
order with status CREATED and `AssignedDroneID`, `ReservedAt` and `HandoffOrigin`
cleared; that order is eligible for `DroneReserveJob` again. -/
theorem mark_broken_requeues_reserved (b : Backend) (env : Env) (T : Tables) (drone : Drone)
    (o : Order) (hd : lookup Drone.ID T.drones drone.ID = some drone)
    (hc : drone.CurrentOrderID = some o.ID) (ho : lookup Order.ID T.orders o.ID = some o)
    (hs : o.Status = .Reserved) :
    (DroneMarkBroken b none env T drone.ID).1 =
      .ok { drone with Status := .Broken, CurrentOrderID := none, UpdatedAt := env.now 1 } ∧
    lookup Order.ID (DroneMarkBroken b none env T drone.ID).2.orders o.ID =
      some { o with
        Status := .Created, AssignedDroneID := none, ReservedAt := none,
        HandoffOrigin := none, UpdatedAt := env.now 1 } ∧
    Eligible [.Created, .HandoffRequested]
      { o with
        Status := .Created, AssignedDroneID := none, ReservedAt := none,
        HandoffOrigin := none, UpdatedAt := env.now 1 } ∧
    lookup Drone.ID (DroneMarkBroken b none env T drone.ID).2.drones drone.ID =
      some { drone with Status := .Broken, CurrentOrderID := none, UpdatedAt := env.now 1 } := by
  obtain ⟨T', h, hO, hD⟩ := DroneMarkBroken_holding b env T drone o hd hc ho (Or.inr hs)
  have hrel : released o drone (env.now 1) =
      { o with
        Status := .Created, AssignedDroneID := none, ReservedAt := none,
        HandoffOrigin := none, UpdatedAt := env.now 1 } := by
    simp [released, hs]
  rw [h, ← hrel]
  refine ⟨rfl, ?_, ?_, ?_⟩
  · show lookup Order.ID T'.orders o.ID = _
    rw [hO]
    exact lookup_written Order.ID b _ ho (by rw [hrel])
  · rw [hrel]
    simp [Eligible]
  · show lookup Drone.ID T'.drones drone.ID = _
    rw [hD]
    exact lookup_written Drone.ID b _ hd rfl

/-- C17, at `reservedStore`, where `drone-a` has reserved the order. -/
theorem mark_broken_requeues_reserved_witness :
    lookup Drone.ID reservedStore.drones reservedDrone.ID = some reservedDrone ∧
    reservedDrone.CurrentOrderID = some reservedOrder.ID ∧
    lookup Order.ID reservedStore.orders reservedOrder.ID = some reservedOrder ∧
    reservedOrder.Status = .Reserved ∧
    ((DroneMarkBroken .mem none sampleEnv reservedStore reservedDrone.ID).1 =
        .ok { reservedDrone with
              Status := .Broken, CurrentOrderID := none, UpdatedAt := sampleEnv.now 1 } ∧
      lookup Order.ID
          (DroneMarkBroken .mem none sampleEnv reservedStore reservedDrone.ID).2.orders
          reservedOrder.ID =
        some { reservedOrder with
          Status := .Created, AssignedDroneID := none, ReservedAt := none,
          HandoffOrigin := none, UpdatedAt := sampleEnv.now 1 } ∧
      Eligible [.Created, .HandoffRequested]
        { reservedOrder with
          Status := .Created, AssignedDroneID := none, ReservedAt := none,
          HandoffOrigin := none, UpdatedAt := sampleEnv.now 1 } ∧
      lookup Drone.ID
          (DroneMarkBroken .mem none sampleEnv reservedStore reservedDrone.ID).2.drones
          reservedDrone.ID =
        some { reservedDrone with
               Status := .Broken, CurrentOrderID := none, UpdatedAt := sampleEnv.now 1 }) :=
  ⟨by decide, by decide, by decide, by decide,
   mark_broken_requeues_reserved .mem sampleEnv reservedStore reservedDrone reservedOrder
     (by decide) (by decide) (by decide) (by decide)⟩

/-- The part of C18 that holds. On a stored order, the store calls succeeding,
`AdminUpdateOrder` fails with Precondition when the order is terminal. When it
is not, the call fails with Invalid as soon as a supplied origin or a supplied
destination is out of range and has no NaN coordinate, also when the origin is
within range and only the destination is not; in every failing case the store
is left exactly as it was. When the supplied ones are within range, the order
returned and stored is the old one with the supplied origin and destination in
place of the old ones, an unsupplied one kept, and a new `UpdatedAt`: status,
assigned drone and handoff origin are unchanged, and no drone is written. -/
theorem AdminUpdateOrder_not_nan (b : Backend) (env : Env) (T : Tables)
    (o : Order) (origin dest : Option Location)
    (ho : lookup Order.ID T.orders o.ID = some o) :
    (IsTerminal o.Status = true →
      AdminUpdateOrder b none env T o.ID origin dest = (.error .ErrPrecondition, T)) ∧
    (IsTerminal o.Status = false →
      ((∃ l, origin = some l ∧ OutOfRange l ∧ l.Lat ≠ .nan ∧ l.Lng ≠ .nan) ∨
        (∃ l, dest = some l ∧ OutOfRange l ∧ l.Lat ≠ .nan ∧ l.Lng ≠ .nan)) →
      AdminUpdateOrder b none env T o.ID origin dest = (.error .ErrInvalid, T)) ∧
    (IsTerminal o.Status = false →
      ∀ l1 l2, origin = some l1 → InRange l1 → dest = some l2 → OutOfRange l2 →
      l2.Lat ≠ .nan → l2.Lng ≠ .nan →
      AdminUpdateOrder b none env T o.ID origin dest = (.error .ErrInvalid, T)) ∧
    (IsTerminal o.Status = false →
      (∀ l, origin = some l → InRange l) → (∀ l, dest = some l → InRange l) →
      (AdminUpdateOrder b none env T o.ID origin dest).1 =
        .ok { o with Origin := origin.getD o.Origin, Destination := dest.getD o.Destination,
                     UpdatedAt := env.now 0 } ∧
      lookup Order.ID (AdminUpdateOrder b none env T o.ID origin dest).2.orders o.ID =
        some { o with Origin := origin.getD o.Origin, Destination := dest.getD o.Destination,
                      UpdatedAt := env.now 0 } ∧
      (AdminUpdateOrder b none env T o.ID origin dest).2.drones = T.drones) := by
  have hE := AdminUpdateOrder_error b env T o origin dest ho
  have hbad : IsTerminal o.Status = false →
      ((∃ l, origin = some l ∧ OutOfRange l ∧ l.Lat ≠ .nan ∧ l.Lng ≠ .nan) ∨
        (∃ l, dest = some l ∧ OutOfRange l ∧ l.Lat ≠ .nan ∧ l.Lng ≠ .nan)) →
      AdminUpdateOrder b none env T o.ID origin dest = (.error .ErrInvalid, T) := by
    intro ht h
    refine hE.2 ht ?_
    rcases h with ⟨l, hl, hr, h1, h2⟩ | ⟨l, hl, hr, h1, h2⟩
    · exact Or.inl ⟨l, hl, (ValidateLocation_eq_false_iff l h1 h2).2 hr⟩
    · exact Or.inr ⟨l, hl, (ValidateLocation_eq_false_iff l h1 h2).2 hr⟩
  refine ⟨hE.1, hbad, ?_, ?_⟩
  · intro ht l1 l2 _ _ h2 hr hn1 hn2
    exact hbad ht (Or.inr ⟨l2, h2, hr, hn1, hn2⟩)
  · intro ht h1 h2
    obtain ⟨T', h, hO, hD⟩ := AdminUpdateOrder_ok b env T o origin dest ho ht
      (fun l hl => ValidateLocation_of_inRange l (h1 l hl))
      (fun l hl => ValidateLocation_of_inRange l (h2 l hl))
    rw [h]
    refine ⟨rfl, ?_, hD⟩
    show lookup Order.ID T'.orders o.ID = _
    rw [hO]
    exact lookup_written Order.ID b _ ho rfl

/-- C18: the failing inputs. On a stored order that is not terminal,
`AdminUpdateOrder` with an origin whose latitude is NaN, which is out of range,
succeeds whenever the longitude of that origin is not below -180 or above 180
and the destination, if one is supplied, is within range (the store calls
succeeding), and the order then stored has that origin: `ValidateLocation`
rejects a latitude only when `Lat < -90` or `Lat > 90`, and both comparisons
are false for NaN. -/
theorem admin_update_accepts_nan_latitude (b : Backend) (env : Env) (T : Tables) (o : Order)
    (lng : F64) (dest : Option Location)
    (ho : lookup Order.ID T.orders o.ID = some o) (ht : IsTerminal o.Status = false)
    (hlng : ¬ F64.outside (-180) 180 lng) (hdest : ∀ l, dest = some l → InRange l) :
    OutOfRange ⟨.nan, lng⟩ ∧
    (AdminUpdateOrder b none env T o.ID (some ⟨.nan, lng⟩) dest).1 =
      .ok { o with Origin := ⟨.nan, lng⟩, Destination := dest.getD o.Destination,
                   UpdatedAt := env.now 0 } ∧
    lookup Order.ID (AdminUpdateOrder b none env T o.ID (some ⟨.nan, lng⟩) dest).2.orders o.ID =
      some { o with Origin := ⟨.nan, lng⟩, Destination := dest.getD o.Destination,
                    UpdatedAt := env.now 0 } := by
  have hv : ValidateLocation ⟨.nan, lng⟩ = true := by
    cases hc : ValidateLocation ⟨.nan, lng⟩ with
    | true => rfl
    | false =>
      rcases (ValidateLocation_eq_false _).1 hc with h | h
      · exact absurd h (by simp [F64.outside])
      · exact absurd h hlng
  obtain ⟨T', h, hO, -⟩ := AdminUpdateOrder_ok b env T o (some ⟨.nan, lng⟩) dest ho ht
    (fun l hl => by cases hl; exact hv)
    (fun l hl => ValidateLocation_of_inRange l (hdest l hl))
  rw [h]
  refine ⟨by simp [OutOfRange, InRange, F64.within], rfl, ?_⟩
  show lookup Order.ID T'.orders o.ID = _
  rw [hO]
  exact lookup_written Order.ID b _ ho rfl

/-- C18, the failing input at the CREATED order of `submittedStore`: an update
with the origin `nanOrigin`, of latitude NaN and longitude 0, and no
destination succeeds, and the order stored then has the origin `nanOrigin`. -/
theorem admin_update_accepts_nan_latitude_witness :
    lookup Order.ID submittedStore.orders submittedOrder.ID = some submittedOrder ∧
    IsTerminal submittedOrder.Status = false ∧ ¬ F64.outside (-180) 180 (.val 0) ∧
    nanOrigin = ⟨.nan, .val 0⟩ ∧
    (AdminUpdateOrder .mem none sampleEnv submittedStore submittedOrder.ID (some nanOrigin)
        none).1 = .ok { submittedOrder with Origin := nanOrigin, UpdatedAt := sampleEnv.now 0 } ∧
    (OutOfRange ⟨.nan, .val 0⟩ ∧
      (AdminUpdateOrder .mem none sampleEnv submittedStore submittedOrder.ID
          (some ⟨.nan, .val 0⟩) none).1 =
        .ok { submittedOrder with
              Origin := ⟨.nan, .val 0⟩,
              Destination := (none : Option Location).getD submittedOrder.Destination,
              UpdatedAt := sampleEnv.now 0 } ∧
      lookup Order.ID (AdminUpdateOrder .mem none sampleEnv submittedStore submittedOrder.ID
          (some ⟨.nan, .val 0⟩) none).2.orders submittedOrder.ID =
        some { submittedOrder with
               Origin := ⟨.nan, .val 0⟩,
               Destination := (none : Option Location).getD submittedOrder.Destination,
               UpdatedAt := sampleEnv.now 0 }) :=
  ⟨by decide, by decide, by decide, rfl, by decide,
   admin_update_accepts_nan_latitude .mem sampleEnv submittedStore submittedOrder (.val 0) none
     (by decide) (by decide) (by decide) (fun _ h => Option.noConfusion h)⟩

/-- The write of a successful `SubmitOrder`: the new order is appended. -/
theorem SubmitOrder_ok (b : Backend) (env : Env) (T : Tables) (userID : String)
    (origin dest : Location) (hfresh : lookup Order.ID T.orders (newOrderID env) = none)
    (h1 : ValidateLocation origin = true) (h2 : ValidateLocation dest = true) :
    ∃ T', SubmitOrder b none env T userID origin dest =
        (.ok (submitted env userID origin dest), T') ∧
      T'.orders = T.orders ++ [submitted env userID origin dest] ∧ T'.drones = T.drones := by
  unfold SubmitOrder
  rw [h1, h2]
  simp only [Bool.not_true, Bool.false_eq_true, if_false]
  refine runTx_post b none _ T (fun x => ∃ T', x = (.ok _, T') ∧ T'.orders = _ ∧ T'.drones = _)
    (by simp) ?_
  intro _
  cases b <;>
    simp [post_CreateOrder_bind, post_EnqueueEvent_bind, post_Commit_bind, post_pure,
      Tx.fails, Tx.start, Tx.next, Tx.final, hfresh, submitted]

/-- `SubmitOrder` rejects coordinates `ValidateLocation` rejects, before any store call. -/
theorem SubmitOrder_invalid (b : Backend) (failAt : Option Nat) (env : Env) (T : Tables)
    (userID : String) (origin dest : Location)
    (h : ValidateLocation origin = false ∨ ValidateLocation dest = false) :
    SubmitOrder b failAt env T userID origin dest = (.error .ErrInvalid, T) := by
  unfold SubmitOrder
  rcases h with h | h
  · simp [h]
  · cases h1 : ValidateLocation origin <;> simp [h]

/-- The part of C19 that holds: for coordinates that are numbers, and an order id
the store does not hold yet, the store calls succeeding, `SubmitOrder` succeeds
if and only if origin and destination are both within range; on success the
order returned is CREATED, owned by the caller, with the given coordinates and
neither drone nor handoff origin, and it is the one row added to the orders;
otherwise the call fails with Invalid and the store is left as it was. -/
theorem SubmitOrder_numbers (b : Backend) (env : Env) (T : Tables) (userID : String)
    (lat1 lng1 lat2 lng2 : Rat)
    (hfresh : lookup Order.ID T.orders (newOrderID env) = none) :
    ((∃ r, (SubmitOrder b none env T userID ⟨.val lat1, .val lng1⟩ ⟨.val lat2, .val lng2⟩).1
        = .ok r) ↔
      (InRange ⟨.val lat1, .val lng1⟩ ∧ InRange ⟨.val lat2, .val lng2⟩)) ∧
    (InRange ⟨.val lat1, .val lng1⟩ → InRange ⟨.val lat2, .val lng2⟩ →
      ∃ T', SubmitOrder b none env T userID ⟨.val lat1, .val lng1⟩ ⟨.val lat2, .val lng2⟩ =
          (.ok (submitted env userID ⟨.val lat1, .val lng1⟩ ⟨.val lat2, .val lng2⟩), T') ∧
        T'.orders =
          T.orders ++ [submitted env userID ⟨.val lat1, .val lng1⟩ ⟨.val lat2, .val lng2⟩] ∧
        T'.drones = T.drones) ∧
    (¬ (InRange ⟨.val lat1, .val lng1⟩ ∧ InRange ⟨.val lat2, .val lng2⟩) →
      SubmitOrder b none env T userID ⟨.val lat1, .val lng1⟩ ⟨.val lat2, .val lng2⟩ =
        (.error .ErrInvalid, T)) := by
  have hok : InRange ⟨.val lat1, .val lng1⟩ → InRange ⟨.val lat2, .val lng2⟩ →
      ∃ T', SubmitOrder b none env T userID ⟨.val lat1, .val lng1⟩ ⟨.val lat2, .val lng2⟩ =
          (.ok (submitted env userID ⟨.val lat1, .val lng1⟩ ⟨.val lat2, .val lng2⟩), T') ∧
        T'.orders =
          T.orders ++ [submitted env userID ⟨.val lat1, .val lng1⟩ ⟨.val lat2, .val lng2⟩] ∧
        T'.drones = T.drones :=
    fun h1 h2 => SubmitOrder_ok b env T userID _ _ hfresh
      ((ValidateLocation_val lat1 lng1).2 h1) ((ValidateLocation_val lat2 lng2).2 h2)
  have hbad : ¬ (InRange ⟨.val lat1, .val lng1⟩ ∧ InRange ⟨.val lat2, .val lng2⟩) →
      SubmitOrder b none env T userID ⟨.val lat1, .val lng1⟩ ⟨.val lat2, .val lng2⟩ =
        (.error .ErrInvalid, T) := by
    intro h
    apply SubmitOrder_invalid
    by_contra hc
    apply h
    constructor
    · apply (ValidateLocation_val lat1 lng1).1
      cases hv : ValidateLocation ⟨.val lat1, .val lng1⟩ with
      | true => rfl
      | false => exact absurd (Or.inl hv) hc
    · apply (ValidateLocation_val lat2 lng2).1
      cases hv : ValidateLocation ⟨.val lat2, .val lng2⟩ with
      | true => rfl
      | false => exact absurd (Or.inr hv) hc
  refine ⟨⟨?_, ?_⟩, hok, hbad⟩
  · rintro ⟨r, hr⟩
    by_contra hc
    rw [hbad hc] at hr
    cases hr
  · rintro ⟨h1, h2⟩
    obtain ⟨T', h, -⟩ := hok h1 h2
    exact ⟨_, by rw [h]⟩

/-- C19: the failing inputs. `SubmitOrder` with an origin whose latitude is NaN,
which is not within [-90, 90], succeeds whenever the longitude is not below
-180 or above 180, the destination is within range and the store does not hold
the new order id yet (the store calls succeeding), and it adds the order with
that origin to the store: `ValidateLocation` rejects a latitude only when
`Lat < -90` or `Lat > 90`, and both comparisons are false for NaN. -/
theorem submit_accepts_nan_latitude (b : Backend) (env : Env) (T : Tables) (userID : String)
    (lng : F64) (dest : Location)
    (hfresh : lookup Order.ID T.orders (newOrderID env) = none)
    (hlng : ¬ F64.outside (-180) 180 lng) (hdest : InRange dest) :
    ¬ InRange ⟨.nan, lng⟩ ∧
    ∃ T', SubmitOrder b none env T userID ⟨.nan, lng⟩ dest =
        (.ok (submitted env userID ⟨.nan, lng⟩ dest), T') ∧
      T'.orders = T.orders ++ [submitted env userID ⟨.nan, lng⟩ dest] ∧
      (submitted env userID ⟨.nan, lng⟩ dest).Origin.Lat = .nan := by
  have hv : ValidateLocation ⟨.nan, lng⟩ = true := by
    cases hc : ValidateLocation ⟨.nan, lng⟩ with
    | true => rfl
    | false =>
      rcases (ValidateLocation_eq_false _).1 hc with h | h
      · exact absurd h (by simp [F64.outside])
      · exact absurd h hlng
  obtain ⟨T', h, hO, -⟩ :=
    SubmitOrder_ok b env T userID ⟨.nan, lng⟩ dest hfresh hv
      (ValidateLocation_of_inRange dest hdest)
  exact ⟨by simp [InRange, F64.within], T', h, hO, rfl⟩

/-- C19, the failing input on the empty in-memory store: the origin `nanOrigin`,
of latitude NaN and longitude 0, and the destination (2, 2). The call returns
`nanOrder` and the store then holds it. -/
theorem submit_accepts_nan_latitude_witness :
    lookup Order.ID Tables.empty.orders (newOrderID sampleEnv) = none ∧
    ¬ F64.outside (-180) 180 (.val 0) ∧ InRange sampleDest ∧
    SubmitOrder .mem none sampleEnv Tables.empty "u1" nanOrigin sampleDest =
      (.ok nanOrder, { orders := [nanOrder], drones := [], outbox := [] }) ∧
    (¬ InRange ⟨.nan, .val 0⟩ ∧
      ∃ T', SubmitOrder .mem none sampleEnv Tables.empty "u1" ⟨.nan, .val 0⟩ sampleDest =
          (.ok (submitted sampleEnv "u1" ⟨.nan, .val 0⟩ sampleDest), T') ∧
        T'.orders =
          Tables.empty.orders ++ [submitted sampleEnv "u1" ⟨.nan, .val 0⟩ sampleDest] ∧
        (submitted sampleEnv "u1" ⟨.nan, .val 0⟩ sampleDest).Origin.Lat = .nan) :=
  ⟨by decide, by decide, by decide, by decide,
   submit_accepts_nan_latitude .mem sampleEnv Tables.empty "u1" (.val 0) sampleDest
     (by decide) (by decide) (by decide)⟩

/-- C20. `ComputeETA` returns nothing for an order whose status is DELIVERED,
FAILED or WITHDRAWN, whatever the drone and the speed, and for any order when
the speed is less than or equal to zero: a number not above zero, the negative
zero or the negative infinity. -/
theorem ComputeETA_absent (m : Libm) (order : Order) (drone : Option Drone) (speedMPS : F64)
    (h : (order.Status = .Delivered ∨ order.Status = .Failed ∨ order.Status = .Withdrawn) ∨
      (∃ q : Rat, speedMPS = .val q ∧ q ≤ 0) ∨ speedMPS = .negZero ∨ speedMPS = .inf true) :
    ComputeETA m order drone speedMPS = none := by
  have hle : ((∃ q : Rat, speedMPS = .val q ∧ q ≤ 0) ∨ speedMPS = .negZero ∨
      speedMPS = .inf true) → F64.le speedMPS (.val 0) = true := by
    rintro (⟨q, rfl, hq⟩ | rfl | rfl) <;> simp [F64.le]
    exact hq
  rcases h with (h | h | h) | h
  · simp [ComputeETA, IsTerminal, h]
  · simp [ComputeETA, IsTerminal, h]
  · simp [ComputeETA, IsTerminal, h]
  · unfold ComputeETA
    by_cases ht : IsTerminal order.Status = true
    · simp [ht]
    · simp [ht, hle h]

/-- C20, at the DELIVERED order of `deliveredStore` with the speed 10 of
`TestComputeETA`, and at the CREATED order of `submittedStore` with speed 0. -/
theorem ComputeETA_absent_witness :
    deliveredOrder.Status = .Delivered ∧
    ComputeETA sampleLibm deliveredOrder none (.val 10) = none ∧
    ComputeETA sampleLibm submittedOrder (some reservedDrone) (.val 0) = none :=
  ⟨by decide,
   ComputeETA_absent sampleLibm deliveredOrder none (.val 10) (Or.inl (Or.inl (by decide))),
   ComputeETA_absent sampleLibm submittedOrder (some reservedDrone) (.val 0)
     (Or.inr (Or.inl ⟨0, rfl, le_refl 0⟩))⟩

/-! ## The projected location and the ETA -/

/-- The integer part of a rational, when it is between the next two integers. -/
theorem floor_eq_of_bounds (x : Rat) (n : Int) (h1 : (n : Rat) ≤ x) (h2 : x < n + 1) :
    Rat.floor x = n := by
  show Int.floor x = n
  exact Int.floor_eq_iff.2 ⟨h1, h2⟩

theorem log2_eq_of_bounds (x : Rat) (e : Int) (h1 : (2 : Rat) ^ e ≤ x) (h2 : x < 2 ^ (e + 1)) :
    Int.log 2 x = e := by
  have hx : 0 < x := lt_of_lt_of_le (by positivity) h1
  have hb : 1 < 2 := by norm_num
  apply le_antisymm
  · have h : x < ((2 : Nat) : Rat) ^ (e + 1) := by exact_mod_cast h2
    have := (Int.lt_zpow_iff_log_lt hb hx).1 h
    omega
  · exact (Int.zpow_le_iff_le_log hb hx).1 (by exact_mod_cast h1)

/-- Rounding to the nearest integer, away from a tie. -/
theorem roundHalfEven_eq (x : Rat) (n : Int) (h1 : (n : Rat) - 1 / 2 < x) (h2 : x < n + 1 / 2) :
    roundHalfEven x = n := by
  unfold roundHalfEven
  by_cases h : (n : Rat) ≤ x
  · have hf : Rat.floor x = n := floor_eq_of_bounds x n h (by linarith)
    simp only [hf]
    rw [if_pos (by linarith)]
  · have hf : Rat.floor x = n - 1 := floor_eq_of_bounds x (n - 1) (by push_cast; linarith)
      (by push_cast; linarith)
    simp only [hf]
    rw [if_neg (by push_cast; linarith), if_pos (by push_cast; linarith)]
    ring

/-- The rounding of a positive number in the range of the normal and subnormal
numbers, away from a tie: with `e` the exponent of `q`, not below -1022, the
nearest multiple `n * 2 ^ (e - 52)`. -/
theorem F64.round_eq (q : Rat) (e n : Int) (h1 : (2 : Rat) ^ e ≤ q) (h2 : q < 2 ^ (e + 1))
    (he : -1022 ≤ e) (hlo : ((n : Rat) - 1 / 2) * 2 ^ (e - 52) < q)
    (hhi : q < ((n : Rat) + 1 / 2) * 2 ^ (e - 52)) (hn : (n : Rat) * 2 ^ (e - 52) < 2 ^ 1024) :
    F64.round q = .val (n * 2 ^ (e - 52)) := by
  have hq : 0 < q := lt_of_lt_of_le (by positivity) h1
  have hu : (0 : Rat) < 2 ^ (e - 52) := by positivity
  have hr : roundHalfEven (|q| / 2 ^ (e - 52)) = n := by
    rw [abs_of_pos hq]
    apply roundHalfEven_eq
    · rw [lt_div_iff₀ hu]; exact hlo
    · rw [div_lt_iff₀ hu]; exact hhi
  have hn0 : (n : Rat) * 2 ^ (e - 52) ≠ 0 := by
    have : (0 : Rat) < n * 2 ^ (e - 52) := by
      have h52 : (2 : Rat) ^ e = 2 ^ 52 * 2 ^ (e - 52) := by
        rw [← zpow_natCast, ← zpow_add₀ (by norm_num)]
        congr 1
        omega
      nlinarith [h1]
    exact ne_of_gt this
  unfold F64.round
  rw [if_neg (ne_of_gt hq)]
  simp only [log2_eq_of_bounds |q| e (by rwa [abs_of_pos hq]) (by rwa [abs_of_pos hq]),
    max_eq_left he, hr]
  rw [if_neg (not_le.2 hn), if_neg hn0, if_neg (not_lt.2 (le_of_lt hq))]

/-- When `speedMPS <= 0` is false, `ComputeETA` is the conversion of the quotient,
not below zero, from the projected location, if there is one. -/
theorem ComputeETA_eq (m : Libm) (order : Order) (drone : Option Drone) (speedMPS : F64)
    (hle : F64.le speedMPS (.val 0) = false) :
    ComputeETA m order drone speedMPS =
      (CurrentLocation order drone).map (fun loc =>
        max 0 (int64 m (F64.div (haversineMeters m loc order.Destination) speedMPS))) := by
  have hmax : ∀ n : Int, (if n < 0 then 0 else n) = max 0 n := by
    intro n
    split <;> omega
  unfold ComputeETA CurrentLocation
  rw [hle]
  cases hs : order.Status <;> rcases drone with _ | d <;>
    simp [IsTerminal, hmax]
  · cases d.LastLocation <;> rfl
  · cases order.HandoffOrigin <;> rfl
  · cases order.HandoffOrigin <;> rfl

/-- The conversion to `int64` of a number not below zero whose integer part is
below `2 ^ 63` is that integer part. -/
theorem int64_floor (m : Libm) (x : Rat) (h0 : 0 ≤ x) (hn : Rat.floor x < 2 ^ 63) :
    int64 m (.val x) = Rat.floor x := by
  have hf : 0 ≤ Rat.floor x := Rat.le_floor.2 (by simpa using h0)
  simp only [int64, h0, if_true]
  rw [if_pos ⟨by omega, hn⟩]

/-- The `float64` quotient of two numbers, the divisor above zero, is their
quotient rounded to the nearest `float64`. -/
theorem F64.div_val (d q : Rat) (hq : 0 < q) :
    F64.div (.val d) (.val q) = F64.round (d / q) := by
  unfold F64.div
  by_cases hd : d = 0
  · subst hd
    simp [F64.isInf, F64.toRat, F64.sign, F64.zero, F64.round, ne_of_gt hq, not_lt.2 (le_of_lt hq)]
  · simp [F64.isInf, F64.toRat, ne_of_gt hq, hd]

/-- The `float64` quotient is rounded: for the distance 111194.92664455874 and the
speed 22238.98532891175, the quotient of the two numbers is below 5, of integer
part 4, and the `float64` nearest to it is 5, which is what `int64` is given. -/
theorem F64.div_rounds (m : Libm) :
    F64.div (.val (7641257174711981 / 2 ^ 36)) (.val (6113005739769585 / 2 ^ 38)) = .val 5 ∧
    int64 m (F64.div (.val (7641257174711981 / 2 ^ 36)) (.val (6113005739769585 / 2 ^ 38)))
      = 5 ∧
    Rat.floor ((7641257174711981 / 2 ^ 36 : Rat) / (6113005739769585 / 2 ^ 38)) = 4 := by
  have hd : F64.div (.val (7641257174711981 / 2 ^ 36)) (.val (6113005739769585 / 2 ^ 38))
      = .val 5 := by
    rw [F64.div_val _ _ (by norm_num)]
    have h := F64.round_eq ((7641257174711981 / 2 ^ 36 : Rat) / (6113005739769585 / 2 ^ 38))
      2 (5 * 2 ^ 50) (by norm_num) (by norm_num) (by norm_num) (by norm_num) (by norm_num)
      (by norm_num)
    rw [h]
    norm_num
  have h5 : Rat.floor 5 = 5 := floor_eq_of_bounds 5 5 (by norm_num) (by norm_num)
  refine ⟨hd, ?_, floor_eq_of_bounds _ 4 (by norm_num) (by norm_num)⟩
  rw [hd, int64_floor m 5 (by norm_num) (by rw [h5]; norm_num), h5]

/-- The conversion to `int64` of a number below zero, when it is not below
`-2 ^ 63`, is not above zero. -/
theorem int64_neg (m : Libm) (x : Rat) (h0 : x < 0) (hn : -2 ^ 63 ≤ -Rat.floor (-x)) :
    int64 m (.val x) ≤ 0 := by
  have hf : 0 ≤ Rat.floor (-x) := Rat.le_floor.2 (by simpa using le_of_lt h0)
  simp only [int64, not_le.2 h0, if_false]
  rw [if_pos ⟨hn, by omega⟩]
  omega

/-- C21, as stated, fails. In `pickedUpStore` the order is PICKED_UP and its
drone `drone-a` has never reported a location: at the speed 10 of
`TestComputeETA`, `ComputeETA` returns nothing for that order, with its drone as
well as without a drone. -/
theorem eta_absent_without_drone_location :
    Reachable .mem pickedUpStore ∧
    lookup Order.ID pickedUpStore.orders "" = some pickedUpOrder ∧
    lookup Drone.ID pickedUpStore.drones "drone-a" = some reservedDrone ∧
    pickedUpOrder.Status = .PickedUp ∧ pickedUpOrder.AssignedDroneID = some "drone-a" ∧
    ComputeETA sampleLibm pickedUpOrder (some reservedDrone) (.val 10) = none ∧
    ComputeETA sampleLibm pickedUpOrder none (.val 10) = none :=
  ⟨Reachable.runAll _ Reachable.empty _, by decide, by decide, by decide, by decide, by decide,
   by decide⟩

/-- C21 (amended). For every order, every optional drone and every speed above
zero (a number above zero, or the infinity): `ComputeETA` returns nothing when
the order has no projected location (`CurrentLocation` returns nothing: a
terminal order, a PICKED_UP order whose drone is absent or has not reported a
location, a HANDOFF_REQUESTED order without handoff origin); otherwise it
returns a value, which is not negative, and which is the integer part of the
`float64` quotient of the distance from the projected location to the
destination by the speed, whenever that quotient is a number not below zero
whose integer part is below `2 ^ 63`, and zero when that quotient is the
negative zero or a number below zero and not below `-2 ^ 63`. When distance and
speed are numbers, the `float64` quotient is their quotient rounded to the
nearest `float64`. -/
theorem eta_from_projected_location (m : Libm) (order : Order) (drone : Option Drone)
    (speedMPS : F64) (hs : (∃ q : Rat, speedMPS = .val q ∧ 0 < q) ∨ speedMPS = .inf false) :
    (CurrentLocation order drone = none → ComputeETA m order drone speedMPS = none) ∧
    (∀ loc, CurrentLocation order drone = some loc →
      ∃ n, ComputeETA m order drone speedMPS = some n ∧ 0 ≤ n ∧
        (∀ x, F64.div (haversineMeters m loc order.Destination) speedMPS = .val x → 0 ≤ x →
          Rat.floor x < 2 ^ 63 → n = Rat.floor x) ∧
        (F64.div (haversineMeters m loc order.Destination) speedMPS = .negZero → n = 0) ∧
        (∀ x, F64.div (haversineMeters m loc order.Destination) speedMPS = .val x → x < 0 →
          -2 ^ 63 ≤ -Rat.floor (-x) → n = 0) ∧
        (∀ d q, haversineMeters m loc order.Destination = .val d → speedMPS = .val q →
          F64.div (haversineMeters m loc order.Destination) speedMPS = F64.round (d / q))) := by
  have hle : F64.le speedMPS (.val 0) = false := by
    rcases hs with ⟨q, rfl, hq⟩ | rfl <;> simp [F64.le]
    exact hq
  rw [ComputeETA_eq m order drone speedMPS hle]
  constructor
  · intro h
    rw [h]
    rfl
  · intro loc h
    rw [h]
    refine ⟨_, rfl, le_max_left _ _, ?_, ?_, ?_, ?_⟩
    · intro x hx h0 hn
      show max 0 (int64 m (F64.div (haversineMeters m loc order.Destination) speedMPS)) = _
      rw [hx, int64_floor m x h0 hn]
      exact max_eq_right (Rat.le_floor.2 (by simpa using h0))
    · intro hx
      show max 0 (int64 m (F64.div (haversineMeters m loc order.Destination) speedMPS)) = _
      rw [hx]
      rfl
    · intro x hx h0 hn
      show max 0 (int64 m (F64.div (haversineMeters m loc order.Destination) speedMPS)) = _
      rw [hx]
      exact max_eq_left (int64_neg m x h0 hn)
    · intro d q hd hq
      rcases hs with ⟨q', rfl, hq'⟩ | rfl
      · cases hq
        rw [hd, F64.div_val d q hq']
      · cases hq

/-- C21 (amended), at the CREATED order of `submittedStore`, without a drone, and
the speed 10 of `TestComputeETA`: the projected location is the origin. -/
theorem eta_from_projected_location_witness :
    (0 : Rat) < 10 ∧ CurrentLocation submittedOrder none = some sampleOrigin ∧
    ((CurrentLocation submittedOrder none = none →
        ComputeETA sampleLibm submittedOrder none (.val 10) = none) ∧
      (∀ loc, CurrentLocation submittedOrder none = some loc →
        ∃ n, ComputeETA sampleLibm submittedOrder none (.val 10) = some n ∧ 0 ≤ n ∧
          (∀ x, F64.div (haversineMeters sampleLibm loc submittedOrder.Destination) (.val 10)
              = .val x → 0 ≤ x → Rat.floor x < 2 ^ 63 → n = Rat.floor x) ∧
          (F64.div (haversineMeters sampleLibm loc submittedOrder.Destination) (.val 10)
              = .negZero → n = 0) ∧
          (∀ x, F64.div (haversineMeters sampleLibm loc submittedOrder.Destination) (.val 10)
              = .val x → x < 0 → -2 ^ 63 ≤ -Rat.floor (-x) → n = 0) ∧
          (∀ d q, haversineMeters sampleLibm loc submittedOrder.Destination = .val d →
            F64.val 10 = .val q →
            F64.div (haversineMeters sampleLibm loc submittedOrder.Destination) (.val 10)
              = F64.round (d / q)))) :=
  ⟨by decide, by decide,
   eta_from_projected_location sampleLibm submittedOrder none (.val 10)
     (Or.inl ⟨10, rfl, by decide⟩)⟩

/-- C22. `CurrentLocation(order, drone)` returns nothing for an order whose status
is DELIVERED, FAILED or WITHDRAWN; the order's origin when the status is CREATED
or RESERVED; when it is PICKED_UP, the last location of the drone, and nothing if
the drone is absent or has no last location; when it is HANDOFF_REQUESTED, the
order's handoff origin, and nothing if that is unset. -/
theorem CurrentLocation_by_status (order : Order) (drone : Option Drone) :
    ((order.Status = .Delivered ∨ order.Status = .Failed ∨ order.Status = .Withdrawn) →
      CurrentLocation order drone = none) ∧
    ((order.Status = .Created ∨ order.Status = .Reserved) →
      CurrentLocation order drone = some order.Origin) ∧
    (order.Status = .PickedUp →
      (drone = none → CurrentLocation order drone = none) ∧
      (∀ d, drone = some d → CurrentLocation order drone = d.LastLocation)) ∧
    (order.Status = .HandoffRequested → CurrentLocation order drone = order.HandoffOrigin) := by
  refine ⟨?_, ?_, ?_, ?_⟩
  · rintro (h | h | h) <;> simp [CurrentLocation, h]
  · rintro (h | h) <;> simp [CurrentLocation, h]
  · intro h
    constructor
    · rintro rfl
      simp [CurrentLocation, h]
    · rintro d rfl
      simp [CurrentLocation, h]
  · intro h
    simp [CurrentLocation, h]

/-- C22, at the orders of the sample runs: the DELIVERED order has no location;
the RESERVED order is at its origin; the PICKED_UP order is where `carryingDrone`
last reported, and nowhere for `reservedDrone`, which never reported; the order
handed off again in `rePickedUpStore` would be at its handoff origin. -/
theorem CurrentLocation_by_status_witness :
    CurrentLocation deliveredOrder (some carryingDrone) = none ∧
    CurrentLocation reservedOrder none = some reservedOrder.Origin ∧
    CurrentLocation pickedUpOrder (some carryingDrone) = some sampleDronePos ∧
    CurrentLocation pickedUpOrder (some reservedDrone) = none ∧
    CurrentLocation pickedUpOrder none = none ∧
    CurrentLocation { rePickedUpOrder with Status := .HandoffRequested } none
      = some sampleDronePos :=
  ⟨(CurrentLocation_by_status deliveredOrder (some carryingDrone)).1 (Or.inl (by decide)),
   (CurrentLocation_by_status reservedOrder none).2.1 (Or.inr (by decide)),
   ((CurrentLocation_by_status pickedUpOrder (some carryingDrone)).2.2.1 (by decide)).2
     carryingDrone rfl,
   ((CurrentLocation_by_status pickedUpOrder (some reservedDrone)).2.2.1 (by decide)).2
     reservedDrone rfl,
   ((CurrentLocation_by_status pickedUpOrder none).2.2.1 (by decide)).1 rfl,
   (CurrentLocation_by_status { rePickedUpOrder with Status := .HandoffRequested }
     none).2.2.2 (by decide)⟩

/-! ## The outbox worker -/

section outbox
variable {σ : Type}

theorem attempts_append (xs ys : List Call) : attempts (xs ++ ys) = attempts xs ++ attempts ys := by
  induction xs with
  | nil => rfl
  | cons x xs ih => cases x <;> simp [attempts, ih]

theorem marked_append (xs ys : List Call) : marked (xs ++ ys) = marked xs ++ marked ys := by
  induction xs with
  | nil => rfl
  | cons x xs ih => cases x <;> simp [marked, ih]

theorem attemptEach_fst (P : Publisher σ) (evts : List Event) (s : σ) :
    (attemptEach P evts s).1.map Prod.fst = evts := by
  induction evts generalizing s with
  | nil => rfl
  | cons evt rest ih => simp [attemptEach, ih]

/-- The loop over the batch: one attempt per event, in order, each on the world
the previous one left, no marking, and `published` grows by the ids of the
attempts that succeeded. -/
theorem publishAll_spec (w : OutboxWorker σ) (evts : List Event) (published : List String)
    (s : σ) :
    attempts (publishAll w evts published s).1 = (attemptEach w.Publisher evts s).1 ∧
    (publishAll w evts published s).2.2 = (attemptEach w.Publisher evts s).2 ∧
    marked (publishAll w evts published s).1 = [] ∧
    (publishAll w evts published s).2.1 =
      published ++ succeeded (attemptEach w.Publisher evts s).1 := by
  induction evts generalizing published s with
  | nil => simp [publishAll, attemptEach, attempts, marked, succeeded]
  | cons evt rest ih =>
    unfold publishAll attemptEach
    rcases hp : w.Publisher.Publish evt s with ⟨_ | err, s1⟩
    · obtain ⟨h1, h2, h3, h4⟩ := ih (published ++ [evt.ID]) s1
      simp only [attempts, marked, h1, h2, h3, h4, succeeded, List.filter_cons,
        Option.isNone_none, if_true, List.append_assoc, List.singleton_append, List.map_cons,
        and_self]
    · obtain ⟨h1, h2, h3, h4⟩ := ih published s1
      simp only [attempts, marked, h1, h2, h3, h4, succeeded, List.filter_cons,
        Option.isNone_some, Bool.false_eq_true, if_false, and_self]

/-- The shape of a cycle whose fetch returns a non-empty batch, and the world it
leaves. -/
theorem tick_batch (w : OutboxWorker σ) (s s1 : σ) (evts : List Event)
    (hf : w.Repo.FetchPending w.BatchSize s = (.ok evts, s1)) (hne : evts ≠ []) :
    (tick w s).2 =
      (w.Repo.MarkPublished (succeeded (attemptEach w.Publisher evts s1).1)
        (attemptEach w.Publisher evts s1).2).2 ∧
    ∃ pubs rest, (tick w s).1 =
        .FetchPending w.BatchSize (.ok evts) :: pubs ++
          .MarkPublished (succeeded (attemptEach w.Publisher evts s1).1)
            (w.Repo.MarkPublished (succeeded (attemptEach w.Publisher evts s1).1)
              (attemptEach w.Publisher evts s1).2).1 :: rest ∧
      attempts pubs = (attemptEach w.Publisher evts s1).1 ∧ marked pubs = [] ∧
      attempts rest = [] ∧ marked rest = [] := by
  have hlen : evts.length ≠ 0 := by simpa using hne
  obtain ⟨h1, h2, h3, h4⟩ := publishAll_spec w evts [] s1
  unfold tick
  rw [hf]
  simp only [hlen, if_false]
  rw [List.nil_append] at h4
  rw [h4, h2]
  rcases hm : w.Repo.MarkPublished (succeeded (attemptEach w.Publisher evts s1).1)
    (attemptEach w.Publisher evts s1).2 with ⟨_ | err, s3⟩
  · exact ⟨rfl, _, [], by simp [h4], h1, h3, rfl, rfl⟩
  · exact ⟨rfl, _, [.Printf "mark published error: %v"], by simp [h4], h1, h3, rfl, rfl⟩

end outbox

/-- C23. In a cycle of the outbox worker whose fetch returns a non-empty batch,
for every repository, every publisher and every state of the world: the world
after the cycle is the one `MarkPublished` leaves when it is called, after one
publish attempt on each event of the batch in batch order, with the ids, in
batch order, of the events whose attempt returned no error. The trace of the
cycle is: the fetch, then those publish attempts (with log lines), then that one
call of `MarkPublished` with what it returned (then at most a log line). So
`MarkPublished` is called exactly once, and when the ids of the batch are
distinct, as the ids of outbox rows are, the id of an event whose attempt
failed is not among those it is given. -/
theorem cycle_marks_what_was_published {σ : Type} (w : OutboxWorker σ) (s s1 : σ)
    (evts : List Event) (hf : w.Repo.FetchPending w.BatchSize s = (.ok evts, s1))
    (hne : evts ≠ []) :
    (tick w s).2 =
      (w.Repo.MarkPublished (succeeded (attemptEach w.Publisher evts s1).1)
        (attemptEach w.Publisher evts s1).2).2 ∧
    attempts (tick w s).1 = (attemptEach w.Publisher evts s1).1 ∧
    (∃ pubs rest, (tick w s).1 =
        .FetchPending w.BatchSize (.ok evts) :: pubs ++
          .MarkPublished (succeeded (attempts pubs))
            (w.Repo.MarkPublished (succeeded (attemptEach w.Publisher evts s1).1)
              (attemptEach w.Publisher evts s1).2).1 :: rest ∧
      marked pubs = [] ∧ attempts rest = [] ∧ marked rest = []) ∧
    (attempts (tick w s).1).map Prod.fst = evts ∧
    marked (tick w s).1 = [succeeded (attempts (tick w s).1)] ∧
    ((evts.map (fun e => e.ID)).Nodup →
      ∀ evt err, (evt, some err) ∈ attempts (tick w s).1 →
        ∀ ids ∈ marked (tick w s).1, evt.ID ∉ ids) := by
  obtain ⟨hw, pubs, rest, ht, h1, h2, h3, h4⟩ := tick_batch w s s1 evts hf hne
  have ha : attempts (tick w s).1 = attempts pubs := by
    rw [ht]
    simp [attempts, attempts_append, h3]
  have hm : marked (tick w s).1 = [succeeded (attempts pubs)] := by
    rw [ht]
    simp [marked, marked_append, h2, h4, h1]
  have hfst : (attempts pubs).map Prod.fst = evts := by
    rw [h1]
    exact attemptEach_fst _ _ _
  refine ⟨hw, by rw [ha, h1], ⟨pubs, rest, by rw [h1]; exact ht, h2, h3, h4⟩,
    by rw [ha, hfst], by rw [hm, ha], ?_⟩
  intro hnd evt e hmem ids hids hin
  rw [hm] at hids
  rw [ha] at hmem
  obtain rfl : ids = succeeded (attempts pubs) := by simpa using hids
  simp only [succeeded, List.mem_map, List.mem_filter] at hin
  obtain ⟨x, ⟨hx, hnone⟩, hid⟩ := hin
  have hnd' : ((attempts pubs).map (fun x => x.1.ID)).Nodup := by
    have : (attempts pubs).map (fun x => x.1.ID) = evts.map (fun e => e.ID) := by
      rw [← hfst, List.map_map]
      rfl
    rw [this]
    exact hnd
  have hxe := List.inj_on_of_nodup_map hnd' hx hmem hid
  rw [hxe] at hnone
  simp at hnone

/-- C23, at `journalWorker`, whose world keeps the journal of the calls it
receives: of the two events fetched, `e0` is published and `e1` is refused by
the bus, and the repository then receives one call of `MarkPublished`, with
`e0` alone. The journal of the world is the trace of the worker without its
log lines. -/
theorem cycle_marks_what_was_published_witness :
    journalWorker.Repo.FetchPending journalWorker.BatchSize [] =
      (.ok sampleEvents, [.FetchPending 0 (.ok sampleEvents)]) ∧
    sampleEvents ≠ [] ∧ (sampleEvents.map (fun e => e.ID)).Nodup ∧
    (attempts (tick journalWorker []).2).map (fun x => (x.1.ID, x.2))
      = [("e0", none), ("e1", some "bus down")] ∧
    marked (tick journalWorker []).2 = [["e0"]] ∧
    (tick journalWorker []).2.length = 4 ∧
    (tick journalWorker []).2 =
      (tick journalWorker []).1.filter
        (fun c => decide (c ≠ .Printf "publish error id=%s type=%s: %v")) ∧
    ((tick journalWorker []).2 =
        (journalWorker.Repo.MarkPublished
          (succeeded (attemptEach journalWorker.Publisher sampleEvents
            [.FetchPending 0 (.ok sampleEvents)]).1)
          (attemptEach journalWorker.Publisher sampleEvents
            [.FetchPending 0 (.ok sampleEvents)]).2).2 ∧
      attempts (tick journalWorker []).1 =
        (attemptEach journalWorker.Publisher sampleEvents
          [.FetchPending 0 (.ok sampleEvents)]).1 ∧
      (∃ pubs rest, (tick journalWorker []).1 =
          .FetchPending journalWorker.BatchSize (.ok sampleEvents) :: pubs ++
            .MarkPublished (succeeded (attempts pubs))
              (journalWorker.Repo.MarkPublished
                (succeeded (attemptEach journalWorker.Publisher sampleEvents
                  [.FetchPending 0 (.ok sampleEvents)]).1)
                (attemptEach journalWorker.Publisher sampleEvents
                  [.FetchPending 0 (.ok sampleEvents)]).2).1 :: rest ∧
        marked pubs = [] ∧ attempts rest = [] ∧ marked rest = []) ∧
      (attempts (tick journalWorker []).1).map Prod.fst = sampleEvents ∧
      marked (tick journalWorker []).1 = [succeeded (attempts (tick journalWorker []).1)] ∧
      ((sampleEvents.map (fun e => e.ID)).Nodup →
        ∀ evt err, (evt, some err) ∈ attempts (tick journalWorker []).1 →
          ∀ ids ∈ marked (tick journalWorker []).1, evt.ID ∉ ids)) :=
  ⟨rfl, by decide, by decide, by decide, by decide, by decide, by decide,
   cycle_marks_what_was_published journalWorker [] [.FetchPending 0 (.ok sampleEvents)]
     sampleEvents rfl (by decide)⟩

/-- The result of the loop: the context's error once `Done` is taken, and no
return before. -/
theorem loop_result {σ : Type} (w : OutboxWorker σ) (ctxErr : GoError) (signals : List Signal)
    (s : σ) : (loop w ctxErr signals s).1 = if .Done ∈ signals then some ctxErr else none := by
  induction signals generalizing s with
  | nil => rfl
  | cons x rest ih =>
    cases x with
    | Done => simp [loop]
    | Tick =>
      have := ih (tick w s).2
      simp only [loop]
      simpa using this

/-- C24. For `OutboxWorker.Start` run over the cases its `select` takes: a tick
whose fetch fails or returns an empty batch makes no publish attempt and no
call of `MarkPublished`; after any tick, whatever the fetch, the publisher and
`MarkPublished` returned, the loop goes on with the next signal; and `Start`
returns exactly when one of the signals is the cancellation, and what it
returns is then the context's error. -/
theorem start_returns_only_on_cancel {σ : Type} (w : OutboxWorker σ) (ctxErr : GoError)
    (signals : List Signal) (s : σ) :
    ((∀ evts s1, (defaults w).Repo.FetchPending (defaults w).BatchSize s ≠ (.ok evts, s1) ∨
        evts = []) →
      attempts (tick (defaults w) s).1 = [] ∧ marked (tick (defaults w) s).1 = []) ∧
    Start w ctxErr (.Tick :: signals) s =
      ((Start w ctxErr signals (tick (defaults w) s).2).1,
        (tick (defaults w) s).1 ++ (Start w ctxErr signals (tick (defaults w) s).2).2.1,
        (Start w ctxErr signals (tick (defaults w) s).2).2.2) ∧
    (Start w ctxErr signals s).1 = (if .Done ∈ signals then some ctxErr else none) ∧
    (∀ e, (Start w ctxErr signals s).1 = some e → .Done ∈ signals ∧ e = ctxErr) := by
  have h3 := loop_result (defaults w) ctxErr signals s
  refine ⟨?_, rfl, h3, ?_⟩
  · intro h
    unfold tick
    rcases hf : (defaults w).Repo.FetchPending (defaults w).BatchSize s with ⟨_ | evts, s1⟩
    · simp [attempts, marked]
    · rcases h evts s1 with h | h
      · exact absurd hf h
      · subst h
        simp [attempts, marked]
  · intro e he
    unfold Start at he
    rw [h3] at he
    by_cases hd : Signal.Done ∈ signals
    · rw [if_pos hd] at he
      exact ⟨hd, (Option.some.inj he).symm⟩
    · rw [if_neg hd] at he
      cases he

/-- C24, at `brokenFetchWorker`, whose fetch fails: two ticks make two fetches
and nothing else but log lines, and `Start` has not returned; after a
cancellation it returns the context's error. The batch size asked for is the
default 50. -/
theorem start_returns_only_on_cancel_witness :
    (Start brokenFetchWorker "context canceled" [.Tick, .Tick] []).1 = none ∧
    (Start brokenFetchWorker "context canceled" [.Tick, .Tick] []).2.1 =
      [.FetchPending 50 (.error "connection refused"), .Printf "outbox fetch error: %v",
       .FetchPending 50 (.error "connection refused"), .Printf "outbox fetch error: %v"] ∧
    (Start brokenFetchWorker "context canceled" [.Tick, .Done, .Tick] []).1
      = some "context canceled" ∧
    (attempts (tick (defaults brokenFetchWorker) []).1 = [] ∧
      marked (tick (defaults brokenFetchWorker) []).1 = []) :=
  ⟨by decide, by decide, by decide,
   (start_returns_only_on_cancel brokenFetchWorker "context canceled" [] []).1
     (fun _ _ => Or.inl (fun h => by simp [brokenFetchWorker, defaults] at h))⟩

/-! ## Database failures and the transaction -/

section faithful
variable {α β : Type}

theorem faithful_pure (a : α) : Faithful (pure a : TxM α) := fun _ => Or.inr ⟨rfl, rfl⟩

theorem faithful_fail (e : DomainError) : Faithful (fail e : TxM α) := fun _ => Or.inr ⟨rfl, rfl⟩

theorem faithful_check (c : Prop) [Decidable c] (e : DomainError) : Faithful (check c e) := by
  intro t
  unfold check
  by_cases h : c <;> simp [h]

theorem faithful_storeCall (f : Backend → Tables → Except DomainError (α × Tables)) :
    Faithful (storeCall f) := by
  intro t
  unfold storeCall
  by_cases h : t.backend = .postgres ∧ t.failAt = some t.calls
  · left
    simp [h]
  · right
    simp only [h, if_false, Tx.sound]
    rcases hf : f t.backend t.work with e | ⟨a, w⟩ <;> simp

theorem faithful_Commit : Faithful Commit := by
  intro t
  unfold Commit
  by_cases h : t.backend = .postgres ∧ t.failAt = some t.calls
  · left
    simp [h]
  · right
    simp [h, Tx.sound]

theorem faithful_bind {m : TxM α} {f : α → TxM β} (hm : Faithful m) (hf : ∀ a, Faithful (f a)) :
    Faithful (m >>= f) := by
  intro t
  show (TxM.bind m f t).1 = _ ∨ ((TxM.bind m f t.sound).1 = (TxM.bind m f t).1 ∧ _)
  show _ ∨ (_ ∧ (TxM.bind m f t.sound).2 = (TxM.bind m f t).2.sound)
  unfold TxM.bind
  rcases hm t with h | ⟨h1, h2⟩
  · left
    rcases hmt : m t with ⟨r, t1⟩
    rw [hmt] at h
    simp only at h
    subst h
    rfl
  · rcases hmt : m t with ⟨r, t1⟩
    rcases hms : m t.sound with ⟨r0, t0⟩
    rw [hmt, hms] at h1 h2
    simp only at h1 h2
    subst h1 h2
    cases r0 with
    | error e => right; exact ⟨rfl, rfl⟩
    | ok a => exact hf a t1

theorem faithful_GetOrderForUpdate (id : String) : Faithful (GetOrderForUpdate id) :=
  faithful_storeCall _

theorem faithful_GetDroneForUpdate (id : String) : Faithful (GetDroneForUpdate id) :=
  faithful_storeCall _

theorem faithful_CreateDrone (d : Drone) : Faithful (CreateDrone d) := faithful_storeCall _

theorem faithful_CreateOrder (o : Order) : Faithful (CreateOrder o) := faithful_storeCall _

theorem faithful_UpdateOrder (o : Order) : Faithful (UpdateOrder o) := faithful_storeCall _

theorem faithful_UpdateDrone (d : Drone) : Faithful (UpdateDrone d) := faithful_storeCall _

theorem faithful_ReserveNextOrder (allowed : List OrderStatus) :
    Faithful (ReserveNextOrder allowed) := faithful_storeCall _

theorem faithful_EnqueueEvent (e : Event) : Faithful (EnqueueEvent e) := faithful_storeCall _

theorem faithful_getOrCreate (id : String) (d : Drone) :
    Faithful (fun t =>
      match GetDroneForUpdate id t with
      | (.ok drone, t1) => (.ok drone, t1)
      | (.error err, t1) =>
        if err ≠ .ErrNotFound then (.error err, t1)
        else
          match CreateDrone d t1 with
          | (.ok _, t2) => (.ok d, t2)
          | (.error e, t2) => (.error e, t2)) := by
  intro t
  have hg := faithful_GetDroneForUpdate id t
  cases hmt : GetDroneForUpdate id t with
  | mk r t1 =>
    cases hms : GetDroneForUpdate id t.sound with
    | mk r0 t0 =>
      simp only [hmt, hms] at hg ⊢
      rcases hg with h | ⟨h1, h2⟩
      · left
        subst h
        simp
      · subst h1 h2
        cases r0 with
        | ok drone => right; exact ⟨rfl, rfl⟩
        | error e =>
          by_cases he : e = .ErrNotFound
          · subst he
            simp only [ne_eq, not_true_eq_false, if_false]
            have hc := faithful_CreateDrone d t1
            cases hct : CreateDrone d t1 with
            | mk r t2 =>
              cases hcs : CreateDrone d t1.sound with
              | mk r' t2' =>
                simp only [hct, hcs] at hc ⊢
                rcases hc with h | ⟨h1, h2⟩
                · left
                  subst h
                  rfl
                · right
                  subst h1 h2
                  cases r' <;> exact ⟨rfl, rfl⟩
          · right
            simp [he]

theorem faithful_getOrCreateDrone (id : String) (now : Time) :
    Faithful (getOrCreateDrone id now) :=
  faithful_getOrCreate id _

/-- A database failure makes an operation fail with its error, or goes unnoticed. -/
theorem runTx_faithful {body : TxM α} (h : Faithful body) (failAt : Option Nat) (T : Tables) :
    (runTx .postgres failAt body T).1 = .error .Internal ∨
      runTx .postgres failAt body T = runTx .postgres none body T := by
  unfold runTx
  by_cases h0 : failAt = some 0
  · left
    simp [h0]
  · simp only [h0, and_false, if_false, reduceCtorEq]
    rcases h (Tx.start .postgres failAt T) with h | ⟨h1, h2⟩
    · left
      exact h
    · right
      have hs : (Tx.start .postgres failAt T).sound = Tx.start .postgres none T := rfl
      rw [hs] at h1 h2
      rcases hb : body (Tx.start .postgres failAt T) with ⟨r, t⟩
      rcases hb0 : body (Tx.start .postgres none T) with ⟨r0, t0⟩
      rw [hb, hb0] at h1 h2
      simp only at h1 h2
      subst h1 h2
      rfl

end faithful

section atomic
variable {α β : Type}

theorem quiet_pure (a : α) : Quiet (pure a : TxM α) :=
  fun _ => ⟨rfl, rfl, [], (List.append_nil _).symm⟩

theorem quiet_fail (e : DomainError) : Quiet (fail e : TxM α) :=
  fun _ => ⟨rfl, rfl, [], (List.append_nil _).symm⟩

theorem quiet_check (c : Prop) [Decidable c] (e : DomainError) : Quiet (check c e) := by
  intro t
  unfold check
  by_cases h : c
  · rw [if_pos h]
    exact ⟨rfl, rfl, [], (List.append_nil _).symm⟩
  · rw [if_neg h]
    exact ⟨rfl, rfl, [], (List.append_nil _).symm⟩

theorem quiet_bind {m : TxM α} {f : α → TxM β} (hm : Quiet m) (hf : ∀ a, Quiet (f a)) :
    Quiet (m >>= f) := by
  intro t
  show (TxM.bind m f t).2.committed = _ ∧ (TxM.bind m f t).2.backend = _ ∧
    ∃ evs, (TxM.bind m f t).2.work.outbox = _
  unfold TxM.bind
  obtain ⟨h1, h2, evs, h3⟩ := hm t
  cases hmt : m t with
  | mk r t1 =>
    rw [hmt] at h1 h2 h3
    cases r with
    | error e => exact ⟨h1, h2, evs, h3⟩
    | ok a =>
      obtain ⟨k1, k2, evs', k3⟩ := hf a t1
      exact ⟨k1.trans h1, k2.trans h2, evs ++ evs', by
        show (f a t1).2.work.outbox = _
        rw [k3]
        show t1.work.outbox ++ evs' = _
        have : t1.work.outbox = t.work.outbox ++ evs := h3
        rw [this, List.append_assoc]⟩

theorem quiet_storeCall (f : Backend → Tables → Except DomainError (α × Tables))
    (hf : ∀ b T a w, f b T = .ok (a, w) → ∃ evs, w.outbox = T.outbox ++ evs) :
    Quiet (storeCall f) := by
  intro t
  unfold storeCall
  by_cases h : t.backend = .postgres ∧ t.failAt = some t.calls
  · rw [if_pos h]
    exact ⟨rfl, rfl, [], (List.append_nil _).symm⟩
  · rw [if_neg h]
    cases hr : f t.backend t.work with
    | error e => exact ⟨rfl, rfl, [], (List.append_nil _).symm⟩
    | ok p =>
      obtain ⟨a, w⟩ := p
      exact ⟨rfl, rfl, hf _ _ a w hr⟩

theorem quiet_GetOrderForUpdate (id : String) : Quiet (GetOrderForUpdate id) := by
  refine quiet_storeCall _ (fun b T a w h => ⟨[], ?_⟩)
  cases hl : lookup Order.ID T.orders id <;> simp [hl] at h
  simp [← h.2]

theorem quiet_GetDroneForUpdate (id : String) : Quiet (GetDroneForUpdate id) := by
  refine quiet_storeCall _ (fun b T a w h => ⟨[], ?_⟩)
  cases hl : lookup Drone.ID T.drones id <;> simp [hl] at h
  simp [← h.2]

theorem quiet_CreateDrone (d : Drone) : Quiet (CreateDrone d) := by
  refine quiet_storeCall _ (fun b T a w h => ⟨[], ?_⟩)
  by_cases hl : (lookup Drone.ID T.drones d.ID).isSome <;> simp [hl] at h
  simp [← h]

theorem quiet_CreateOrder (o : Order) : Quiet (CreateOrder o) := by
  refine quiet_storeCall _ (fun b T a w h => ⟨[], ?_⟩)
  by_cases hl : (lookup Order.ID T.orders o.ID).isSome <;> simp [hl] at h
  simp [← h]

theorem quiet_UpdateOrder (o : Order) : Quiet (UpdateOrder o) := by
  refine quiet_storeCall _ (fun b T a w h => ⟨[], ?_⟩)
  simp at h
  simp [← h]

theorem quiet_UpdateDrone (d : Drone) : Quiet (UpdateDrone d) := by
  refine quiet_storeCall _ (fun b T a w h => ⟨[], ?_⟩)
  simp at h
  simp [← h]

theorem quiet_ReserveNextOrder (allowed : List OrderStatus) :
    Quiet (ReserveNextOrder allowed) := by
  refine quiet_storeCall _ (fun b T a w h => ⟨[], ?_⟩)
  simp at h
  simp [← h.2]

theorem quiet_EnqueueEvent (e : Event) : Quiet (EnqueueEvent e) := by
  refine quiet_storeCall _ (fun b T a w h => ?_)
  cases b <;> simp at h
  · exact ⟨[], by simp [← h]⟩
  · exact ⟨[e], by simp [← h]⟩

theorem quiet_getOrCreateDrone (id : String) (now : Time) : Quiet (getOrCreateDrone id now) := by
  intro t
  unfold getOrCreateDrone
  obtain ⟨h1, h2, evs, h3⟩ := quiet_GetDroneForUpdate id t
  cases hmt : GetDroneForUpdate id t with
  | mk r t1 =>
    rw [hmt] at h1 h2 h3
    cases r with
    | ok d => exact ⟨h1, h2, evs, h3⟩
    | error e =>
      by_cases he : e = .ErrNotFound
      · subst he
        simp only [ne_eq, not_true_eq_false, if_false]
        generalize Drone.mk id .Active none none none now now = d
        obtain ⟨k1, k2, evs', k3⟩ := quiet_CreateDrone d t1
        cases hc : CreateDrone d t1 with
        | mk r t2 =>
          rw [hc] at k1 k2 k3
          have h3' : t1.work.outbox = t.work.outbox ++ evs := h3
          have k3' : t2.work.outbox = t1.work.outbox ++ evs' := k3
          cases r <;>
            exact ⟨k1.trans h1, k2.trans h2, evs ++ evs', by
              show t2.work.outbox = _
              rw [k3', h3', List.append_assoc]⟩
      · simp only [ne_eq, he, not_false_eq_true, if_true]
        exact ⟨h1, h2, evs, h3⟩

theorem atomic_fail (e : DomainError) : Atomic (fail e : TxM α) := by
  intro t hc _
  exact ⟨fun _ _ => hc, fun r h => by cases h⟩

/-- The end of every operation: the event, the commit, the result. -/
theorem atomic_tail (e : Event) (a : α) :
    Atomic (EnqueueEvent e >>= fun _ => Commit >>= fun _ => (pure a : TxM α)) := by
  intro t hc hb
  show post (EnqueueEvent e >>= fun _ => Commit >>= fun _ => (pure a : TxM α)) t
    (fun r t' => (∀ e', r = .error e' → t'.committed = false) ∧
      (∀ x, r = .ok x → t'.committed = true ∧
        ∃ evs, evs ≠ [] ∧ t'.work.outbox = t.work.outbox ++ evs))
  simp [post_EnqueueEvent_bind, post_Commit_bind, post_pure, Tx.fails, Tx.next, hb, hc]

theorem atomic_bind {m : TxM α} {f : α → TxM β} (hm : Quiet m) (hf : ∀ a, Atomic (f a)) :
    Atomic (m >>= f) := by
  intro t hc hb
  show (∀ e, (TxM.bind m f t).1 = _ → (TxM.bind m f t).2.committed = false) ∧
    (∀ r, (TxM.bind m f t).1 = _ → (TxM.bind m f t).2.committed = true ∧
      ∃ evs, evs ≠ [] ∧ (TxM.bind m f t).2.work.outbox = _)
  unfold TxM.bind
  obtain ⟨h1, h2, evs, h3⟩ := hm t
  cases hmt : m t with
  | mk r t1 =>
    rw [hmt] at h1 h2 h3
    have h3' : t1.work.outbox = t.work.outbox ++ evs := h3
    cases r with
    | error e => exact ⟨fun _ _ => h1.trans hc, fun r h => by cases h⟩
    | ok a =>
      obtain ⟨k1, k2⟩ := hf a t1 (h1.trans hc) (h2.trans hb)
      refine ⟨k1, fun r hr => ?_⟩
      obtain ⟨kc, evs', hne, k3⟩ := k2 r hr
      refine ⟨kc, evs ++ evs', by simp [hne], ?_⟩
      show (f a t1).2.work.outbox = _
      rw [k3, h3', List.append_assoc]

theorem transactional_error (T : Tables) (e : DomainError) :
    Transactional T ((.error e, T) : Except DomainError α × Tables) (.error e, T) :=
  ⟨fun _ _ => rfl, fun _ h => Except.noConfusion h, Or.inr rfl⟩

/-- The frame of an operation, over the transactional store. -/
theorem runTx_transactional {body : TxM α} (ha : Atomic body) (hf : Faithful body)
    (failAt : Option Nat) (T : Tables) :
    Transactional T (runTx .postgres failAt body T) (runTx .postgres none body T) := by
  have hA : (∀ e, (runTx .postgres failAt body T).1 = .error e →
        (runTx .postgres failAt body T).2 = T) ∧
      (∀ r, (runTx .postgres failAt body T).1 = .ok r →
        ∃ evs, evs ≠ [] ∧ (runTx .postgres failAt body T).2.outbox = T.outbox ++ evs) := by
    unfold runTx
    by_cases h0 : failAt = some 0
    · simp [h0]
    · simp only [h0, and_false, if_false]
      obtain ⟨k1, k2⟩ := ha (Tx.start .postgres failAt T) rfl rfl
      cases hb : body (Tx.start .postgres failAt T) with
      | mk r t =>
        rw [hb] at k1 k2
        refine ⟨fun e he => ?_, fun r' hr => ?_⟩
        · have := k1 e he
          simp only at this
          simp [Tx.final, this]
        · obtain ⟨kc, evs, hne, k3⟩ := k2 r' hr
          simp only at kc k3
          exact ⟨evs, hne, by simpa [Tx.final, kc] using k3⟩
  refine ⟨hA.1, hA.2, ?_⟩
  rcases runTx_faithful hf failAt T with h | h
  · left
    exact Prod.ext h (hA.1 _ h)
  · exact Or.inr h

theorem transactional_reply {T : Tables} {x x0 : Except DomainError α × Tables}
    (f : α → Reply) (h : Transactional T x x0) : Transactional T (reply f x) (reply f x0) := by
  obtain ⟨h1, h2, h3⟩ := h
  rcases x with ⟨r, S⟩
  refine ⟨fun e he => ?_, fun r' hr => ?_, ?_⟩
  · cases r with
    | error e' => exact h1 e' rfl
    | ok a => simp [reply, Except.map] at he
  · cases r with
    | error e' => simp [reply, Except.map] at hr
    | ok a => exact h2 a rfl
  · rcases h3 with h | h
    · left
      cases h
      rfl
    · right
      rw [h]

end atomic

theorem WithdrawOrder_transactional (failAt : Option Nat) (env : Env) (T : Tables)
    (userID orderID : String) :
    Transactional T (WithdrawOrder .postgres failAt env T userID orderID)
      (WithdrawOrder .postgres none env T userID orderID) := by
  unfold WithdrawOrder
  refine runTx_transactional ?_ ?_ failAt T
  · repeat' first
      | exact atomic_tail _ _
      | exact atomic_fail _
      | exact quiet_pure _
      | exact quiet_fail _
      | exact quiet_check _ _
      | exact quiet_GetOrderForUpdate _
      | exact quiet_GetDroneForUpdate _
      | exact quiet_UpdateOrder _
      | exact quiet_UpdateDrone _
      | exact quiet_ReserveNextOrder _
      | exact quiet_EnqueueEvent _
      | exact quiet_getOrCreateDrone _ _
      | refine atomic_bind ?_ (fun _ => ?_)
      | refine quiet_bind ?_ (fun _ => ?_)
      | split
  · repeat' first
      | exact faithful_pure _
      | exact faithful_fail _
      | exact faithful_check _ _
      | exact faithful_GetOrderForUpdate _
      | exact faithful_GetDroneForUpdate _
      | exact faithful_UpdateOrder _
      | exact faithful_UpdateDrone _
      | exact faithful_ReserveNextOrder _
      | exact faithful_EnqueueEvent _
      | exact faithful_Commit
      | exact faithful_getOrCreateDrone _ _
      | refine faithful_bind ?_ (fun _ => ?_)
      | split

theorem AdminUpdateOrder_transactional (failAt : Option Nat) (env : Env) (T : Tables)
    (orderID : String) (origin dest : Option Location) :
    Transactional T (AdminUpdateOrder .postgres failAt env T orderID origin dest)
      (AdminUpdateOrder .postgres none env T orderID origin dest) := by
  unfold AdminUpdateOrder
  refine runTx_transactional ?_ ?_ failAt T
  · repeat' first
      | exact atomic_tail _ _
      | exact atomic_fail _
      | exact quiet_pure _
      | exact quiet_fail _
      | exact quiet_check _ _
      | exact quiet_GetOrderForUpdate _
      | exact quiet_GetDroneForUpdate _
      | exact quiet_UpdateOrder _
      | exact quiet_UpdateDrone _
      | exact quiet_ReserveNextOrder _
      | exact quiet_EnqueueEvent _
      | exact quiet_getOrCreateDrone _ _
      | refine atomic_bind ?_ (fun _ => ?_)
      | refine quiet_bind ?_ (fun _ => ?_)
      | split
  · repeat' first
      | exact faithful_pure _
      | exact faithful_fail _
      | exact faithful_check _ _
      | exact faithful_GetOrderForUpdate _
      | exact faithful_GetDroneForUpdate _
      | exact faithful_UpdateOrder _
      | exact faithful_UpdateDrone _
      | exact faithful_ReserveNextOrder _
      | exact faithful_EnqueueEvent _
      | exact faithful_Commit
      | exact faithful_getOrCreateDrone _ _
      | refine faithful_bind ?_ (fun _ => ?_)
      | split

theorem DroneReserveJob_transactional (failAt : Option Nat) (env : Env) (T : Tables)
    (droneID : String) :
    Transactional T (DroneReserveJob .postgres failAt env T droneID)
      (DroneReserveJob .postgres none env T droneID) := by
  unfold DroneReserveJob
  refine runTx_transactional ?_ ?_ failAt T
  · repeat' first
      | exact atomic_tail _ _
      | exact atomic_fail _
      | exact quiet_pure _
      | exact quiet_fail _
      | exact quiet_check _ _
      | exact quiet_GetOrderForUpdate _
      | exact quiet_GetDroneForUpdate _
      | exact quiet_UpdateOrder _
      | exact quiet_UpdateDrone _
      | exact quiet_ReserveNextOrder _
      | exact quiet_EnqueueEvent _
      | exact quiet_getOrCreateDrone _ _
      | refine atomic_bind ?_ (fun _ => ?_)
      | refine quiet_bind ?_ (fun _ => ?_)
      | split
  · repeat' first
      | exact faithful_pure _
      | exact faithful_fail _
      | exact faithful_check _ _
      | exact faithful_GetOrderForUpdate _
      | exact faithful_GetDroneForUpdate _
      | exact faithful_UpdateOrder _
      | exact faithful_UpdateDrone _
      | exact faithful_ReserveNextOrder _
      | exact faithful_EnqueueEvent _
      | exact faithful_Commit
      | exact faithful_getOrCreateDrone _ _
      | refine faithful_bind ?_ (fun _ => ?_)
      | split

theorem DronePickup_transactional (failAt : Option Nat) (env : Env) (T : Tables)
    (droneID orderID : String) :
    Transactional T (DronePickup .postgres failAt env T droneID orderID)
      (DronePickup .postgres none env T droneID orderID) := by
  unfold DronePickup updateOrderForDrone
  refine runTx_transactional ?_ ?_ failAt T
  · repeat' first
      | exact atomic_tail _ _
      | exact atomic_fail _
      | exact quiet_pure _
      | exact quiet_fail _
      | exact quiet_check _ _
      | exact quiet_GetOrderForUpdate _
      | exact quiet_GetDroneForUpdate _
      | exact quiet_UpdateOrder _
      | exact quiet_UpdateDrone _
      | exact quiet_ReserveNextOrder _
      | exact quiet_EnqueueEvent _
      | exact quiet_getOrCreateDrone _ _
      | refine atomic_bind ?_ (fun _ => ?_)
      | refine quiet_bind ?_ (fun _ => ?_)
      | split
  · repeat' first
      | exact faithful_pure _
      | exact faithful_fail _
      | exact faithful_check _ _
      | exact faithful_GetOrderForUpdate _
      | exact faithful_GetDroneForUpdate _
      | exact faithful_UpdateOrder _
      | exact faithful_UpdateDrone _
      | exact faithful_ReserveNextOrder _
      | exact faithful_EnqueueEvent _
      | exact faithful_Commit
      | exact faithful_getOrCreateDrone _ _
      | refine faithful_bind ?_ (fun _ => ?_)
      | split

theorem completeOrderForDrone_transactional (failAt : Option Nat) (env : Env) (T : Tables)
    (droneID orderID : String) (status : OrderStatus) (reason : String) :
    Transactional T (completeOrderForDrone .postgres failAt env T droneID orderID status reason)
      (completeOrderForDrone .postgres none env T droneID orderID status reason) := by
  unfold completeOrderForDrone
  refine runTx_transactional ?_ ?_ failAt T
  · repeat' first
      | exact atomic_tail _ _
      | exact atomic_fail _
      | exact quiet_pure _
      | exact quiet_fail _
      | exact quiet_check _ _
      | exact quiet_GetOrderForUpdate _
      | exact quiet_GetDroneForUpdate _
      | exact quiet_UpdateOrder _
      | exact quiet_UpdateDrone _
      | exact quiet_ReserveNextOrder _
      | exact quiet_EnqueueEvent _
      | exact quiet_getOrCreateDrone _ _
      | refine atomic_bind ?_ (fun _ => ?_)
  · repeat' first
      | exact faithful_pure _
      | exact faithful_fail _
      | exact faithful_check _ _
      | exact faithful_GetOrderForUpdate _
      | exact faithful_GetDroneForUpdate _
      | exact faithful_UpdateOrder _
      | exact faithful_UpdateDrone _
      | exact faithful_ReserveNextOrder _
      | exact faithful_EnqueueEvent _
      | exact faithful_Commit
      | exact faithful_getOrCreateDrone _ _
      | refine faithful_bind ?_ (fun _ => ?_)

theorem DroneMarkBroken_transactional (failAt : Option Nat) (env : Env) (T : Tables)
    (droneID : String) :
    Transactional T (DroneMarkBroken .postgres failAt env T droneID)
      (DroneMarkBroken .postgres none env T droneID) := by
  unfold DroneMarkBroken releaseOrder
  refine runTx_transactional ?_ ?_ failAt T
  · repeat' first
      | exact atomic_tail _ _
      | exact atomic_fail _
      | exact quiet_pure _
      | exact quiet_fail _
      | exact quiet_check _ _
      | exact quiet_GetOrderForUpdate _
      | exact quiet_GetDroneForUpdate _
      | exact quiet_UpdateOrder _
      | exact quiet_UpdateDrone _
      | exact quiet_ReserveNextOrder _
      | exact quiet_EnqueueEvent _
      | exact quiet_getOrCreateDrone _ _
      | refine atomic_bind ?_ (fun _ => ?_)
      | refine quiet_bind ?_ (fun _ => ?_)
      | split
  · repeat' first
      | exact faithful_pure _
      | exact faithful_fail _
      | exact faithful_check _ _
      | exact faithful_GetOrderForUpdate _
      | exact faithful_GetDroneForUpdate _
      | exact faithful_UpdateOrder _
      | exact faithful_UpdateDrone _
      | exact faithful_ReserveNextOrder _
      | exact faithful_EnqueueEvent _
      | exact faithful_Commit
      | exact faithful_getOrCreateDrone _ _
      | refine faithful_bind ?_ (fun _ => ?_)
      | split

theorem DroneMarkFixed_transactional (failAt : Option Nat) (env : Env) (T : Tables)
    (droneID : String) :
    Transactional T (DroneMarkFixed .postgres failAt env T droneID)
      (DroneMarkFixed .postgres none env T droneID) := by
  unfold DroneMarkFixed
  refine runTx_transactional ?_ ?_ failAt T
  · repeat' first
      | exact atomic_tail _ _
      | exact atomic_fail _
      | exact quiet_pure _
      | exact quiet_fail _
      | exact quiet_check _ _
      | exact quiet_GetOrderForUpdate _
      | exact quiet_GetDroneForUpdate _
      | exact quiet_UpdateOrder _
      | exact quiet_UpdateDrone _
      | exact quiet_ReserveNextOrder _
      | exact quiet_EnqueueEvent _
      | exact quiet_getOrCreateDrone _ _
      | refine atomic_bind ?_ (fun _ => ?_)
  · repeat' first
      | exact faithful_pure _
      | exact faithful_fail _
      | exact faithful_check _ _
      | exact faithful_GetOrderForUpdate _
      | exact faithful_GetDroneForUpdate _
      | exact faithful_UpdateOrder _
      | exact faithful_UpdateDrone _
      | exact faithful_ReserveNextOrder _
      | exact faithful_EnqueueEvent _
      | exact faithful_Commit
      | exact faithful_getOrCreateDrone _ _
      | refine faithful_bind ?_ (fun _ => ?_)

/-- C25. Over the transactional store, whose `Rollback` discards the writes of a
transaction that was not committed, for every operation other than
`DroneHeartbeat`, with any arguments, and whichever store call the database
fails at: when the operation returns an error, the store (orders, drones,
outbox) is exactly as it was before; when it returns a result, the outbox has
gained at least one event along with the changes; and the failure of a store
call either makes the operation return the database's error with the store
unchanged, or is never reached and the operation runs as without it. -/
theorem failed_step_rolls_everything_back (failAt : Option Nat) (env : Env) (T : Tables)
    (op : Op) (hop : ∀ d l, op ≠ .DroneHeartbeat d l) :
    (∀ e, (op.run .postgres failAt env T).1 = .error e →
      (op.run .postgres failAt env T).2 = T) ∧
    (∀ r, (op.run .postgres failAt env T).1 = .ok r →
      ∃ evs, evs ≠ [] ∧ (op.run .postgres failAt env T).2.outbox = T.outbox ++ evs) ∧
    (op.run .postgres failAt env T = (.error .Internal, T) ∨
      op.run .postgres failAt env T = op.run .postgres none env T) := by
  cases op with
  | DroneHeartbeat d l => exact absurd rfl (hop d l)
  | SubmitOrder u o d =>
    apply transactional_reply
    unfold DroneSys.SubmitOrder
    cases ho : ValidateLocation o
    · exact transactional_error T _
    · cases hd : ValidateLocation d
      · exact transactional_error T _
      · simp only [Bool.not_true, Bool.false_eq_true, if_false]
        refine runTx_transactional ?_ ?_ failAt T
        · exact atomic_bind (quiet_CreateOrder _) (fun _ => atomic_tail _ _)
        · exact faithful_bind (faithful_CreateOrder _) (fun _ =>
            faithful_bind (faithful_EnqueueEvent _) (fun _ =>
              faithful_bind faithful_Commit (fun _ => faithful_pure _)))
  | WithdrawOrder u id => exact transactional_reply _ (WithdrawOrder_transactional _ _ _ _ _)
  | AdminUpdateOrder id o d =>
    exact transactional_reply _ (AdminUpdateOrder_transactional _ _ _ _ _ _)
  | DroneReserveJob d => exact transactional_reply _ (DroneReserveJob_transactional _ _ _ _)
  | DronePickup d id => exact transactional_reply _ (DronePickup_transactional _ _ _ _ _)
  | DroneDeliver d id =>
    exact transactional_reply _ (completeOrderForDrone_transactional _ _ _ _ _ _ _)
  | DroneFail d id r =>
    apply transactional_reply
    unfold DroneSys.DroneFail
    by_cases h1 : r = ""
    · rw [if_pos h1, if_pos h1]
      exact transactional_error T _
    · rw [if_neg h1, if_neg h1]
      exact completeOrderForDrone_transactional _ _ _ _ _ _ _
  | DroneMarkBroken d => exact transactional_reply _ (DroneMarkBroken_transactional _ _ _ _)
  | DroneMarkFixed d => exact transactional_reply _ (DroneMarkFixed_transactional _ _ _ _)

/-- C25, at `DroneReserveJob` by a new drone on the store holding one CREATED
order, over the transactional store. The store calls are `BeginTx` (0),
`GetDroneForUpdate` (1), `CreateDrone` (2), `ReserveNextOrder` (3), `UpdateOrder`
(4), `UpdateDrone` (5), `EnqueueEvent` (6) and `Commit` (7): when the database
fails at call 5, 6 or 7, after the order was written, the call returns the
error and the store is as before; without failure it succeeds. -/
theorem failed_step_rolls_everything_back_witness :
    (Op.DroneReserveJob "drone-a").run .postgres (some 5) sampleEnv submittedStore
      = (.error .Internal, submittedStore) ∧
    (Op.DroneReserveJob "drone-a").run .postgres (some 6) sampleEnv submittedStore
      = (.error .Internal, submittedStore) ∧
    (Op.DroneReserveJob "drone-a").run .postgres (some 7) sampleEnv submittedStore
      = (.error .Internal, submittedStore) ∧
    ((Op.DroneReserveJob "drone-a").run .postgres none sampleEnv submittedStore).1
      = .ok (.order reservedOrder) ∧
    ((∀ e, ((Op.DroneReserveJob "drone-a").run .postgres (some 5) sampleEnv submittedStore).1
          = .error e →
        ((Op.DroneReserveJob "drone-a").run .postgres (some 5) sampleEnv submittedStore).2
          = submittedStore) ∧
      (∀ r, ((Op.DroneReserveJob "drone-a").run .postgres (some 5) sampleEnv submittedStore).1
          = .ok r →
        ∃ evs, evs ≠ [] ∧
          ((Op.DroneReserveJob "drone-a").run .postgres (some 5) sampleEnv
            submittedStore).2.outbox = submittedStore.outbox ++ evs) ∧
      ((Op.DroneReserveJob "drone-a").run .postgres (some 5) sampleEnv submittedStore
          = (.error .Internal, submittedStore) ∨
        (Op.DroneReserveJob "drone-a").run .postgres (some 5) sampleEnv submittedStore
          = (Op.DroneReserveJob "drone-a").run .postgres none sampleEnv submittedStore)) :=
  ⟨by decide, by decide, by decide, by decide,
   failed_step_rolls_everything_back (some 5) sampleEnv submittedStore
     (.DroneReserveJob "drone-a") (fun _ _ h => Op.noConfusion h)⟩

/-! ## The end-to-end scenario -/

/-- The tail of `DroneHeartbeat` returns a view and writes nothing when the
database does not fail. -/
theorem post_currentOrderView_ok (drone : Drone) (t : Tx) (hf : ¬ t.backend = .postgres ∨
      t.failAt = none)
    (Q : Except DomainError DroneStatusView → Tx → Prop)
    (h : ∀ v n, Q (.ok v) { t with calls := n }) : post (currentOrderView drone) t Q := by
  have hnf : ∀ n, ¬ ({ t with calls := n } : Tx).fails := by
    intro n hfl
    rcases hf with hf | hf
    · exact hf hfl.1
    · have := hfl.2
      simp [hf] at this
  unfold currentOrderView
  cases hc : drone.CurrentOrderID with
  | none => simpa [post_pure] using h _ t.calls
  | some cur =>
    simp only [post_orNotFound_bind, post_GetOrderForUpdate]
    refine ⟨fun hfl => absurd hfl (hnf t.calls), fun _ => ⟨fun o _ => ?_, fun _ => ?_⟩⟩
    · simp only [true_and, forall_eq', reduceCtorEq, false_implies, implies_true, and_true,
        Except.ok.injEq]
      unfold buildOrderView
      cases ha : o.AssignedDroneID with
      | none => simpa [pure_bind', post_pure, Tx.next] using h _ _
      | some a =>
        simp only [bind_assoc', pure_bind', post_orNotFound_bind, post_GetDroneForUpdate]
        refine ⟨fun hfl => absurd hfl (hnf (t.calls + 1)), fun _ => ⟨fun d _ => ?_, fun _ => ?_⟩⟩
        · simpa [post_pure, Tx.next] using h _ _
        · simpa [post_pure, Tx.next] using h _ _
    · simpa [post_pure, Tx.next] using h _ _

/-- The write of a successful `DroneHeartbeat` by a stored drone. -/
theorem DroneHeartbeat_ok (b : Backend) (env : Env) (T : Tables) (droneID : String)
    (loc : Location) (drone : Drone) (hd : lookup Drone.ID T.drones droneID = some drone)
    (hv : ValidateLocation loc = true) :
    ∃ v T', DroneHeartbeat b none env T droneID loc = (.ok v, T') ∧ T'.orders = T.orders ∧
      T'.drones = putRow b Drone.ID T.drones
        { drone with LastLocation := some loc, LastHeartbeatAt := some (env.now 1),
                     UpdatedAt := env.now 1 } := by
  unfold DroneHeartbeat
  rw [hv]
  simp only [Bool.not_true, Bool.false_eq_true, if_false]
  refine runTx_post b none _ T
    (fun x => ∃ v T', x = (.ok v, T') ∧ T'.orders = T.orders ∧ T'.drones = _) (by simp) ?_
  intro _
  rw [post_bind, post_getOrCreateDrone]
  cases b <;>
    simp [post_UpdateDrone_bind, post_Commit_bind, Tx.fails, Tx.start, Tx.next, hd] <;>
    (apply post_currentOrderView_ok _ _ (by simp)
     intro v n
     refine ⟨v, _, ⟨rfl, rfl⟩, ?_, ?_⟩ <;> simp [Tx.final])

theorem lookup_singleton {α : Type} (key : α → String) (x : α) :
    lookup key [x] (key x) = some x := by
  simp [lookup]

theorem putRow_singleton {α : Type} (key : α → String) (b : Backend) (x y : α)
    (h : key y = key x) : putRow b key [x] y = [y] := by
  cases b <;> simp [putRow, assignRow, replaceRow, lookup, h]

theorem replaceRow_fresh {α : Type} (key : α → String) (xs : List α) (x : α)
    (h : lookup key xs (key x) = none) : replaceRow key xs x = xs := by
  unfold replaceRow
  have hne := (lookup_eq_none key).1 h
  calc xs.map (fun y => if key y == key x then x else y) = xs.map id := by
        apply List.map_congr_left
        intro y hy
        simp [hne y hy]
    _ = xs := List.map_id xs

theorem putRow_last {α : Type} (key : α → String) (b : Backend) (xs : List α) (x y : α)
    (h : lookup key xs (key x) = none) (hk : key y = key x) :
    putRow b key (xs ++ [x]) y = xs ++ [y] := by
  have hs : (lookup key (xs ++ [x]) (key y)).isSome := by
    rw [hk, lookup_append_fresh key xs x (key x) h]
    simp
  rw [putRow_eq key b _ _ hs]
  have hr := replaceRow_fresh key xs y (by rw [hk]; exact h)
  unfold replaceRow at hr ⊢
  rw [List.map_append, hr]
  simp [hk]

theorem scenario_coordinates :
    ValidateLocation scenarioOrigin = true ∧ ValidateLocation scenarioDest = true := by
  constructor
  · apply ValidateLocation_of_inRange
    simp only [InRange, scenarioOrigin, F64.within]
    norm_num
  · apply ValidateLocation_of_inRange
    simp only [InRange, scenarioDest, F64.within]
    norm_num

/-- A drone the store has not seen reserves the one order of the store, which
is eligible: what is returned and what the store then holds. -/
theorem DroneReserveJob_first (b : Backend) (env : Env) (T : Tables) (droneID : String)
    (o : Order) (hO : T.orders = [o]) (he : Eligible [.Created, .HandoffRequested] o)
    (hn : lookup Drone.ID T.drones droneID = none) :
    ∃ T', DroneReserveJob b none env T droneID
        = (.ok (reservedFor o droneID (env.now 1)), T') ∧
      T'.orders = [reservedFor o droneID (env.now 1)] ∧
      T'.drones = T.drones ++
        [{ ID := droneID, Status := .Active, LastLocation := none, LastHeartbeatAt := none,
           CurrentOrderID := some o.ID, CreatedAt := env.now 0, UpdatedAt := env.now 1 }] := by
  have hscan : memReserveNextOrder [.Created, .HandoffRequested] T.orders = some o := by
    have h1 := he.1
    have h2 := he.2
    simp only [List.mem_cons, List.mem_singleton, List.not_mem_nil, or_false] at h2
    rcases h2 with h2 | h2 <;> simp [hO, memReserveNextOrder, reserveScan, h1, h2]
  have hfree : FreeDrone T droneID := by
    intro d hd
    rw [hn] at hd
    cases hd
  obtain ⟨T', hT'⟩ := DroneReserveJob_succeeds b env T droneID o hfree hscan
  refine ⟨T', hT', ?_⟩
  apply DroneReserveJob_ok_elim b none env T droneID _ T' hT'
  intro o' drone drones' hg _ _ hr _ hOrd hDr
  rw [hscan] at hr
  cases hr
  rcases hg with ⟨hl, -⟩ | ⟨-, hdrone, hdrones⟩
  · rw [hn] at hl
    cases hl
  · constructor
    · rw [hOrd, hO]
      exact putRow_singleton Order.ID b _ _ rfl
    · rw [hDr, hdrones, hdrone]
      exact putRow_last Drone.ID b _ _ _ hn rfl

/-- C26. From the empty store, on either store implementation and whatever the
clock and identifier readings (the store calls succeeding), for two distinct
drone ids `A` and `B` and a location `L` within range: `SubmitOrder` with origin
(24.7136, 46.6753) and destination (24.7743, 46.7386), `DroneReserveJob(A)`,
`DronePickup(A)`, `DroneHeartbeat(A, L)`, `DroneMarkBroken(A)`,
`DroneReserveJob(B)`, `DronePickup(B)` and `DroneDeliver(B)` all succeed. After
`DroneMarkBroken(A)` the stored order is HANDOFF_REQUESTED with `HandoffOrigin = L`
and no assigned drone; after `DroneReserveJob(B)` it is RESERVED and assigned
to `B`; at the end it is DELIVERED and the stored drone `B` has no current order. -/
theorem handoff_scenario (b : Backend) (e1 e2 e3 e4 e5 e6 e7 e8 : Env) (user A B : String)
    (L : Location) (hAB : A ≠ B) (hL : InRange L) :
    ∃ o1 S1 o2 S2 o3 S3 v4 S4 d5 S5 o5 o6 S6 o7 S7 o8 S8 dB,
      SubmitOrder b none e1 Tables.empty user scenarioOrigin scenarioDest = (.ok o1, S1) ∧
      DroneReserveJob b none e2 S1 A = (.ok o2, S2) ∧
      DronePickup b none e3 S2 A o1.ID = (.ok o3, S3) ∧
      DroneHeartbeat b none e4 S3 A L = (.ok v4, S4) ∧
      DroneMarkBroken b none e5 S4 A = (.ok d5, S5) ∧
      lookup Order.ID S5.orders o1.ID = some o5 ∧ o5.Status = .HandoffRequested ∧
      o5.HandoffOrigin = some L ∧ o5.AssignedDroneID = none ∧
      DroneReserveJob b none e6 S5 B = (.ok o6, S6) ∧
      lookup Order.ID S6.orders o1.ID = some o6 ∧ o6.Status = .Reserved ∧
      o6.AssignedDroneID = some B ∧
      DronePickup b none e7 S6 B o1.ID = (.ok o7, S7) ∧
      DroneDeliver b none e8 S7 B o1.ID = (.ok o8, S8) ∧
      lookup Order.ID S8.orders o1.ID = some o8 ∧ o8.Status = .Delivered ∧
      lookup Drone.ID S8.drones B = some dB ∧ dB.CurrentOrderID = none := by
  have hvL : ValidateLocation L = true := ValidateLocation_of_inRange L hL
  -- SubmitOrder
  obtain ⟨S1, h1, hO1, hD1⟩ := SubmitOrder_ok b e1 Tables.empty user scenarioOrigin
    scenarioDest rfl scenario_coordinates.1 scenario_coordinates.2
  have hE1 : Eligible [.Created, .HandoffRequested]
      (submitted e1 user scenarioOrigin scenarioDest) := ⟨rfl, by simp [submitted]⟩
  have hO1' : S1.orders = [submitted e1 user scenarioOrigin scenarioDest] := hO1
  have hD1' : S1.drones = [] := hD1
  generalize submitted e1 user scenarioOrigin scenarioDest = o1 at h1 hO1' hE1
  -- DroneReserveJob(A)
  obtain ⟨S2, h2, hO2, hD2⟩ := DroneReserveJob_first b e2 S1 A o1 hO1' hE1 (by rw [hD1']; rfl)
  rw [hD1', List.nil_append] at hD2
  have hl2 : lookup Order.ID S2.orders (reservedFor o1 A (e2.now 1)).ID
      = some (reservedFor o1 A (e2.now 1)) := by
    rw [hO2]
    exact lookup_singleton Order.ID _
  -- DronePickup(A)
  obtain ⟨S3, h3, hO3, hD3⟩ := DronePickup_ok b e3 S2 (reservedFor o1 A (e2.now 1)) A hl2 rfl
    (Or.inl rfl)
  rw [hD2] at hD3
  generalize hdA : Drone.mk A .Active none none (some o1.ID) (e2.now 0) (e2.now 1) = dA
    at hD2 hD3
  have hdAid : dA.ID = A := by rw [← hdA]
  have hdAc : dA.CurrentOrderID = some o1.ID := by rw [← hdA]
  generalize ho3 :
    ({ reservedFor o1 A (e2.now 1) with
       Status := .PickedUp, PickedUpAt := some (e3.now 0), UpdatedAt := e3.now 0 } : Order) = o3
    at h3 hO3
  have ho3id : o3.ID = o1.ID := by rw [← ho3]; rfl
  have ho3s : o3.Status = .PickedUp := by rw [← ho3]
  rw [hO2, putRow_singleton Order.ID b (reservedFor o1 A (e2.now 1)) o3 ho3id] at hO3
  -- DroneHeartbeat(A, L)
  have hl3 : lookup Drone.ID S3.drones A = some dA := by
    rw [hD3, ← hdAid]
    exact lookup_singleton Drone.ID _
  obtain ⟨v4, S4, h4, hO4, hD4⟩ := DroneHeartbeat_ok b e4 S3 A L dA hl3 hvL
  rw [hO3] at hO4
  generalize hdA4 :
    ({ dA with
       LastLocation := some L, LastHeartbeatAt := some (e4.now 1),
       UpdatedAt := e4.now 1 } : Drone) = dA4 at hD4
  have hdA4id : dA4.ID = A := by rw [← hdA4]; exact hdAid
  have hdA4c : dA4.CurrentOrderID = some o3.ID := by rw [← hdA4, ho3id]; exact hdAc
  have hdA4l : dA4.LastLocation = some L := by rw [← hdA4]
  rw [hD3, putRow_singleton Drone.ID b dA dA4 (hdA4id.trans hdAid.symm)] at hD4
  -- DroneMarkBroken(A)
  have hl4d : lookup Drone.ID S4.drones dA4.ID = some dA4 := by
    rw [hD4]
    exact lookup_singleton Drone.ID _
  have hl4o : lookup Order.ID S4.orders o3.ID = some o3 := by
    rw [hO4]
    exact lookup_singleton Order.ID _
  obtain ⟨S5, h5, hO5, hD5⟩ := DroneMarkBroken_holding b e5 S4 dA4 o3 hl4d hdA4c hl4o
    (Or.inl ho3s)
  rw [hdA4id] at h5
  have hid5 : (released o3 dA4 (e5.now 1)).ID = o3.ID := by simp [released, ho3s]
  rw [hO4, putRow_singleton Order.ID b o3 _ hid5] at hO5
  have ho5s : (released o3 dA4 (e5.now 1)).Status = .HandoffRequested := by
    simp [released, ho3s]
  have ho5h : (released o3 dA4 (e5.now 1)).HandoffOrigin = some L := by
    simp [released, ho3s, hdA4l]
  have ho5a : (released o3 dA4 (e5.now 1)).AssignedDroneID = none := by
    simp [released, ho3s]
  generalize released o3 dA4 (e5.now 1) = o5 at hO5 hid5 ho5s ho5h ho5a
  have ho5id : o5.ID = o1.ID := hid5.trans ho3id
  generalize hdA5 :
    ({ dA4 with Status := .Broken, CurrentOrderID := none, UpdatedAt := e5.now 1 } : Drone) = dA5
    at h5 hD5
  have hdA5id : dA5.ID = A := by rw [← hdA5]; exact hdA4id
  rw [hD4, putRow_singleton Drone.ID b dA4 dA5 (hdA5id.trans hdA4id.symm)] at hD5
  -- DroneReserveJob(B)
  have hn5 : lookup Drone.ID S5.drones B = none := by
    rw [hD5]
    simp [lookup, hdA5id, hAB]
  obtain ⟨S6, h6, hO6, hD6⟩ := DroneReserveJob_first b e6 S5 B o5 hO5
    ⟨ho5a, by simp [ho5s]⟩ hn5
  rw [hD5] at hD6
  have hl6 : lookup Order.ID S6.orders (reservedFor o5 B (e6.now 1)).ID
      = some (reservedFor o5 B (e6.now 1)) := by
    rw [hO6]
    exact lookup_singleton Order.ID _
  -- DronePickup(B)
  obtain ⟨S7, h7, hO7, hD7⟩ := DronePickup_ok b e7 S6 (reservedFor o5 B (e6.now 1)) B hl6 rfl
    (Or.inl rfl)
  rw [hD6] at hD7
  generalize hdB : Drone.mk B .Active none none (some o5.ID) (e6.now 0) (e6.now 1) = dB
    at hD6 hD7
  have hdBid : dB.ID = B := by rw [← hdB]
  generalize ho7 :
    ({ reservedFor o5 B (e6.now 1) with
       Status := .PickedUp, PickedUpAt := some (e7.now 0), UpdatedAt := e7.now 0 } : Order) = o7
    at h7 hO7
  have ho7id : o7.ID = o1.ID := by rw [← ho7]; exact ho5id
  have ho7s : o7.Status = .PickedUp := by rw [← ho7]
  have ho7a : o7.AssignedDroneID = some B := by rw [← ho7]; rfl
  have ho7id' : o7.ID = (reservedFor o5 B (e6.now 1)).ID := by rw [← ho7]
  rw [hO6, putRow_singleton Order.ID b (reservedFor o5 B (e6.now 1)) o7 ho7id'] at hO7
  -- DroneDeliver(B)
  have hl7o : lookup Order.ID S7.orders o7.ID = some o7 := by
    rw [hO7]
    exact lookup_singleton Order.ID _
  have hl7d : lookup Drone.ID S7.drones B = some dB := by
    rw [hD7]
    simp [lookup, hdA5id, hAB, hdBid]
  obtain ⟨S8, h8, hO8, hD8⟩ := completeOrderForDrone_ok b e8 S7 o7 B dB .Delivered "" hl7o
    ho7s ho7a hl7d
  have hid8 : (completed o7 .Delivered "" (e8.now 0)).ID = o7.ID := by simp [completed]
  rw [hO7, putRow_singleton Order.ID b o7 _ hid8] at hO8
  have hn7 : lookup Drone.ID [dA5] dB.ID = none := by simp [lookup, hdA5id, hdBid, hAB]
  rw [hD7, putRow_last Drone.ID b [dA5] dB
    { dB with CurrentOrderID := none, UpdatedAt := e8.now 0 } hn7 rfl] at hD8
  refine ⟨o1, S1, _, S2, o3, S3, v4, S4, _, S5, o5, _, S6, o7, S7,
    completed o7 .Delivered "" (e8.now 0), S8,
    { dB with CurrentOrderID := none, UpdatedAt := e8.now 0 },
    h1, h2, ?_, h4, h5, ?_, ho5s, ho5h, ho5a, h6, ?_, rfl, rfl, ?_, ?_, ?_, ?_, ?_, rfl⟩
  · exact h3
  · rw [hO5, ← ho5id]
    exact lookup_singleton Order.ID _
  · rw [← ho5id]
    exact hl6
  · rw [← ho5id]
    exact h7
  · rw [← ho7id]
    exact h8
  · rw [hO8, ← ho7id, ← hid8]
    exact lookup_singleton Order.ID _
  · simp [completed]
  · rw [hD8]
    simp [lookup, hdA5id, hAB, hdBid]

/-- C26, on the in-memory store with the readings of `sampleEnv`, for the user
`u1`, the drones `drone-a` and `drone-b` and the heartbeat location (5, 6). -/
theorem handoff_scenario_witness :
    "drone-a" ≠ "drone-b" ∧ InRange sampleDronePos ∧
    ∃ o1 S1 o2 S2 o3 S3 v4 S4 d5 S5 o5 o6 S6 o7 S7 o8 S8 dB,
      SubmitOrder .mem none sampleEnv Tables.empty "u1" scenarioOrigin scenarioDest
        = (.ok o1, S1) ∧
      DroneReserveJob .mem none sampleEnv S1 "drone-a" = (.ok o2, S2) ∧
      DronePickup .mem none sampleEnv S2 "drone-a" o1.ID = (.ok o3, S3) ∧
      DroneHeartbeat .mem none sampleEnv S3 "drone-a" sampleDronePos = (.ok v4, S4) ∧
      DroneMarkBroken .mem none sampleEnv S4 "drone-a" = (.ok d5, S5) ∧
      lookup Order.ID S5.orders o1.ID = some o5 ∧ o5.Status = .HandoffRequested ∧
      o5.HandoffOrigin = some sampleDronePos ∧ o5.AssignedDroneID = none ∧
      DroneReserveJob .mem none sampleEnv S5 "drone-b" = (.ok o6, S6) ∧
      lookup Order.ID S6.orders o1.ID = some o6 ∧ o6.Status = .Reserved ∧
      o6.AssignedDroneID = some "drone-b" ∧
      DronePickup .mem none sampleEnv S6 "drone-b" o1.ID = (.ok o7, S7) ∧
      DroneDeliver .mem none sampleEnv S7 "drone-b" o1.ID = (.ok o8, S8) ∧
      lookup Order.ID S8.orders o1.ID = some o8 ∧ o8.Status = .Delivered ∧
      lookup Drone.ID S8.drones "drone-b" = some dB ∧ dB.CurrentOrderID = none :=
  ⟨by decide, by decide,
   handoff_scenario .mem sampleEnv sampleEnv sampleEnv sampleEnv sampleEnv sampleEnv sampleEnv
     sampleEnv "u1" "drone-a" "drone-b" sampleDronePos (by decide) (by decide)⟩

/-! ## Roles, references and identifiers -/

/-- C27. `ValidateRole` returns true exactly for `admin`, `enduser` and `drone`. A
token request whose body decodes to an empty name, or to a role `ValidateRole`
refuses, is answered by `writeError(ErrInvalid)`, that is with status 422 and
an error body of code `invalid`, whatever `IssueToken` would do: the body holds
no token. -/
theorem token_request_rejected (IssueToken : String → String → Except DomainError (String × Time))
    (req : TokenRequest) :
    (∀ role, ValidateRole role = true ↔ (role = "admin" ∨ role = "enduser" ∨ role = "drone")) ∧
    writeError .ErrInvalid = { status := 422, body := .errorResponse "invalid" "invalid request" } ∧
    ((req.Name = "" ∨ ValidateRole req.Role = false) →
      handleIssueToken IssueToken (some req) = writeError .ErrInvalid ∧
      (handleIssueToken IssueToken (some req)).status = 422 ∧
      (handleIssueToken IssueToken (some req)).body = .errorResponse "invalid" "invalid request" ∧
      ∀ token exp, (handleIssueToken IssueToken (some req)).body ≠ .token token exp) := by
  refine ⟨fun role => by simp [ValidateRole, RoleAdmin, RoleEndUser, RoleDrone], rfl, ?_⟩
  intro h
  have hr : handleIssueToken IssueToken (some req) = writeError .ErrInvalid := by
    unfold handleIssueToken
    rcases h with h | h
    · simp [h]
    · simp [h]
  rw [hr]
  exact ⟨rfl, rfl, rfl, fun _ _ h => by cases h⟩

/-- C27, at the request of `TestIssueTokenInvalidRole`: name `alice`, role
`invalid`, with an `IssueToken` that would sign anything. -/
theorem token_request_rejected_witness :
    ValidateRole "invalid" = false ∧
    handleIssueToken (fun name _ => .ok (name, 0)) (some { Name := "alice", Role := "invalid" })
      = { status := 422, body := .errorResponse "invalid" "invalid request" } ∧
    handleIssueToken (fun name _ => .ok (name, 0)) (some { Name := "alice", Role := "enduser" })
      = { status := 200, body := .token "alice" 0 } ∧
    (handleIssueToken (fun name _ => .ok (name, 0))
        (some { Name := "alice", Role := "invalid" })).status = 422 :=
  ⟨by decide, by decide, by decide,
   ((token_request_rejected (fun name _ => .ok (name, 0))
     { Name := "alice", Role := "invalid" }).2.2 (Or.inr (by decide))).2.1⟩

/-- C28. In every reachable store, for every drone id `d` and order id `o`: the
stored drone `d` has `CurrentOrderID = o` if and only if the stored order `o` has
`AssignedDroneID = d` and status RESERVED or PICKED_UP. -/
theorem drone_and_order_references_agree (b : Backend) (T : Tables) (h : Reachable b T)
    (d o : String) :
    (∃ drone, lookup Drone.ID T.drones d = some drone ∧ drone.CurrentOrderID = some o) ↔
    (∃ order, lookup Order.ID T.orders o = some order ∧ order.AssignedDroneID = some d ∧
      (order.Status = .Reserved ∨ order.Status = .PickedUp)) := by
  have hI := h.invariant
  constructor
  · rintro ⟨drone, hd, hc⟩
    obtain ⟨order, ho, hs, ha⟩ := hI.held d drone o hd hc
    exact ⟨order, ho, ha, hs⟩
  · rintro ⟨order, ho, ha, hs⟩
    exact hI.carried o order d ho hs ha

/-- C28, at `reservedStore`, where the drone `drone-a` and the order of id `""` refer
to each other. -/
theorem drone_and_order_references_agree_witness :
    Reachable .mem reservedStore ∧
    lookup Drone.ID reservedStore.drones "drone-a" = some reservedDrone ∧
    reservedDrone.CurrentOrderID = some "" ∧
    lookup Order.ID reservedStore.orders "" = some reservedOrder ∧
    reservedOrder.AssignedDroneID = some "drone-a" ∧ reservedOrder.Status = .Reserved ∧
    ((∃ drone, lookup Drone.ID reservedStore.drones "drone-a" = some drone ∧
        drone.CurrentOrderID = some "") ↔
      (∃ order, lookup Order.ID reservedStore.orders "" = some order ∧
        order.AssignedDroneID = some "drone-a" ∧
        (order.Status = .Reserved ∨ order.Status = .PickedUp))) :=
  ⟨Reachable.runAll _ Reachable.empty _, by decide, by decide, by decide, by decide, by decide,
   drone_and_order_references_agree .mem reservedStore (Reachable.runAll _ Reachable.empty _)
     "drone-a" ""⟩

/-- `DronePickup` on an order id the store does not hold. -/
theorem DronePickup_missing (b : Backend) (env : Env) (T : Tables) (droneID orderID : String)
    (ho : lookup Order.ID T.orders orderID = none) :
    DronePickup b none env T droneID orderID = (.error .ErrNotFound, T) := by
  unfold DronePickup updateOrderForDrone
  refine runTx_post b none _ T (fun x => x = (.error _, T)) (by simp) ?_
  intro _
  cases b <;>
    simp [post_GetOrderForUpdate_bind, Tx.fails, Tx.start, Tx.next, Tx.final, ho]

/-- C29. For a stored order in status HANDOFF_REQUESTED with no assigned drone,
`DronePickup` by any drone fails with Forbidden and leaves the store as it was,
and the order is one `DroneReserveJob` may hand out. In a reachable store every HANDOFF_REQUESTED order is unassigned, and a
`DronePickup` that succeeds there is the pickup of a RESERVED order by its
assigned drone. Once `DroneReserveJob` has returned the order to a drone, the
`DronePickup` of that drone succeeds. (The store calls succeeding.) -/
theorem handed_off_order_needs_reservation (b : Backend) (env : Env) (T : Tables) (o : Order)
    (droneID : String) (ho : lookup Order.ID T.orders o.ID = some o)
    (hs : o.Status = .HandoffRequested) (ha : o.AssignedDroneID = none) :
    DronePickup b none env T droneID o.ID = (.error .ErrForbidden, T) ∧
    Eligible [.Created, .HandoffRequested] o ∧
    (Reachable b T → ∀ o' ∈ T.orders, o'.Status = .HandoffRequested →
      o'.AssignedDroneID = none) ∧
    (Reachable b T → ∀ d id r T', DronePickup b none env T d id = (.ok r, T') →
      ∃ o', lookup Order.ID T.orders id = some o' ∧ o'.Status = .Reserved ∧
        o'.AssignedDroneID = some d) ∧
    (∀ env1 r T1, DroneReserveJob b none env1 T droneID = (.ok r, T1) → r.ID = o.ID →
      (DronePickup b none env T1 droneID o.ID).1 =
        .ok { r with Status := .PickedUp, PickedUpAt := some (env.now 0),
                     UpdatedAt := env.now 0 }) := by
  have hun : Reachable b T → ∀ o' ∈ T.orders, o'.Status = .HandoffRequested →
      o'.AssignedDroneID = none := by
    intro hR o' ho' hs'
    by_contra hne
    have := (hR.invariant.assigned o' ho').1 hne
    simp [KeepsDrone, hs'] at this
  refine ⟨(DronePickup_error b env T o droneID ho).1 (by simp [ha]),
    ⟨ha, by simp [hs]⟩, hun, ?_, ?_⟩
  · intro hR d id r T' hok
    cases hl : lookup Order.ID T.orders id with
    | none =>
      rw [DronePickup_missing b env T d id hl] at hok
      cases hok
    | some o' =>
      have hid := (lookup_some _ hl).2
      subst hid
      have hE := DronePickup_error b env T o' d hl
      by_cases ha' : o'.AssignedDroneID = some d
      · by_cases h1 : o'.Status = .Reserved
        · exact ⟨o', rfl, h1, ha'⟩
        · by_cases h2 : o'.Status = .HandoffRequested
          · have := hun hR o' (lookup_some _ hl).1 h2
            rw [ha'] at this
            cases this
          · rw [hE.2 ha' h1 h2] at hok
            cases hok
      · rw [hE.1 ha'] at hok
        cases hok
  · intro env1 r T1 hres hid
    have hC7 : lookup Order.ID T1.orders r.ID = some r ∧ r.Status = .Reserved ∧
        r.AssignedDroneID = some droneID := by
      apply DroneReserveJob_ok_elim b none env1 T droneID r T1 hres
      intro o1 drone drones' _ _ _ hr hreq hO _
      obtain ⟨hm, -, -⟩ := memReserveNextOrder_some [.Created, .HandoffRequested] T.orders o1 hr
      have hrid : r.ID = o1.ID := by rw [hreq]; rfl
      refine ⟨?_, by rw [hreq]; rfl, by rw [hreq]; rfl⟩
      rw [hO]
      exact lookup_putRow_self _ b _ _ (by rw [hrid]; exact isSome_of_mem _ hm)
    obtain ⟨T2, h2, -⟩ := DronePickup_ok b env T1 r droneID hC7.1 hC7.2.2 (Or.inl hC7.2.1)
    rw [← hid, h2]

/-- C29, at the order of `handoffStore`, handed off when `drone-a` broke: the
pickup by `drone-b` is refused; after `drone-b` has reserved the order, it succeeds. -/
theorem handed_off_order_needs_reservation_witness :
    lookup Order.ID handoffStore.orders handoffOrder.ID = some handoffOrder ∧
    handoffOrder.Status = .HandoffRequested ∧ handoffOrder.AssignedDroneID = none ∧
    DronePickup .mem none sampleEnv handoffStore "drone-b" handoffOrder.ID
      = (.error .ErrForbidden, handoffStore) ∧
    DroneReserveJob .mem none sampleEnv handoffStore "drone-b"
      = (.ok handedOverOrder, handedOverStore) ∧
    (DronePickup .mem none sampleEnv handedOverStore "drone-b" handoffOrder.ID).1 =
      .ok { handedOverOrder with
            Status := .PickedUp, PickedUpAt := some (sampleEnv.now 0),
            UpdatedAt := sampleEnv.now 0 } :=
  ⟨by decide, by decide, by decide,
   (handed_off_order_needs_reservation .mem sampleEnv handoffStore handoffOrder "drone-b"
     (by decide) (by decide) (by decide)).1,
   by decide,
   (handed_off_order_needs_reservation .mem sampleEnv handoffStore handoffOrder "drone-b"
     (by decide) (by decide) (by decide)).2.2.2.2 sampleEnv handedOverOrder handedOverStore
     (by decide) (by decide)⟩

/-- C30: the failing inputs. With `uuidFunc` as `service.go` defines it (it returns
the empty string), every order a successful `SubmitOrder` returns has the empty
id, and `SubmitOrder` fails on every store that holds an order with the empty
id, as the store does after a first successful `SubmitOrder`: the second call
never succeeds. -/
theorem submit_order_id_is_empty (b : Backend) (failAt : Option Nat) (env : Env) (T : Tables)
    (userID : String) (origin dest : Location) (henv : env.uuidFunc = uuidFunc) :
    (∀ r T', SubmitOrder b failAt env T userID origin dest = (.ok r, T') →
      r.ID = "" ∧ lookup Order.ID T'.orders "" ≠ none) ∧
    (lookup Order.ID T.orders "" ≠ none →
      ∃ e, SubmitOrder b failAt env T userID origin dest = (.error e, T)) := by
  have hid : newOrderID env = "" := by simp [newOrderID, henv, uuidFunc]
  constructor
  · intro r T'
    unfold SubmitOrder
    split
    · intro h; cases h
    · split
      · intro h; cases h
      · refine runTx_post b failAt _ T
          (fun x => x = (.ok r, T') → r.ID = "" ∧ lookup Order.ID T'.orders "" ≠ none)
          (by simp) ?_
        intro _
        cases b <;>
          simp [post_CreateOrder_bind, post_EnqueueEvent_bind, post_Commit_bind, post_pure,
            Tx.fails, Tx.start, Tx.next, Tx.final, hid] <;>
          (repeat' (first | intro _ | apply And.intro)) <;>
          (subst_vars
           first
           | rfl
           | (rename_i hl
              have hf := ‹lookup Order.ID T.orders "" = none›
              simp [lookup_append, hf] at hl))
  · intro hex
    unfold SubmitOrder
    split
    · exact ⟨_, rfl⟩
    · split
      · exact ⟨_, rfl⟩
      · refine runTx_post b failAt _ T (fun x => ∃ e, x = (.error e, T)) (by simp) ?_
        intro _
        cases b <;>
          simp [post_CreateOrder_bind, post_EnqueueEvent_bind, post_Commit_bind, post_pure,
            Tx.fails, Tx.start, Tx.next, Tx.final, hid, hex]

/-- C30, the failing input on the in-memory store with the readings of
`sampleEnv`: the first `SubmitOrder` returns an order whose id is the empty
string; the second, by another user with the same valid coordinates, fails
with Conflict. -/
theorem submit_order_id_is_empty_witness :
    sampleEnv.uuidFunc = uuidFunc ∧
    SubmitOrder .mem none sampleEnv Tables.empty "u1" sampleOrigin sampleDest
      = (.ok submittedOrder, submittedStore) ∧
    submittedOrder.ID = "" ∧ InRange sampleOrigin ∧ InRange sampleDest ∧
    SubmitOrder .mem none sampleEnv submittedStore "u2" sampleOrigin sampleDest
      = (.error .ErrConflict, submittedStore) ∧
    (∃ e, SubmitOrder .mem none sampleEnv submittedStore "u2" sampleOrigin sampleDest
      = (.error e, submittedStore)) :=
  ⟨rfl, by decide, by decide, by decide, by decide, by decide,
   (submit_order_id_is_empty .mem none sampleEnv submittedStore "u2" sampleOrigin sampleDest
     rfl).2 (by decide)⟩

end DroneSys
